import Mathlib

/-!
# rocFFT kernel generator and function pool

A shallow embedding of `library/src/include/function_pool.h` (the dispatch registry) and
`library/src/device/generator/generator.file.cpp` (geometry selection, 2-D bucketing and
the emitters of launcher units, declarations and the registry constructor), followed by the
properties established about them.

Conventions of the embedding.

* `size_t` values are natural numbers; where the code's arithmetic can wrap, the
  reduction modulo `2 ^ 64` is written out.
* A function that can throw returns `Except Exception _`; a function that can end the
  process (`abort()`, a failed `assert`, a division by zero, an out-of-bounds read) returns
  `Except Fatal _`.
* Generated text is kept as the sequence of chunks appended by the code (`Text`); every chunk
  renders to exactly the characters the code appends.
* Writing files is recorded as a trace of `Event`s; whether a sink can be opened is an input.
-/

namespace RocFFT

/-! ## Types declared outside the two source files -/

/-- Modelled from the spec: the enumeration `ComputeScheme` is declared in `tree_node.h`, which
is not among the given sources. The constructors are the enumerators the two source files name;
`CS_OTHER` stands for every other enumerator (the decomposition schemes are "extensible"). -/
inductive ComputeScheme
  | CS_KERNEL_STOCKHAM
  | CS_KERNEL_STOCKHAM_BLOCK_CC
  | CS_KERNEL_STOCKHAM_BLOCK_RC
  | CS_KERNEL_STOCKHAM_TRANSPOSE_XY_Z
  | CS_KERNEL_STOCKHAM_TRANSPOSE_Z_XY
  | CS_KERNEL_2D_SINGLE
  | CS_OTHER (code : Nat)
  deriving DecidableEq, Repr

/-- Modelled from the spec: `rocfft_precision` (declared in `rocfft.h`) has the two values
`Single` and `Double`. -/
inductive rocfft_precision
  | rocfft_precision_single
  | rocfft_precision_double
  deriving DecidableEq, Repr

/-- The transpose modes `SBRC_TRANSPOSE_TYPE` switched on by the transpose lookups. -/
inductive SBRC_TRANSPOSE_TYPE
  | DIAGONAL
  | TILE_ALIGNED
  | TILE_UNALIGNED
  deriving DecidableEq, Repr

/-- A kernel entry `DevFnCall`: a function pointer. `none` is the null pointer, `some f` the
address of the launcher whose symbol is `f`. -/
abbrev DevFnCall := Option String

/-- Exceptions thrown inside the registry: `std::unordered_map::at` throws `std::out_of_range`. -/
inductive Exception
  | out_of_range
  deriving DecidableEq, Repr

/-- Ways in which the process ends without returning. -/
inductive Fatal
  | abort
  | assertion_failed
  | division_by_zero
  | out_of_bounds
  deriving DecidableEq, Repr

/-! ## function_pool.h -/

/-- The key of the 1-D maps, `std::pair<size_t, ComputeScheme>`. -/
abbrev Key := Nat × ComputeScheme

/-- The key of the 2-D maps, `std::tuple<size_t, size_t, ComputeScheme>`. -/
abbrev Key2D := Nat × Nat × ComputeScheme

/-- A `std::unordered_map<K, DevFnCall, SimpleHash>`: its entries, each key at most once.
Keys are compared with `std::equal_to`, that is component by component. -/
structure FnMap (κ : Type) where
  entries : List (κ × DevFnCall)
  nodup : (entries.map Prod.fst).Nodup

namespace FnMap

variable {κ : Type} [DecidableEq κ]

/-- The empty map. -/
def empty : FnMap κ := ⟨[], List.nodup_nil⟩

/-- The search `find` performs: the value of the entry whose key equals `k`. -/
def find : List (κ × DevFnCall) → κ → Option DevFnCall
  | [], _ => none
  | (k', v) :: rest, k => if k' = k then some v else find rest k

/-- The member `at`: the value stored under `k`, or `std::out_of_range`. -/
def «at» (m : FnMap κ) (k : κ) : Except Exception DevFnCall :=
  match find m.entries k with
  | some v => .ok v
  | none => .error .out_of_range

end FnMap

/-- The data members of `function_pool`. -/
structure function_pool where
  function_map_single : FnMap Key
  function_map_double : FnMap Key
  function_map_single_transpose_diagonal : FnMap Key
  function_map_single_transpose_tile_aligned : FnMap Key
  function_map_single_transpose_tile_unaligned : FnMap Key
  function_map_double_transpose_diagonal : FnMap Key
  function_map_double_transpose_tile_aligned : FnMap Key
  function_map_double_transpose_tile_unaligned : FnMap Key
  function_map_single_2D : FnMap Key2D
  function_map_double_2D : FnMap Key2D

/-- The lookup `function_pool::get_function_single`; `func_pool` is the singleton that
`get_function_pool()` returns. -/
def get_function_single (func_pool : function_pool) (mykey : Key) : Except Exception DevFnCall :=
  func_pool.function_map_single.at mykey

/-- The lookup `function_pool::get_function_double`. -/
def get_function_double (func_pool : function_pool) (mykey : Key) : Except Exception DevFnCall :=
  func_pool.function_map_double.at mykey

/-- The lookup `function_pool::get_function_single_transpose`. -/
def get_function_single_transpose (func_pool : function_pool) (mykey : Key)
    (type : SBRC_TRANSPOSE_TYPE) : Except Exception DevFnCall :=
  match type with
  | .DIAGONAL => func_pool.function_map_single_transpose_diagonal.at mykey
  | .TILE_ALIGNED => func_pool.function_map_single_transpose_tile_aligned.at mykey
  | .TILE_UNALIGNED => func_pool.function_map_single_transpose_tile_unaligned.at mykey

/-- The lookup `function_pool::get_function_double_transpose`. -/
def get_function_double_transpose (func_pool : function_pool) (mykey : Key)
    (type : SBRC_TRANSPOSE_TYPE) : Except Exception DevFnCall :=
  match type with
  | .DIAGONAL => func_pool.function_map_double_transpose_diagonal.at mykey
  | .TILE_ALIGNED => func_pool.function_map_double_transpose_tile_aligned.at mykey
  | .TILE_UNALIGNED => func_pool.function_map_double_transpose_tile_unaligned.at mykey

/-- The lookup `function_pool::get_function_single_2D`. -/
def get_function_single_2D (func_pool : function_pool) (mykey : Key2D) :
    Except Exception DevFnCall :=
  func_pool.function_map_single_2D.at mykey

/-- The lookup `function_pool::get_function_double_2D`. -/
def get_function_double_2D (func_pool : function_pool) (mykey : Key2D) :
    Except Exception DevFnCall :=
  func_pool.function_map_double_2D.at mykey

/-- The test `function_pool::has_function`: the lookup for the precision runs inside `try`,
its value is discarded, and `catch(std::exception&)` turns a throw into `false`. The result is an `Except`
so that "no exception escapes" is a statement about the function and not about its type. -/
def has_function (func_pool : function_pool) (precision : rocfft_precision) (k : Key) :
    Except Exception Bool :=
  tryCatch
    (match precision with
     | .rocfft_precision_single => do
         let _ ← get_function_single func_pool k
         pure true
     | .rocfft_precision_double => do
         let _ ← get_function_double func_pool k
         pure true)
    (fun _ => pure false)

/-! ## Helpers declared outside the two source files -/

/-- Modelled from the spec: `IsPow<base>` is declared outside the given sources; the spec calls
`IsPo2`, `IsPow<3>` and `IsPow<5>` the power-of-{2,3,5} predicates, true exactly when the
length is an exact power of the base. -/
def IsPow (base u : Nat) : Bool :=
  (List.range (u + 1)).any fun k => base ^ k == u

/-- Modelled from the spec: `IsPo2` is declared outside the given sources; it is the
power-of-2 predicate, true exactly when the length is an exact power of two. -/
def IsPo2 (u : Nat) : Bool :=
  IsPow 2 u

/-- Modelled from the spec: `is_diagonal_sbrc_3D_length` is declared outside the given sources;
by the spec it is true if and only if the length is an exact power of two. -/
def is_diagonal_sbrc_3D_length (len : Nat) : Bool :=
  IsPo2 len

/-- The three power tests `get_2D_type` calls, as an input of the embedding: the functions
of `generator.file.cpp` are modelled for any implementation of them. -/
structure PowerTests where
  IsPo2 : Nat → Bool
  IsPow3 : Nat → Bool
  IsPow5 : Nat → Bool

/-- The power tests as the spec describes them. -/
def specPowerTests : PowerTests :=
  ⟨RocFFT.IsPo2, IsPow 3, IsPow 5⟩

/-- The geometry helpers `initParams` calls, as an input of the embedding:
`KernelCoreSpecs::GetWGSAndNT` (the curated table; it yields the pair `(t_wgs, t_nt)`),
`DetermineSizes` (the fallback; it yields `(wgs, nt)`) and the constant `MAX_WORK_GROUP_SIZE`.
None of the three is defined in the given sources. -/
structure GeometryHelpers where
  GetWGSAndNT : Nat → Nat × Nat
  DetermineSizes : Nat → Nat × Nat
  MAX_WORK_GROUP_SIZE : Nat

/-- The decimal rendering `std::to_string` gives a `size_t`. -/
def to_string (n : Nat) : String :=
  Nat.repr n

/-- The conversion of an `int` to `size_t` that `support_list.size() < group_num` and the
arithmetic on `group_num` apply. -/
def size_t_of_int (i : Int) : Nat :=
  (i % 2 ^ 64).toNat

/-! ## Generated text and the trace of file operations -/

/-- The ten maps of `function_pool`, as names in generated text. -/
inductive MapId
  | function_map_single
  | function_map_double
  | function_map_single_transpose_diagonal
  | function_map_single_transpose_tile_aligned
  | function_map_single_transpose_tile_unaligned
  | function_map_double_transpose_diagonal
  | function_map_double_transpose_tile_aligned
  | function_map_double_transpose_tile_unaligned
  | function_map_single_2D
  | function_map_double_2D
  deriving DecidableEq, Repr

/-- The precision a map belongs to. -/
def MapId.precision : MapId → rocfft_precision
  | .function_map_single => .rocfft_precision_single
  | .function_map_single_transpose_diagonal => .rocfft_precision_single
  | .function_map_single_transpose_tile_aligned => .rocfft_precision_single
  | .function_map_single_transpose_tile_unaligned => .rocfft_precision_single
  | .function_map_single_2D => .rocfft_precision_single
  | .function_map_double => .rocfft_precision_double
  | .function_map_double_transpose_diagonal => .rocfft_precision_double
  | .function_map_double_transpose_tile_aligned => .rocfft_precision_double
  | .function_map_double_transpose_tile_unaligned => .rocfft_precision_double
  | .function_map_double_2D => .rocfft_precision_double

/-- One chunk of generated text. A chunk that names an entry point or a file keeps that name
apart from the characters around it; `assign` also records which map and key the generated
statement `map[key] = &name;` addresses. Every chunk renders to `head ++ name ++ tail`. -/
inductive Piece
  | text (s : String)
  | incl (head file tail : String)
  | decl (head name tail : String)
  | launcher (head name tail : String)
  | assign (target : MapId) (key : Key ⊕ Key2D) (head name tail : String)
  deriving DecidableEq, Repr

/-- The characters of a chunk. -/
def Piece.render : Piece → String
  | .text s => s
  | .incl h f t => h ++ f ++ t
  | .decl h n t => h ++ n ++ t
  | .launcher h n t => h ++ n ++ t
  | .assign _ _ h n t => h ++ n ++ t

/-- Generated text: the chunks in the order the code appends them. -/
abbrev Text := List Piece

/-- The characters of a text. -/
def Text.render (t : Text) : String :=
  String.join (t.map Piece.render)

/-- An observable file operation. An `opened` event is the opening of a `std::ofstream` in its
default mode, which creates the file or truncates it to length zero. -/
inductive Event
  | opened (fileName : String)
  | wrote (fileName : String) (t : Text)
  | cout (msg : String)
  deriving DecidableEq, Repr

/-- The sequence `file.open(fileName); if(!file.is_open()) std::cout << ...; file << str;
file.close();` shared by the emitters: when the sink cannot be opened the message is printed
and the insertion into the closed stream writes nothing. -/
def write_file (openable : String → Bool) (fileName : String) (str : Text) : List Event :=
  if openable fileName then
    [.opened fileName, .wrote fileName str]
  else
    [.cout ("File: " ++ fileName ++ " could not be opened, exiting ....\n")]

/-- The indices a loop `for(size_t i = i_start; i < i_end; i++)` visits, in order. -/
def for_range (i_start i_end : Nat) : List Nat :=
  List.range' i_start (i_end - i_start)

/-- The entry-point names of the `decl` chunks of a text, in order. -/
def declaredNames : Text → List String
  | [] => []
  | .decl _ n _ :: rest => n :: declaredNames rest
  | _ :: rest => declaredNames rest

/-- The entry-point names of the `launcher` chunks of a text, in order. -/
def launcherNames : Text → List String
  | [] => []
  | .launcher _ n _ :: rest => n :: launcherNames rest
  | _ :: rest => launcherNames rest

/-- The file names of the `incl` chunks of a text, in order. -/
def includedFiles : Text → List String
  | [] => []
  | .incl _ f _ :: rest => f :: includedFiles rest
  | _ :: rest => includedFiles rest

/-- The assignments of a text, in order: map, key and entry-point name. -/
def assignments : Text → List (MapId × (Key ⊕ Key2D) × String)
  | [] => []
  | .assign m k _ n _ :: rest => (m, k, n) :: assignments rest
  | _ :: rest => assignments rest

/-- The entry-point names a text registers in the maps of one precision. -/
def registeredNames (p : rocfft_precision) (t : Text) : List String :=
  ((assignments t).filter fun a => a.1.precision = p).map fun a => a.2.2

/-- The entry-point names of the launchers written to any sink in a trace. -/
def emittedLaunchers : List Event → List String
  | [] => []
  | .wrote _ t :: rest => launcherNames t ++ emittedLaunchers rest
  | _ :: rest => emittedLaunchers rest

/-- The names of the sinks opened in a trace, in order. -/
def openedFiles : List Event → List String
  | [] => []
  | .opened f :: rest => f :: openedFiles rest
  | _ :: rest => openedFiles rest

/-- The variable `short_name_precision` of the launcher emitters: `"sp"`, replaced by `"dp"`
when `precision == "double"`. -/
def short_name_precision (precision : String) : String :=
  if precision = "double" then "dp" else "sp"

/-- The variable `complex_case_precision` of the launcher emitters: `"float2"`, replaced by
`"double2"` when `precision == "double"`. -/
def complex_case_precision (precision : String) : String :=
  if precision = "double" then "double2" else "float2"

/-! ## generator.file.cpp: declarations -/

/-- The text appended for one entry of `large1D_list` by the loop of `WriteCPUHeaders`:
the single-precision declarations, then the double-precision ones. -/
def WriteCPUHeaders_large (is_diagonal_sbrc_3D_length : Nat → Bool) (my_tuple : Key) : Text :=
  let len := my_tuple.1
  let str_len := to_string len
  let scheme := my_tuple.2
  (if scheme = .CS_KERNEL_STOCKHAM_BLOCK_CC then
    [.decl "void " ("rocfft_internal_dfn_sp_ci_ci_sbcc_" ++ str_len)
      "(const void *data_p, void *back_p);\n"]
  else if scheme = .CS_KERNEL_STOCKHAM_BLOCK_RC then
    [.decl "void " ("rocfft_internal_dfn_sp_op_ci_ci_sbrc_" ++ str_len)
      "(const void *data_p, void *back_p);\n",
     .decl "void " ("rocfft_internal_dfn_sp_op_ci_ci_sbrc3d_fft_trans_xy_z_tile_aligned_" ++ str_len)
      "(const void *data_p, void *back_p);\n",
     .decl "void " ("rocfft_internal_dfn_sp_op_ci_ci_sbrc3d_fft_trans_z_xy_tile_aligned_" ++ str_len)
      "(const void *data_p, void *back_p);\n"]
    ++ (if is_diagonal_sbrc_3D_length len then
      [.decl "void " ("rocfft_internal_dfn_sp_op_ci_ci_sbrc3d_fft_trans_xy_z_diagonal_" ++ str_len)
        "(const void *data_p, void *back_p);\n",
       .decl "void " ("rocfft_internal_dfn_sp_op_ci_ci_sbrc3d_fft_trans_z_xy_diagonal_" ++ str_len)
        "(const void *data_p, void *back_p);\n"]
    else [])
  else [])
  ++
  (if scheme = .CS_KERNEL_STOCKHAM_BLOCK_CC then
    [.decl "void " ("rocfft_internal_dfn_dp_ci_ci_sbcc_" ++ str_len)
      "(const void *data_p, void *back_p);\n"]
  else if scheme = .CS_KERNEL_STOCKHAM_BLOCK_RC then
    [.decl "void " ("rocfft_internal_dfn_dp_op_ci_ci_sbrc_" ++ str_len)
      "(const void *data_p, void *back_p);\n",
     .decl "void " ("rocfft_internal_dfn_dp_op_ci_ci_sbrc3d_fft_trans_xy_z_tile_aligned_" ++ str_len)
      "(const void *data_p, void *back_p);\n",
     .decl "void " ("rocfft_internal_dfn_dp_op_ci_ci_sbrc3d_fft_trans_z_xy_tile_aligned_" ++ str_len)
      "(const void *data_p, void *back_p);\n"]
    ++ (if is_diagonal_sbrc_3D_length len then
      [.decl "void " ("rocfft_internal_dfn_dp_op_ci_ci_sbrc3d_fft_trans_xy_z_diagonal_" ++ str_len)
        "(const void *data_p, void *back_p);\n",
       .decl "void " ("rocfft_internal_dfn_dp_op_ci_ci_sbrc3d_fft_trans_z_xy_diagonal_" ++ str_len)
        "(const void *data_p, void *back_p);\n"]
    else [])
  else [])

/-- The text appended for one entry of `support_list_2D` by the loop of `WriteCPUHeaders`. -/
def WriteCPUHeaders_2D (kernel : Key2D) : Text :=
  let str_len_1 := to_string kernel.1
  let str_len_2 := to_string kernel.2.1
  let scheme := kernel.2.2
  if scheme = .CS_KERNEL_2D_SINGLE then
    [.decl "void " ("rocfft_internal_dfn_sp_ci_ci_2D_" ++ str_len_1 ++ "_" ++ str_len_2)
      "(const void *data_p, void *back_p);\n",
     .decl "void " ("rocfft_internal_dfn_dp_ci_ci_2D_" ++ str_len_1 ++ "_" ++ str_len_2)
      "(const void *data_p, void *back_p);\n"]
  else []

/-- The string `str` that `WriteCPUHeaders` builds. -/
def WriteCPUHeaders_str (is_diagonal_sbrc_3D_length : Nat → Bool) (support_list : List Nat)
    (large1D_list : List Key) (support_list_2D : List Key2D) : Text :=
  [.text "\n", .text "#pragma once\n", .text "#if !defined( kernel_launch_generator_H )\n",
   .text "#define kernel_launch_generator_H \n",
   .text "//generated CPU function headers which call GPU kernels\n", .text "\n",
   .text "extern \"C\"\n", .text "\x7b\n", .text "\n"]
  ++ support_list.map (fun len =>
      .decl "void " ("rocfft_internal_dfn_sp_ci_ci_stoc_" ++ to_string len)
        "(const void *data_p, void *back_p);\n")
  ++ [.text "\n"]
  ++ support_list.map (fun len =>
      .decl "void " ("rocfft_internal_dfn_dp_ci_ci_stoc_" ++ to_string len)
        "(const void *data_p, void *back_p);\n")
  ++ [.text "\n"]
  ++ large1D_list.flatMap (WriteCPUHeaders_large is_diagonal_sbrc_3D_length)
  ++ [.text "\n"]
  ++ support_list_2D.flatMap WriteCPUHeaders_2D
  ++ [.text "\n", .text "\x7d\n", .text "\n", .text "#endif"]

/-- The emitter `WriteCPUHeaders`: the declarations go to `kernel_launch_generator.h`. -/
def WriteCPUHeaders (is_diagonal_sbrc_3D_length : Nat → Bool) (openable : String → Bool)
    (support_list : List Nat) (large1D_list : List Key) (support_list_2D : List Key2D) :
    List Event :=
  write_file openable "kernel_launch_generator.h"
    (WriteCPUHeaders_str is_diagonal_sbrc_3D_length support_list large1D_list support_list_2D)

/-! ## generator.file.cpp: launcher units for small sizes -/

/-- The variable `group_size` of `write_cpu_function_small`, for a catalog of `size` entries. -/
def group_size (size group_num : Nat) : Nat :=
  (size + group_num - 1) / group_num

/-- The variable `i_start` of `write_cpu_function_small` for group `j`. -/
def i_start (group_size j : Nat) : Nat :=
  j * group_size

/-- The variable `i_end` of `write_cpu_function_small` for group `j`. -/
def i_end (size group_size j : Nat) : Nat :=
  min ((j + 1) * group_size) size

/-- The string `str` that `write_cpu_function_small` builds for the group with index range
`[i_start, i_end)`. Every index of that range is below `support_list.size()`
(`i_end` is a minimum with it), so the default of `getD` is never used. -/
def write_cpu_function_small_str (support_list : List Nat) (precision : String)
    (i_start i_end : Nat) : Text :=
  [.text "\n", .text "#include \"kernel_launch.h\" \n", .text "\n"]
  ++ (for_range i_start i_end).map (fun i =>
      let str_len := to_string (support_list.getD i 0)
      .incl "#include \"" ("rocfft_kernel_" ++ str_len ++ ".h") "\" \n")
  ++ [.text "\n", .text ("//" ++ precision ++ " precision \n")]
  ++ (for_range i_start i_end).map (fun i =>
      let str_len := to_string (support_list.getD i 0)
      .launcher "POWX_SMALL_GENERATOR( "
        ("rocfft_internal_dfn_" ++ short_name_precision precision ++ "_ci_ci_stoc_" ++ str_len)
        (", fft_fwd_ip_len" ++ str_len ++ ", fft_back_ip_len" ++ str_len ++ ", fft_fwd_op_len"
          ++ str_len ++ ", fft_back_op_len" ++ str_len ++ ", "
          ++ complex_case_precision precision ++ ")\n"))

/-- The body of the loop over `j` in `write_cpu_function_small`: the text of group `j` and the
two files written for it. -/
def write_cpu_function_small_group (openable : String → Bool) (support_list : List Nat)
    (precision : String) (group_size j : Nat) : List Event :=
  let str := write_cpu_function_small_str support_list precision (i_start group_size j)
    (i_end support_list.length group_size j)
  let headerFileName := "kernel_launch_" ++ precision ++ "_" ++ to_string j ++ ".cpp.h"
  let sourceFileName := "kernel_launch_" ++ precision ++ "_" ++ to_string j ++ ".cpp"
  write_file openable headerFileName str
  ++ write_file openable sourceFileName [.incl "#include \"" headerFileName "\""]

/-- The emitter `write_cpu_function_small`. The `int group_num` is converted to `size_t` for the
comparison, the division and the loop bound; a zero divisor ends the process. When the
refusal test does not trigger, `group_num <= support_list.size()` and no sum or product
below wraps, so they are written without reduction. -/
def write_cpu_function_small (openable : String → Bool) (support_list : List Nat)
    (precision : String) (group_num : Int) : Except Fatal (List Event) :=
  if support_list.length < size_t_of_int group_num then
    .ok [.cout ("Not enough kernels to generate with " ++ toString group_num ++ " groups.\n")]
  else if size_t_of_int group_num = 0 then
    .error .division_by_zero
  else
    .ok ((List.range (size_t_of_int group_num)).flatMap
      (write_cpu_function_small_group openable support_list precision
        (group_size support_list.length (size_t_of_int group_num))))

/-! ## generator.file.cpp: launcher unit for large sizes -/

/-- The text appended for one entry of `large1D_list` by the loop of
`write_cpu_function_large`. -/
def write_cpu_function_large_entry (is_diagonal_sbrc_3D_length : Nat → Bool)
    (precision : String) (my_tuple : Key) : Text :=
  let complex_case_precision := complex_case_precision precision
  let short_name_precision := short_name_precision precision
  let len := my_tuple.1
  let str_len := to_string len
  let scheme := my_tuple.2
  if scheme = .CS_KERNEL_STOCKHAM_BLOCK_CC then
    let name_suffix := "_sbcc"
    [.incl "#include \"" ("rocfft_kernel_" ++ str_len ++ name_suffix ++ ".h") "\" \n",
     .launcher "POWX_LARGE_SBCC_GENERATOR( "
       ("rocfft_internal_dfn_" ++ short_name_precision ++ "_ci_ci_sbcc_" ++ str_len)
       (", fft_fwd_ip_len" ++ str_len ++ name_suffix ++ ", fft_back_ip_len" ++ str_len
         ++ name_suffix ++ ", fft_fwd_op_len" ++ str_len ++ name_suffix ++ ", fft_back_op_len"
         ++ str_len ++ name_suffix ++ ", " ++ complex_case_precision ++ ")\n")]
  else if scheme = .CS_KERNEL_STOCKHAM_BLOCK_RC then
    let name_suffix := "_sbrc"
    [.incl "#include \"" ("rocfft_kernel_" ++ str_len ++ name_suffix ++ ".h") "\" \n",
     .launcher "POWX_LARGE_SBRC_GENERATOR( "
       ("rocfft_internal_dfn_" ++ short_name_precision ++ "_op_ci_ci_sbrc_" ++ str_len)
       (", fft_fwd_op_len" ++ str_len ++ name_suffix ++ ", fft_back_op_len" ++ str_len
         ++ name_suffix ++ ", " ++ complex_case_precision ++ ", SBRC_2D, TILE_ALIGNED)\n"),
     .launcher "POWX_LARGE_SBRC_GENERATOR( "
       ("rocfft_internal_dfn_" ++ short_name_precision
         ++ "_op_ci_ci_sbrc3d_fft_trans_xy_z_tile_aligned_" ++ str_len)
       (", fft_fwd_op_len" ++ str_len ++ name_suffix ++ ", fft_back_op_len" ++ str_len
         ++ name_suffix ++ ", " ++ complex_case_precision
         ++ ", SBRC_3D_FFT_TRANS_XY_Z, TILE_ALIGNED)\n"),
     .launcher "POWX_LARGE_SBRC_GENERATOR( "
       ("rocfft_internal_dfn_" ++ short_name_precision
         ++ "_op_ci_ci_sbrc3d_fft_trans_z_xy_tile_aligned_" ++ str_len)
       (", fft_fwd_op_len" ++ str_len ++ name_suffix ++ ", fft_back_op_len" ++ str_len
         ++ name_suffix ++ ", " ++ complex_case_precision
         ++ ", SBRC_3D_FFT_TRANS_Z_XY, TILE_ALIGNED)\n")]
    ++ (if is_diagonal_sbrc_3D_length len then
      [.launcher "POWX_LARGE_SBRC_GENERATOR( "
         ("rocfft_internal_dfn_" ++ short_name_precision
           ++ "_op_ci_ci_sbrc3d_fft_trans_xy_z_diagonal_" ++ str_len)
         (", fft_fwd_op_len" ++ str_len ++ name_suffix ++ ", fft_back_op_len" ++ str_len
           ++ name_suffix ++ ", " ++ complex_case_precision
           ++ ", SBRC_3D_FFT_TRANS_XY_Z, DIAGONAL)\n"),
       .launcher "POWX_LARGE_SBRC_GENERATOR( "
         ("rocfft_internal_dfn_" ++ short_name_precision
           ++ "_op_ci_ci_sbrc3d_fft_trans_z_xy_diagonal_" ++ str_len)
         (", fft_fwd_op_len" ++ str_len ++ name_suffix ++ ", fft_back_op_len" ++ str_len
           ++ name_suffix ++ ", " ++ complex_case_precision
           ++ ", SBRC_3D_FFT_TRANS_Z_XY, DIAGONAL)\n")]
    else [])
  else []

/-- The string `str` that `write_cpu_function_large` builds. -/
def write_cpu_function_large_str (is_diagonal_sbrc_3D_length : Nat → Bool)
    (large1D_list : List Key) (precision : String) : Text :=
  [.text "\n", .text "#include \"kernel_launch.h\" \n", .text "\n",
   .text ("//" ++ precision ++ " precision \n"), .text "\n"]
  ++ large1D_list.flatMap (write_cpu_function_large_entry is_diagonal_sbrc_3D_length precision)

/-- The emitter `write_cpu_function_large`. -/
def write_cpu_function_large (is_diagonal_sbrc_3D_length : Nat → Bool)
    (openable : String → Bool) (large1D_list : List Key) (precision : String) : List Event :=
  let str := write_cpu_function_large_str is_diagonal_sbrc_3D_length large1D_list precision
  let headerFileName := "kernel_launch_" ++ precision ++ "_large.cpp.h"
  let sourceFileName := "kernel_launch_" ++ precision ++ "_large.cpp"
  write_file openable headerFileName str
  ++ write_file openable sourceFileName [.incl "#include \"" headerFileName "\""]

/-! ## generator.file.cpp: launcher units for fused 2-D kernels -/

/-- The classifier `get_2D_type`: the nine tests in the order of the source, then `abort()`.
The scheme component of `dim` is not read. -/
def get_2D_type (T : PowerTests) (dim : Key2D) : Except Fatal String :=
  if T.IsPo2 dim.1 && T.IsPo2 dim.2.1 then .ok "pow2"
  else if T.IsPow3 dim.1 && T.IsPow3 dim.2.1 then .ok "pow3"
  else if T.IsPow5 dim.1 && T.IsPow5 dim.2.1 then .ok "pow5"
  else if T.IsPo2 dim.1 && T.IsPow3 dim.2.1 then .ok "mix_pow2_3"
  else if T.IsPow3 dim.1 && T.IsPo2 dim.2.1 then .ok "mix_pow3_2"
  else if T.IsPow3 dim.1 && T.IsPow5 dim.2.1 then .ok "mix_pow3_5"
  else if T.IsPow5 dim.1 && T.IsPow3 dim.2.1 then .ok "mix_pow5_3"
  else if T.IsPo2 dim.1 && T.IsPow5 dim.2.1 then .ok "mix_pow2_5"
  else if T.IsPow5 dim.1 && T.IsPo2 dim.2.1 then .ok "mix_pow5_2"
  else .error .abort

/-- The helper `open_2D_file`. The map `files` from bucket name to open stream is kept as the
list of bucket names it holds (a stream that fails to open ends the process, so every stream in
the map is open); a stream is identified by the name of its file, which is returned with the
new map and the file operations performed. The call `files.emplace(type, headerFileName)`
constructs its element, a `std::ofstream` on `headerFileName`, before it looks the key up: for
a new bucket that stream is the one inserted, and for a bucket already in the map the stream
just constructed is discarded after it has opened (and so truncated) the header once more,
while the stream of the first call is reused for the text; no test reads the discarded
stream. The test after the creation of the source stream reads `file`, the header stream,
whose state `file.is_open()` is the one the first test read; no branch is taken on the source
stream, and text inserted into a source stream that failed to open is lost. -/
def open_2D_file (T : PowerTests) (openable : String → Bool) (dim : Key2D) (precision : String)
    (files : List String) : Except Fatal (String × List String × List Event) :=
  match get_2D_type T dim with
  | .error e => .error e
  | .ok type =>
    let headerFileName := "kernel_launch_" ++ precision ++ "_2D_" ++ type ++ ".cpp.h"
    if type ∈ files then
      .ok (headerFileName, files,
        if openable headerFileName then [.opened headerFileName] else [])
    else
      let file_is_open := openable headerFileName
      if !file_is_open then
        .error .abort
      else
        let sourceFileName := "kernel_launch_" ++ precision ++ "_2D_" ++ type ++ ".cpp"
        let sourceFile_is_open := openable sourceFileName
        if !file_is_open then
          .error .abort
        else
          .ok (headerFileName, files ++ [type],
            [.opened headerFileName,
             .wrote headerFileName [.text "#include \"kernel_launch.h\"\n"]]
            ++ (if sourceFile_is_open then
                  [.opened sourceFileName,
                   .wrote sourceFileName [.incl "#include \"" headerFileName "\""]]
                else []))

/-- The loop of `write_cpu_function_2D` over the remaining entries, with the map `files`. -/
def write_cpu_function_2D_loop (T : PowerTests) (openable : String → Bool) (precision : String) :
    List Key2D → List String → Except Fatal (List Event)
  | [], _ => .ok []
  | kernel :: rest, files =>
    match open_2D_file T openable kernel precision files with
    | .error e => .error e
    | .ok (file, files', opening) =>
      let str_len_1 := to_string kernel.1
      let str_len_2 := to_string kernel.2.1
      let length_suffix := "_2D_" ++ str_len_1 ++ "_" ++ str_len_2
      let scheme := kernel.2.2
      if scheme = .CS_KERNEL_2D_SINGLE then
        match write_cpu_function_2D_loop T openable precision rest files' with
        | .error e => .error e
        | .ok later =>
          .ok (opening
            ++ [.wrote file [.incl "#include \"" ("rocfft_kernel" ++ length_suffix ++ ".h") "\"\n"],
                .wrote file [.launcher "POWX_SMALL_GENERATOR("
                  ("rocfft_internal_dfn_" ++ short_name_precision precision ++ "_ci_ci"
                    ++ length_suffix)
                  (", fft_fwd_ip" ++ length_suffix ++ ", fft_back_ip" ++ length_suffix
                    ++ ", fft_fwd_op" ++ length_suffix ++ ", fft_back_op" ++ length_suffix
                    ++ ", " ++ complex_case_precision precision ++ ")\n")]]
            ++ later)
      else
        .error .abort

/-- The emitter `write_cpu_function_2D`. -/
def write_cpu_function_2D (T : PowerTests) (openable : String → Bool) (list_2D : List Key2D)
    (precision : String) : Except Fatal (List Event) :=
  write_cpu_function_2D_loop T openable precision list_2D []

/-! ## generator.file.cpp: the registry constructor -/

/-- The text appended for one entry of `large1D_list` by the single-precision loop of
`AddCPUFunctionToPool`. -/
def AddCPUFunctionToPool_large_single (is_diagonal_sbrc_3D_length : Nat → Bool)
    (my_tuple : Key) : Text :=
  let len := my_tuple.1
  let str_len := to_string len
  let scheme := my_tuple.2
  if scheme = .CS_KERNEL_STOCKHAM_BLOCK_CC then
    [.assign .function_map_single (.inl (len, .CS_KERNEL_STOCKHAM_BLOCK_CC))
      ("\tfunction_map_single[std::make_pair(" ++ str_len ++ ", CS_KERNEL_STOCKHAM_BLOCK_CC)] = &")
      ("rocfft_internal_dfn_sp_ci_ci_sbcc_" ++ str_len) ";\n"]
  else if scheme = .CS_KERNEL_STOCKHAM_BLOCK_RC then
    [.assign .function_map_single (.inl (len, .CS_KERNEL_STOCKHAM_BLOCK_RC))
      ("\tfunction_map_single[std::make_pair(" ++ str_len ++ ", CS_KERNEL_STOCKHAM_BLOCK_RC)] = &")
      ("rocfft_internal_dfn_sp_op_ci_ci_sbrc_" ++ str_len) ";\n",
     .assign .function_map_single_transpose_tile_aligned
      (.inl (len, .CS_KERNEL_STOCKHAM_TRANSPOSE_XY_Z))
      ("\tfunction_map_single_transpose_tile_aligned[std::make_pair(" ++ str_len
        ++ ", CS_KERNEL_STOCKHAM_TRANSPOSE_XY_Z)] = &")
      ("rocfft_internal_dfn_sp_op_ci_ci_sbrc3d_fft_trans_xy_z_tile_aligned_" ++ str_len) ";\n",
     .assign .function_map_single_transpose_tile_aligned
      (.inl (len, .CS_KERNEL_STOCKHAM_TRANSPOSE_Z_XY))
      ("\tfunction_map_single_transpose_tile_aligned[std::make_pair(" ++ str_len
        ++ ", CS_KERNEL_STOCKHAM_TRANSPOSE_Z_XY)] = &")
      ("rocfft_internal_dfn_sp_op_ci_ci_sbrc3d_fft_trans_z_xy_tile_aligned_" ++ str_len) ";\n"]
    ++ (if is_diagonal_sbrc_3D_length len then
      [.assign .function_map_single_transpose_diagonal
        (.inl (len, .CS_KERNEL_STOCKHAM_TRANSPOSE_XY_Z))
        ("\tfunction_map_single_transpose_diagonal[std::make_pair(" ++ str_len
          ++ ", CS_KERNEL_STOCKHAM_TRANSPOSE_XY_Z)] = &")
        ("rocfft_internal_dfn_sp_op_ci_ci_sbrc3d_fft_trans_xy_z_diagonal_" ++ str_len) ";\n",
       .assign .function_map_single_transpose_diagonal
        (.inl (len, .CS_KERNEL_STOCKHAM_TRANSPOSE_Z_XY))
        ("\tfunction_map_single_transpose_diagonal[std::make_pair(" ++ str_len
          ++ ", CS_KERNEL_STOCKHAM_TRANSPOSE_Z_XY)] = &")
        ("rocfft_internal_dfn_sp_op_ci_ci_sbrc3d_fft_trans_z_xy_diagonal_" ++ str_len) ";\n"]
    else [])
  else []

/-- The text appended for one entry of `large1D_list` by the double-precision loop of
`AddCPUFunctionToPool`. -/
def AddCPUFunctionToPool_large_double (is_diagonal_sbrc_3D_length : Nat → Bool)
    (my_tuple : Key) : Text :=
  let len := my_tuple.1
  let str_len := to_string len
  let scheme := my_tuple.2
  if scheme = .CS_KERNEL_STOCKHAM_BLOCK_CC then
    [.assign .function_map_double (.inl (len, .CS_KERNEL_STOCKHAM_BLOCK_CC))
      ("\tfunction_map_double[std::make_pair(" ++ str_len ++ ", CS_KERNEL_STOCKHAM_BLOCK_CC)] = &")
      ("rocfft_internal_dfn_dp_ci_ci_sbcc_" ++ str_len) ";\n"]
  else if scheme = .CS_KERNEL_STOCKHAM_BLOCK_RC then
    [.assign .function_map_double (.inl (len, .CS_KERNEL_STOCKHAM_BLOCK_RC))
      ("\tfunction_map_double[std::make_pair(" ++ str_len ++ ", CS_KERNEL_STOCKHAM_BLOCK_RC)] = &")
      ("rocfft_internal_dfn_dp_op_ci_ci_sbrc_" ++ str_len) ";\n",
     .assign .function_map_double_transpose_tile_aligned
      (.inl (len, .CS_KERNEL_STOCKHAM_TRANSPOSE_XY_Z))
      ("\tfunction_map_double_transpose_tile_aligned[std::make_pair(" ++ str_len
        ++ ", CS_KERNEL_STOCKHAM_TRANSPOSE_XY_Z)] = &")
      ("rocfft_internal_dfn_dp_op_ci_ci_sbrc3d_fft_trans_xy_z_tile_aligned_" ++ str_len) ";\n",
     .assign .function_map_double_transpose_tile_aligned
      (.inl (len, .CS_KERNEL_STOCKHAM_TRANSPOSE_Z_XY))
      ("\tfunction_map_double_transpose_tile_aligned[std::make_pair(" ++ str_len
        ++ ", CS_KERNEL_STOCKHAM_TRANSPOSE_Z_XY)] = &")
      ("rocfft_internal_dfn_dp_op_ci_ci_sbrc3d_fft_trans_z_xy_tile_aligned_" ++ str_len) ";\n"]
    ++ (if is_diagonal_sbrc_3D_length len then
      [.assign .function_map_double_transpose_diagonal
        (.inl (len, .CS_KERNEL_STOCKHAM_TRANSPOSE_XY_Z))
        ("\tfunction_map_double_transpose_diagonal[std::make_pair(" ++ str_len
          ++ ", CS_KERNEL_STOCKHAM_TRANSPOSE_XY_Z)] = &")
        ("rocfft_internal_dfn_dp_op_ci_ci_sbrc3d_fft_trans_xy_z_diagonal_" ++ str_len) ";\n",
       .assign .function_map_double_transpose_diagonal
        (.inl (len, .CS_KERNEL_STOCKHAM_TRANSPOSE_Z_XY))
        ("\tfunction_map_double_transpose_diagonal[std::make_pair(" ++ str_len
          ++ ", CS_KERNEL_STOCKHAM_TRANSPOSE_Z_XY)] = &")
        ("rocfft_internal_dfn_dp_op_ci_ci_sbrc3d_fft_trans_z_xy_diagonal_" ++ str_len) ";\n"]
    else [])
  else []

/-- The loop of `AddCPUFunctionToPool` over `support_list_2D_single`: an entry whose scheme is
not `CS_KERNEL_2D_SINGLE` ends the process. -/
def AddCPUFunctionToPool_2D_single : List Key2D → Except Fatal Text
  | [] => .ok []
  | kernel :: rest =>
    let str_len_1 := to_string kernel.1
    let str_len_2 := to_string kernel.2.1
    let scheme := kernel.2.2
    if scheme = .CS_KERNEL_2D_SINGLE then
      match AddCPUFunctionToPool_2D_single rest with
      | .error e => .error e
      | .ok later =>
        .ok (.assign .function_map_single_2D (.inr (kernel.1, kernel.2.1, .CS_KERNEL_2D_SINGLE))
          ("\tfunction_map_single_2D[std::make_tuple(" ++ str_len_1 ++ ", " ++ str_len_2
            ++ ", CS_KERNEL_2D_SINGLE)] = &")
          ("rocfft_internal_dfn_sp_ci_ci_2D_" ++ str_len_1 ++ "_" ++ str_len_2) ";\n" :: later)
    else
      .error .abort

/-- The loop of `AddCPUFunctionToPool` over `support_list_2D_double`. -/
def AddCPUFunctionToPool_2D_double : List Key2D → Except Fatal Text
  | [] => .ok []
  | kernel :: rest =>
    let str_len_1 := to_string kernel.1
    let str_len_2 := to_string kernel.2.1
    let scheme := kernel.2.2
    if scheme = .CS_KERNEL_2D_SINGLE then
      match AddCPUFunctionToPool_2D_double rest with
      | .error e => .error e
      | .ok later =>
        .ok (.assign .function_map_double_2D (.inr (kernel.1, kernel.2.1, .CS_KERNEL_2D_SINGLE))
          ("\tfunction_map_double_2D[std::make_tuple(" ++ str_len_1 ++ ", " ++ str_len_2
            ++ ", CS_KERNEL_2D_SINGLE)] = &")
          ("rocfft_internal_dfn_dp_ci_ci_2D_" ++ str_len_1 ++ "_" ++ str_len_2) ";\n" :: later)
    else
      .error .abort

/-- The string `str` that `AddCPUFunctionToPool` builds: the definition of the constructor
`function_pool::function_pool()`. -/
def AddCPUFunctionToPool_str (is_diagonal_sbrc_3D_length : Nat → Bool) (support_list : List Nat)
    (large1D_list : List Key) (support_list_2D_single support_list_2D_double : List Key2D) :
    Except Fatal Text :=
  match AddCPUFunctionToPool_2D_single support_list_2D_single with
  | .error e => .error e
  | .ok single_2D =>
    match AddCPUFunctionToPool_2D_double support_list_2D_double with
    | .error e => .error e
    | .ok double_2D =>
      .ok ([.text "\n", .text "#include <iostream> \n",
          .text "#include \"../include/function_pool.h\" \n",
          .text "#include \"kernel_launch_generator.h\" \n", .text "\n",
          .text "//build hash map to store the function pointers\n",
          .text "function_pool::function_pool()\n", .text "\x7b\n",
          .text "\t//single precision \n"]
        ++ support_list.map (fun len =>
            let str_len := to_string len
            .assign .function_map_single (.inl (len, .CS_KERNEL_STOCKHAM))
              ("\tfunction_map_single[std::make_pair(" ++ str_len ++ ",CS_KERNEL_STOCKHAM)] = &")
              ("rocfft_internal_dfn_sp_ci_ci_stoc_" ++ str_len) ";\n")
        ++ [.text "\n", .text "\t//double precision \n"]
        ++ support_list.map (fun len =>
            let str_len := to_string len
            .assign .function_map_double (.inl (len, .CS_KERNEL_STOCKHAM))
              ("\tfunction_map_double[std::make_pair(" ++ str_len ++ ",CS_KERNEL_STOCKHAM)] = &")
              ("rocfft_internal_dfn_dp_ci_ci_stoc_" ++ str_len) ";\n")
        ++ [.text "\n"]
        ++ large1D_list.flatMap (AddCPUFunctionToPool_large_single is_diagonal_sbrc_3D_length)
        ++ large1D_list.flatMap (AddCPUFunctionToPool_large_double is_diagonal_sbrc_3D_length)
        ++ single_2D
        ++ double_2D
        ++ [.text "\x7d\n"])

/-- The emitter `AddCPUFunctionToPool`. -/
def AddCPUFunctionToPool (is_diagonal_sbrc_3D_length : Nat → Bool) (openable : String → Bool)
    (support_list : List Nat) (large1D_list : List Key)
    (support_list_2D_single support_list_2D_double : List Key2D) : Except Fatal (List Event) :=
  match AddCPUFunctionToPool_str is_diagonal_sbrc_3D_length support_list large1D_list
      support_list_2D_single support_list_2D_double with
  | .error e => .error e
  | .ok str =>
    let headerFileName := "function_pool.cpp.h"
    let sourceFileName := "function_pool.cpp"
    .ok (write_file openable headerFileName str
      ++ write_file openable sourceFileName [.incl "#include \"" headerFileName "\""])

/-! ## generator.file.cpp: initial parameters -/

/-- The block-compute kinds passed to `initParams`. -/
inductive BlockComputeType
  | BCT_C2C
  | BCT_R2C
  | BCT_C2R
  deriving DecidableEq, Repr

/-- The fields of `FFTKernelGenKeyParams` that `generator.file.cpp` reads or writes. The two
scale fields, which `initParams` sets to the constant `1.0`, are left out. -/
structure FFTKernelGenKeyParams where
  blockCompute : Bool
  blockComputeType : BlockComputeType
  fft_DataDim : Nat
  fft_N : List Nat
  fft_RCsimple : Bool
  fft_realSpecial : Bool
  fft_twiddleFront : Bool
  fft_3StepTwiddle : Bool
  forceNonUnitStride : Bool
  name_suffix : String
  fft_numTrans : Nat
  fft_workGroupSize : Nat
  deriving DecidableEq, Repr

/-- The function `initParams`. Reading `fft_N[0]` of an empty vector is an out-of-bounds read;
the two `assert`s end the process when they fail, and the second one divides by `wgs`. The
product `nt * params.fft_N[0]` is a `size_t` product, reduced modulo `2 ^ 64`. The only value
returned is `rocfft_status_success`, so the result is the updated `params`. -/
def initParams (H : GeometryHelpers) (params : FFTKernelGenKeyParams) (fft_N : List Nat)
    (blockCompute : Bool) (blockComputeType : BlockComputeType) :
    Except Fatal FFTKernelGenKeyParams :=
  match fft_N with
  | [] => .error .out_of_bounds
  | fft_N_0 :: _ =>
    let params := { params with
      blockCompute := blockCompute
      blockComputeType := blockComputeType
      fft_DataDim := fft_N.length + 1
      fft_N := fft_N ++ params.fft_N.drop fft_N.length
      fft_RCsimple := false
      fft_realSpecial := false
      fft_twiddleFront := false }
    let t := H.GetWGSAndNT fft_N_0
    let t_wgs := t.1
    let t_nt := t.2
    let sizes :=
      if t_wgs ≠ 0 ∧ t_nt ≠ 0 ∧ H.MAX_WORK_GROUP_SIZE ≥ 256 then (t_wgs, t_nt)
      else H.DetermineSizes fft_N_0
    let wgs := sizes.1
    let nt := sizes.2
    if ¬ ((nt * fft_N_0) % 2 ^ 64 ≥ wgs) then .error .assertion_failed
    else if wgs = 0 then .error .division_by_zero
    else if ¬ ((nt * fft_N_0) % 2 ^ 64 % wgs = 0) then .error .assertion_failed
    else .ok { params with fft_numTrans := nt, fft_workGroupSize := wgs }

/-- A stand-in for the geometry helpers, used to run `initParams` on concrete lengths: a table
with the single row `4096 ↦ (256, 1)`, a fallback that always answers `(64, 64)`, and
`MAX_WORK_GROUP_SIZE = 1024`. -/
def sampleGeometry : GeometryHelpers :=
  ⟨fun n => if n = 4096 then (256, 1) else (0, 0), fun _ => (64, 64), 1024⟩

/-- A value of `FFTKernelGenKeyParams` before `initParams` has run. -/
def blankParams : FFTKernelGenKeyParams :=
  ⟨false, .BCT_C2C, 0, [], false, false, false, false, false, "", 0, 0⟩

/-- The value `initParams` returns on `blankParams` for the length vector `[4096]` with the
stand-in helpers (table branch). -/
def sampleParams4096 : FFTKernelGenKeyParams :=
  ⟨false, .BCT_C2C, 2, [4096], false, false, false, false, false, "", 1, 256⟩

/-- The value `initParams` returns on `blankParams` for the length vector `[7]` with the
stand-in helpers (fallback branch). -/
def sampleParams7 : FFTKernelGenKeyParams :=
  ⟨false, .BCT_C2C, 2, [7], false, false, false, false, false, "", 64, 64⟩

/-- The nine bucket names `get_2D_type` can return, in the order of its tests. -/
def bucket_names : List String :=
  ["pow2", "pow3", "pow5", "mix_pow2_3", "mix_pow3_2", "mix_pow3_5", "mix_pow5_3", "mix_pow2_5",
   "mix_pow5_2"]

/-- The bucket of a pair whose first length is a power of `p` and whose second length is a
power of `q`, for `p` and `q` among 2, 3 and 5: the pure bucket when `p = q`, else the mixed
one, in the order of the pair. -/
def family_bucket : Nat → Nat → String
  | 2, 2 => "pow2"
  | 3, 3 => "pow3"
  | 5, 5 => "pow5"
  | 2, 3 => "mix_pow2_3"
  | 3, 2 => "mix_pow3_2"
  | 3, 5 => "mix_pow3_5"
  | 5, 3 => "mix_pow5_3"
  | 2, 5 => "mix_pow2_5"
  | 5, 2 => "mix_pow5_2"
  | _, _ => ""

/-! ## Entry-point names and the specializations of a catalog -/

/-- The value of a decimal digit character. -/
def digitVal (c : Char) : Nat :=
  c.toNat - 48

/-- The number a list of decimal digit characters denotes, most significant digit first. -/
def ofDigitChars (l : List Char) : Nat :=
  l.foldl (fun acc c => acc * 10 + digitVal c) 0

/-- The kinds of 1-D entry points that `WriteCPUHeaders` declares and `AddCPUFunctionToPool`
registers. -/
inductive EntryKind
  | stoc
  | sbcc
  | sbrc
  | sbrc3d_xy_z_tile_aligned
  | sbrc3d_z_xy_tile_aligned
  | sbrc3d_xy_z_diagonal
  | sbrc3d_z_xy_diagonal
  deriving DecidableEq, Repr

/-- What an entry point is generated for: a precision, and either a 1-D kind with its length
or a fused 2-D kernel with its ordered pair of lengths. -/
inductive Specialization
  | oneD (precision : rocfft_precision) (kind : EntryKind) (length : Nat)
  | fused2D (precision : rocfft_precision) (length1 length2 : Nat)
  deriving DecidableEq, Repr

/-- The literal with which `WriteCPUHeaders` (after `void `) and `AddCPUFunctionToPool`
(after `&`) start the name of an entry point, by precision and kind; `none` is the fused 2-D
kind. -/
def entry_head : rocfft_precision → Option EntryKind → String
  | .rocfft_precision_single, some .stoc => "rocfft_internal_dfn_sp_ci_ci_stoc_"
  | .rocfft_precision_single, some .sbcc => "rocfft_internal_dfn_sp_ci_ci_sbcc_"
  | .rocfft_precision_single, some .sbrc => "rocfft_internal_dfn_sp_op_ci_ci_sbrc_"
  | .rocfft_precision_single, some .sbrc3d_xy_z_tile_aligned =>
      "rocfft_internal_dfn_sp_op_ci_ci_sbrc3d_fft_trans_xy_z_tile_aligned_"
  | .rocfft_precision_single, some .sbrc3d_z_xy_tile_aligned =>
      "rocfft_internal_dfn_sp_op_ci_ci_sbrc3d_fft_trans_z_xy_tile_aligned_"
  | .rocfft_precision_single, some .sbrc3d_xy_z_diagonal =>
      "rocfft_internal_dfn_sp_op_ci_ci_sbrc3d_fft_trans_xy_z_diagonal_"
  | .rocfft_precision_single, some .sbrc3d_z_xy_diagonal =>
      "rocfft_internal_dfn_sp_op_ci_ci_sbrc3d_fft_trans_z_xy_diagonal_"
  | .rocfft_precision_single, none => "rocfft_internal_dfn_sp_ci_ci_2D_"
  | .rocfft_precision_double, some .stoc => "rocfft_internal_dfn_dp_ci_ci_stoc_"
  | .rocfft_precision_double, some .sbcc => "rocfft_internal_dfn_dp_ci_ci_sbcc_"
  | .rocfft_precision_double, some .sbrc => "rocfft_internal_dfn_dp_op_ci_ci_sbrc_"
  | .rocfft_precision_double, some .sbrc3d_xy_z_tile_aligned =>
      "rocfft_internal_dfn_dp_op_ci_ci_sbrc3d_fft_trans_xy_z_tile_aligned_"
  | .rocfft_precision_double, some .sbrc3d_z_xy_tile_aligned =>
      "rocfft_internal_dfn_dp_op_ci_ci_sbrc3d_fft_trans_z_xy_tile_aligned_"
  | .rocfft_precision_double, some .sbrc3d_xy_z_diagonal =>
      "rocfft_internal_dfn_dp_op_ci_ci_sbrc3d_fft_trans_xy_z_diagonal_"
  | .rocfft_precision_double, some .sbrc3d_z_xy_diagonal =>
      "rocfft_internal_dfn_dp_op_ci_ci_sbrc3d_fft_trans_z_xy_diagonal_"
  | .rocfft_precision_double, none => "rocfft_internal_dfn_dp_ci_ci_2D_"

/-- The name of the entry point of a specialization, as `WriteCPUHeaders` and
`AddCPUFunctionToPool` build it: the literal, then the decimal length, and for a fused 2-D
kernel `_` and the second length. -/
def entry_name : Specialization → String
  | .oneD p k len => entry_head p (some k) ++ to_string len
  | .fused2D p len1 len2 => entry_head p none ++ to_string len1 ++ "_" ++ to_string len2

/-- The specializations generated for one entry of the large-1D catalog, in the order the
emitters treat them. -/
def large_specs (is_diagonal_sbrc_3D_length : Nat → Bool) (p : rocfft_precision)
    (my_tuple : Key) : List Specialization :=
  if my_tuple.2 = .CS_KERNEL_STOCKHAM_BLOCK_CC then
    [.oneD p .sbcc my_tuple.1]
  else if my_tuple.2 = .CS_KERNEL_STOCKHAM_BLOCK_RC then
    [.oneD p .sbrc my_tuple.1, .oneD p .sbrc3d_xy_z_tile_aligned my_tuple.1,
     .oneD p .sbrc3d_z_xy_tile_aligned my_tuple.1]
    ++ (if is_diagonal_sbrc_3D_length my_tuple.1 then
      [.oneD p .sbrc3d_xy_z_diagonal my_tuple.1, .oneD p .sbrc3d_z_xy_diagonal my_tuple.1]
    else [])
  else []

/-- The specialization generated for one entry of the 2-D catalog. -/
def specs_2D (p : rocfft_precision) (kernel : Key2D) : List Specialization :=
  if kernel.2.2 = .CS_KERNEL_2D_SINGLE then [.fused2D p kernel.1 kernel.2.1] else []

/-- The specializations of a catalog for one precision: the small kernels, then those of the
large-1D entries, then the fused 2-D kernels. -/
def catalog_specs (is_diagonal_sbrc_3D_length : Nat → Bool) (p : rocfft_precision)
    (support_list : List Nat) (large1D_list : List Key) (list_2D : List Key2D) :
    List Specialization :=
  support_list.map (.oneD p .stoc)
  ++ large1D_list.flatMap (large_specs is_diagonal_sbrc_3D_length p)
  ++ list_2D.flatMap (specs_2D p)

/-- The string passed as `precision` to the launcher emitters for a precision. -/
def precision_name : rocfft_precision → String
  | .rocfft_precision_single => "single"
  | .rocfft_precision_double => "double"

/-- The text `AddCPUFunctionToPool` builds for the catalog with the small length 64, the
large-1D entry `(8192, CS_KERNEL_STOCKHAM_BLOCK_CC)` and the 2-D entry
`(64, 128, CS_KERNEL_2D_SINGLE)`. -/
def samplePoolText : Text :=
  [.text "\n", .text "#include <iostream> \n", .text "#include \"../include/function_pool.h\" \n",
   .text "#include \"kernel_launch_generator.h\" \n", .text "\n",
   .text "//build hash map to store the function pointers\n",
   .text "function_pool::function_pool()\n", .text "\x7b\n", .text "\t//single precision \n",
   .assign .function_map_single (.inl (64, .CS_KERNEL_STOCKHAM))
     "\tfunction_map_single[std::make_pair(64,CS_KERNEL_STOCKHAM)] = &"
     "rocfft_internal_dfn_sp_ci_ci_stoc_64" ";\n",
   .text "\n", .text "\t//double precision \n",
   .assign .function_map_double (.inl (64, .CS_KERNEL_STOCKHAM))
     "\tfunction_map_double[std::make_pair(64,CS_KERNEL_STOCKHAM)] = &"
     "rocfft_internal_dfn_dp_ci_ci_stoc_64" ";\n",
   .text "\n",
   .assign .function_map_single (.inl (8192, .CS_KERNEL_STOCKHAM_BLOCK_CC))
     "\tfunction_map_single[std::make_pair(8192, CS_KERNEL_STOCKHAM_BLOCK_CC)] = &"
     "rocfft_internal_dfn_sp_ci_ci_sbcc_8192" ";\n",
   .assign .function_map_double (.inl (8192, .CS_KERNEL_STOCKHAM_BLOCK_CC))
     "\tfunction_map_double[std::make_pair(8192, CS_KERNEL_STOCKHAM_BLOCK_CC)] = &"
     "rocfft_internal_dfn_dp_ci_ci_sbcc_8192" ";\n",
   .assign .function_map_single_2D (.inr (64, 128, .CS_KERNEL_2D_SINGLE))
     "\tfunction_map_single_2D[std::make_tuple(64, 128, CS_KERNEL_2D_SINGLE)] = &"
     "rocfft_internal_dfn_sp_ci_ci_2D_64_128" ";\n",
   .assign .function_map_double_2D (.inr (64, 128, .CS_KERNEL_2D_SINGLE))
     "\tfunction_map_double_2D[std::make_tuple(64, 128, CS_KERNEL_2D_SINGLE)] = &"
     "rocfft_internal_dfn_dp_ci_ci_2D_64_128" ";\n",
   .text "\x7d\n"]

/-- The trace of `write_cpu_function_2D` for the list `[(64, 128, CS_KERNEL_2D_SINGLE)]` and
the precision `"single"` when every sink opens. -/
def sampleTrace2D : List Event :=
  [.opened "kernel_launch_single_2D_pow2.cpp.h",
   .wrote "kernel_launch_single_2D_pow2.cpp.h" [.text "#include \"kernel_launch.h\"\n"],
   .opened "kernel_launch_single_2D_pow2.cpp",
   .wrote "kernel_launch_single_2D_pow2.cpp"
     [.incl "#include \"" "kernel_launch_single_2D_pow2.cpp.h" "\""],
   .wrote "kernel_launch_single_2D_pow2.cpp.h"
     [.incl "#include \"" "rocfft_kernel_2D_64_128.h" "\"\n"],
   .wrote "kernel_launch_single_2D_pow2.cpp.h"
     [.launcher "POWX_SMALL_GENERATOR(" "rocfft_internal_dfn_sp_ci_ci_2D_64_128"
       (", fft_fwd_ip_2D_64_128, fft_back_ip_2D_64_128, fft_fwd_op_2D_64_128, "
         ++ "fft_back_op_2D_64_128, float2)\n")]]

/-- The number of catalog items in group `j` of `write_cpu_function_small`: the number of
indices its two loops over `[i_start, i_end)` visit. -/
def group_count (size group_size j : Nat) : Nat :=
  (for_range (i_start group_size j) (i_end size group_size j)).length

/-! ## generator.file.cpp: kernel files -/

/-- The kernel codegen engine, as an input of the embedding: the value of a default-constructed
`FFTKernelGenKeyParams`, the text `Kernel<...>::GenerateKernel` appends to an empty
`programCode`, and the text `Kernel2D::GenerateGlobalKernel` appends. None of them is defined
in the given sources. -/
structure KernelCodegen where
  defaultParams : FFTKernelGenKeyParams
  GenerateKernel : FFTKernelGenKeyParams → String
  GenerateGlobalKernel : FFTKernelGenKeyParams → FFTKernelGenKeyParams → String

/-- The function `WriteKernelToFile`: the include guard and the program text go to
`rocfft_kernel_<LEN>.h`; when that sink cannot be opened the message is printed and nothing is
written. -/
def WriteKernelToFile (openable : String → Bool) (str : Text) (LEN : String) : List Event :=
  let fileName := "rocfft_kernel_" ++ LEN ++ ".h"
  if openable fileName then
    [.opened fileName, .wrote fileName [.text "#pragma once\n"], .wrote fileName str]
  else
    [.cout ("File: " ++ fileName ++ " could not be opened, exiting ....\n")]

/-- The function `generate_kernel`: three schemes are handled, any other scheme falls through
the chain of tests and the function returns. A failed `assert` inside `initParams` ends the
process. -/
def generate_kernel (H : GeometryHelpers) (C : KernelCodegen) (openable : String → Bool)
    (len : Nat) (scheme : ComputeScheme) : Except Fatal (List Event) :=
  let params := C.defaultParams
  if scheme = .CS_KERNEL_STOCKHAM then
    match initParams H params [len] false .BCT_C2C with
    | .error e => .error e
    | .ok params =>
      .ok (WriteKernelToFile openable [.text (C.GenerateKernel params)] (to_string len))
  else if scheme = .CS_KERNEL_STOCKHAM_BLOCK_CC then
    let blockCompute := true
    let params := { params with fft_3StepTwiddle := true, name_suffix := "_sbcc" }
    match initParams H params [len, 1] blockCompute .BCT_C2C with
    | .error e => .error e
    | .ok params =>
      .ok (WriteKernelToFile openable [.text (C.GenerateKernel params)]
        (to_string len ++ params.name_suffix))
  else if scheme = .CS_KERNEL_STOCKHAM_BLOCK_RC then
    let blockCompute := true
    let params := { params with fft_3StepTwiddle := false, name_suffix := "_sbrc" }
    match initParams H params [len, 1] blockCompute .BCT_R2C with
    | .error e => .error e
    | .ok params =>
      .ok (WriteKernelToFile openable [.text (C.GenerateKernel params)]
        (to_string len ++ params.name_suffix))
  else
    .ok []

/-- The function `generate_2D_kernels`: an entry whose scheme is not `CS_KERNEL_2D_SINGLE`
ends the process. -/
def generate_2D_kernels (H : GeometryHelpers) (C : KernelCodegen) (openable : String → Bool) :
    List Key2D → Except Fatal (List Event)
  | [] => .ok []
  | kernel :: rest =>
    let len1 := kernel.1
    let len2 := kernel.2.1
    let scheme := kernel.2.2
    let programCode : Text :=
      [.incl "#include \"" ("rocfft_kernel_" ++ to_string len1 ++ ".h") "\"\n"]
      ++ (if len1 ≠ len2 then
            [.incl "#include \"" ("rocfft_kernel_" ++ to_string len2 ++ ".h") "\"\n"]
          else [])
    if scheme = .CS_KERNEL_2D_SINGLE then
      let params1 := C.defaultParams
      let params2 := { C.defaultParams with forceNonUnitStride := true }
      match initParams H params1 [len1] false .BCT_C2C with
      | .error e => .error e
      | .ok params1 =>
        match initParams H params2 [len2] false .BCT_C2C with
        | .error e => .error e
        | .ok params2 =>
          let programCode := programCode ++ [.text (C.GenerateGlobalKernel params1 params2)]
          let file_suffix := "2D_" ++ to_string len1 ++ "_" ++ to_string len2
          match generate_2D_kernels H C openable rest with
          | .error e => .error e
          | .ok later => .ok (WriteKernelToFile openable programCode file_suffix ++ later)
    else
      .error .abort

/-- A stand-in for the kernel codegen engine, used to run the kernel generators on concrete
inputs: it produces empty program text. -/
def sampleCodegen : KernelCodegen :=
  ⟨blankParams, fun _ => "", fun _ _ => ""⟩

/-! ## function_pool.h: validation, and the constructor the generated text defines -/

/-- The function template `verify_map`: the entries are visited and the first null value ends
the process (after the message on `rocfft_cerr`). -/
def verify_map {κ : Type} (fm : List (κ × DevFnCall)) (description : String) :
    Except Fatal Unit :=
  match fm with
  | [] => .ok ()
  | f :: rest => if f.2 = none then .error .abort else verify_map rest description

/-- The check `function_pool::verify_no_null_functions`: the ten maps in the order of the
source. -/
def verify_no_null_functions (func_pool : function_pool) : Except Fatal Unit := do
  verify_map func_pool.function_map_single.entries "function_map_single"
  verify_map func_pool.function_map_double.entries "function_map_double"
  verify_map func_pool.function_map_single_transpose_tile_aligned.entries
    "function_map_single_transpose_tile_aligned"
  verify_map func_pool.function_map_double_transpose_tile_aligned.entries
    "function_map_double_transpose_tile_aligned"
  verify_map func_pool.function_map_single_transpose_tile_unaligned.entries
    "function_map_single_transpose_tile_unaligned"
  verify_map func_pool.function_map_double_transpose_tile_unaligned.entries
    "function_map_double_transpose_tile_unaligned"
  verify_map func_pool.function_map_single_transpose_diagonal.entries
    "function_map_single_transpose_diagonal"
  verify_map func_pool.function_map_double_transpose_diagonal.entries
    "function_map_double_transpose_diagonal"
  verify_map func_pool.function_map_single_2D.entries "function_map_single_2D"
  verify_map func_pool.function_map_double_2D.entries "function_map_double_2D"

/-- The statement `map[k] = v;` of the generated constructor: `operator[]` finds or creates the
entry of `k`, and the assignment stores `v` in it. -/
def FnMap.set {κ : Type} [DecidableEq κ] (m : FnMap κ) (k : κ) (v : DevFnCall) : FnMap κ :=
  ⟨(k, v) :: m.entries.filter fun e => e.1 ≠ k, by
    rw [List.map_cons, List.nodup_cons]
    constructor
    · intro h
      obtain ⟨e, he, hk⟩ := List.mem_map.1 h
      have hne := (List.mem_filter.1 he).2
      simp only [ne_eq, decide_not, Bool.not_eq_true', decide_eq_false_iff_not] at hne
      exact hne hk
    · exact m.nodup.sublist ((List.filter_sublist _).map Prod.fst)⟩

/-- The registry before the body of the constructor runs: ten empty maps. -/
def function_pool.empty : function_pool :=
  ⟨FnMap.empty, FnMap.empty, FnMap.empty, FnMap.empty, FnMap.empty, FnMap.empty, FnMap.empty,
   FnMap.empty, FnMap.empty, FnMap.empty⟩

/-- The effect of one generated statement `map[key] = &name;` on the registry. The address of
a launcher is not null. A statement pairing a 1-D map with a 2-D key, or a 2-D map with a 1-D
key, is not generated; it is given no effect. -/
def run_assignment (func_pool : function_pool) (a : MapId × (Key ⊕ Key2D) × String) :
    function_pool :=
  match a with
  | (.function_map_single, .inl k, name) =>
    { func_pool with function_map_single := func_pool.function_map_single.set k (some name) }
  | (.function_map_double, .inl k, name) =>
    { func_pool with function_map_double := func_pool.function_map_double.set k (some name) }
  | (.function_map_single_transpose_diagonal, .inl k, name) =>
    { func_pool with function_map_single_transpose_diagonal :=
        func_pool.function_map_single_transpose_diagonal.set k (some name) }
  | (.function_map_single_transpose_tile_aligned, .inl k, name) =>
    { func_pool with function_map_single_transpose_tile_aligned :=
        func_pool.function_map_single_transpose_tile_aligned.set k (some name) }
  | (.function_map_single_transpose_tile_unaligned, .inl k, name) =>
    { func_pool with function_map_single_transpose_tile_unaligned :=
        func_pool.function_map_single_transpose_tile_unaligned.set k (some name) }
  | (.function_map_double_transpose_diagonal, .inl k, name) =>
    { func_pool with function_map_double_transpose_diagonal :=
        func_pool.function_map_double_transpose_diagonal.set k (some name) }
  | (.function_map_double_transpose_tile_aligned, .inl k, name) =>
    { func_pool with function_map_double_transpose_tile_aligned :=
        func_pool.function_map_double_transpose_tile_aligned.set k (some name) }
  | (.function_map_double_transpose_tile_unaligned, .inl k, name) =>
    { func_pool with function_map_double_transpose_tile_unaligned :=
        func_pool.function_map_double_transpose_tile_unaligned.set k (some name) }
  | (.function_map_single_2D, .inr k, name) =>
    { func_pool with function_map_single_2D := func_pool.function_map_single_2D.set k (some name) }
  | (.function_map_double_2D, .inr k, name) =>
    { func_pool with function_map_double_2D := func_pool.function_map_double_2D.set k (some name) }
  | _ => func_pool

/-- The registry that the constructor `function_pool::function_pool()` defined by a generated
text builds: its assignments run in order on the empty maps. -/
def function_pool_ctor (str : Text) : function_pool :=
  (assignments str).foldl run_assignment function_pool.empty

/-! ## Traces of runs in which sinks fail to open -/

/-- The trace a run leaves when some sinks cannot be opened, read off the trace of the same run
with every sink open: an open that fails is replaced by the message naming the file, the
insertions into that file are lost, and every other event stays in its place. -/
def with_failed_sinks (openable : String → Bool) : List Event → List Event
  | [] => []
  | .opened f :: rest =>
    (if openable f then Event.opened f
      else .cout ("File: " ++ f ++ " could not be opened, exiting ....\n"))
      :: with_failed_sinks openable rest
  | .wrote f t :: rest =>
    if openable f then .wrote f t :: with_failed_sinks openable rest
    else with_failed_sinks openable rest
  | .cout m :: rest => .cout m :: with_failed_sinks openable rest

/-! ## function_pool.h: the lookups as operations on the singleton -/

/-- The accessor `function_pool::get_function_pool`: the function-local static `func_pool` is
constructed by the first call and every call returns a reference to it. The state of the
static is `none` before the first call and `some` registry afterwards; `ctor` is the registry
that the constructor `function_pool::function_pool()` builds. The result is the registry
referred to and the state after the call. -/
def get_function_pool (ctor : function_pool) (state : Option function_pool) :
    function_pool × Option function_pool :=
  match state with
  | none => (ctor, some ctor)
  | some func_pool => (func_pool, some func_pool)

/-- The member `at` as an operation on the container: the outcome, and the container after the
call. Unlike `operator[]`, `at` inserts nothing: the container is left as it was found. -/
def FnMap.run_at {κ : Type} [DecidableEq κ] (m : FnMap κ) (k : κ) :
    Except Exception DevFnCall × FnMap κ :=
  (m.at k, m)

/-- The lookup `function_pool::get_function_single` as an operation on the singleton: the
outcome and the state after the call. -/
def run_get_function_single (ctor : function_pool) (state : Option function_pool)
    (mykey : Key) : Except Exception DevFnCall × Option function_pool :=
  let (func_pool, _) := get_function_pool ctor state
  let (r, m) := func_pool.function_map_single.run_at mykey
  (r, some { func_pool with function_map_single := m })

/-- The lookup `function_pool::get_function_double` as an operation on the singleton. -/
def run_get_function_double (ctor : function_pool) (state : Option function_pool)
    (mykey : Key) : Except Exception DevFnCall × Option function_pool :=
  let (func_pool, _) := get_function_pool ctor state
  let (r, m) := func_pool.function_map_double.run_at mykey
  (r, some { func_pool with function_map_double := m })

/-- The lookup `function_pool::get_function_single_transpose` as an operation on the
singleton. -/
def run_get_function_single_transpose (ctor : function_pool) (state : Option function_pool)
    (mykey : Key) (type : SBRC_TRANSPOSE_TYPE) :
    Except Exception DevFnCall × Option function_pool :=
  let (func_pool, _) := get_function_pool ctor state
  match type with
  | .DIAGONAL =>
    let (r, m) := func_pool.function_map_single_transpose_diagonal.run_at mykey
    (r, some { func_pool with function_map_single_transpose_diagonal := m })
  | .TILE_ALIGNED =>
    let (r, m) := func_pool.function_map_single_transpose_tile_aligned.run_at mykey
    (r, some { func_pool with function_map_single_transpose_tile_aligned := m })
  | .TILE_UNALIGNED =>
    let (r, m) := func_pool.function_map_single_transpose_tile_unaligned.run_at mykey
    (r, some { func_pool with function_map_single_transpose_tile_unaligned := m })

/-- The lookup `function_pool::get_function_double_transpose` as an operation on the
singleton. -/
def run_get_function_double_transpose (ctor : function_pool) (state : Option function_pool)
    (mykey : Key) (type : SBRC_TRANSPOSE_TYPE) :
    Except Exception DevFnCall × Option function_pool :=
  let (func_pool, _) := get_function_pool ctor state
  match type with
  | .DIAGONAL =>
    let (r, m) := func_pool.function_map_double_transpose_diagonal.run_at mykey
    (r, some { func_pool with function_map_double_transpose_diagonal := m })
  | .TILE_ALIGNED =>
    let (r, m) := func_pool.function_map_double_transpose_tile_aligned.run_at mykey
    (r, some { func_pool with function_map_double_transpose_tile_aligned := m })
  | .TILE_UNALIGNED =>
    let (r, m) := func_pool.function_map_double_transpose_tile_unaligned.run_at mykey
    (r, some { func_pool with function_map_double_transpose_tile_unaligned := m })

/-- The lookup `function_pool::get_function_single_2D` as an operation on the singleton. -/
def run_get_function_single_2D (ctor : function_pool) (state : Option function_pool)
    (mykey : Key2D) : Except Exception DevFnCall × Option function_pool :=
  let (func_pool, _) := get_function_pool ctor state
  let (r, m) := func_pool.function_map_single_2D.run_at mykey
  (r, some { func_pool with function_map_single_2D := m })

/-- The lookup `function_pool::get_function_double_2D` as an operation on the singleton. -/
def run_get_function_double_2D (ctor : function_pool) (state : Option function_pool)
    (mykey : Key2D) : Except Exception DevFnCall × Option function_pool :=
  let (func_pool, _) := get_function_pool ctor state
  let (r, m) := func_pool.function_map_double_2D.run_at mykey
  (r, some { func_pool with function_map_double_2D := m })

/-- The test `function_pool::has_function` as an operation on the singleton: the lookup of the
precision runs inside `try`, and `catch(std::exception&)` answers `false`. -/
def run_has_function (ctor : function_pool) (state : Option function_pool)
    (precision : rocfft_precision) (k : Key) : Except Exception Bool × Option function_pool :=
  let (r, state) :=
    match precision with
    | .rocfft_precision_single => run_get_function_single ctor state k
    | .rocfft_precision_double => run_get_function_double ctor state k
  (tryCatch (do let _ ← r; pure true) (fun _ => pure false), state)

/-- An operation on the singleton is a pure read: it leaves a constructed registry exactly as
it was, and run a second time, from any state, it gives the outcome of the first run and leaves
the state of the first run. -/
def PureRead {α : Type} (op : Option function_pool → α × Option function_pool) : Prop :=
  (∀ func_pool, (op (some func_pool)).2 = some func_pool)
  ∧ ∀ state, op (op state).2 = op state

/-! ## function_pool.h: the hash of the keys -/

/-- The word `hash_in` that `SimpleHash::operator()(const std::pair<size_t, ComputeScheme>&)`
packs, for a 64-bit `size_t`: `first` is the length and `second` the value of the scheme
enumerator. The two conversions to `size_t` and the left shift reduce modulo `2 ^ 64`. -/
def SimpleHash_hash_in (first second : Nat) : Nat :=
  let hash_in := 0
  let hash_in := hash_in ||| (first % 2 ^ 64)
  let hash_in := hash_in ||| ((second % 2 ^ 64) <<< 32 % 2 ^ 64)
  hash_in

/-- The hash `SimpleHash::operator()` of a 1-D key: `std::hash<size_t>` applied to the packed
word. The function `hash` stands for `std::hash<size_t>` and `code` for the values of the
enumerators of `ComputeScheme`; neither is defined in the given sources. -/
def SimpleHash_pair (hash : Nat → Nat) (code : ComputeScheme → Nat) (p : Key) : Nat :=
  hash (SimpleHash_hash_in p.1 (code p.2))

/-- The hash `SimpleHash::operator()` of a 2-D key: the exclusive or of the hashes of the three
components. The functions `hash_size_t` and `hash_scheme` stand for `std::hash<size_t>` and
`std::hash<ComputeScheme>`. -/
def SimpleHash_tuple (hash_size_t : Nat → Nat) (hash_scheme : ComputeScheme → Nat)
    (p : Key2D) : Nat :=
  let h1 := hash_size_t p.1
  let h2 := hash_size_t p.2.1
  let h3 := hash_scheme p.2.2
  h1 ^^^ h2 ^^^ h3

/-! ## The cascade of tests in `get_2D_type` -/

/-- The nine conditions `get_2D_type` tests, each with the bucket returned when it holds, in the
order of the source. -/
def get_2D_type_tests (T : PowerTests) (dim : Key2D) : List (Bool × String) :=
  [(T.IsPo2 dim.1 && T.IsPo2 dim.2.1, "pow2"),
   (T.IsPow3 dim.1 && T.IsPow3 dim.2.1, "pow3"),
   (T.IsPow5 dim.1 && T.IsPow5 dim.2.1, "pow5"),
   (T.IsPo2 dim.1 && T.IsPow3 dim.2.1, "mix_pow2_3"),
   (T.IsPow3 dim.1 && T.IsPo2 dim.2.1, "mix_pow3_2"),
   (T.IsPow3 dim.1 && T.IsPow5 dim.2.1, "mix_pow3_5"),
   (T.IsPow5 dim.1 && T.IsPow3 dim.2.1, "mix_pow5_3"),
   (T.IsPo2 dim.1 && T.IsPow5 dim.2.1, "mix_pow2_5"),
   (T.IsPow5 dim.1 && T.IsPo2 dim.2.1, "mix_pow5_2")]

/-- A chain `if ... return ...; else if ... return ...; ... abort();` run on a list of tests:
the bucket of the first test that holds, and `abort()` when none holds. -/
def first_match : List (Bool × String) → Except Fatal String
  | [] => .error .abort
  | (c, b) :: rest => if c then .ok b else first_match rest

/-! ## generator.file.cpp: the units of the fused 2-D kernels, by bucket -/

/-- The variable `headerFileName` of `open_2D_file`, for a precision and a bucket. -/
def headerFileName_2D (precision type : String) : String :=
  "kernel_launch_" ++ precision ++ "_2D_" ++ type ++ ".cpp.h"

/-- The variable `sourceFileName` of `open_2D_file`, for a precision and a bucket. -/
def sourceFileName_2D (precision type : String) : String :=
  "kernel_launch_" ++ precision ++ "_2D_" ++ type ++ ".cpp"

/-- The include line that the loop of `write_cpu_function_2D` writes for an entry. -/
def include_line_2D (kernel : Key2D) : Piece :=
  let length_suffix := "_2D_" ++ to_string kernel.1 ++ "_" ++ to_string kernel.2.1
  .incl "#include \"" ("rocfft_kernel" ++ length_suffix ++ ".h") "\"\n"

/-- The `POWX_SMALL_GENERATOR` line that the loop of `write_cpu_function_2D` writes for an
entry whose scheme is `CS_KERNEL_2D_SINGLE`. -/
def generator_line_2D (precision : String) (kernel : Key2D) : Piece :=
  let length_suffix := "_2D_" ++ to_string kernel.1 ++ "_" ++ to_string kernel.2.1
  .launcher "POWX_SMALL_GENERATOR("
    ("rocfft_internal_dfn_" ++ short_name_precision precision ++ "_ci_ci" ++ length_suffix)
    (", fft_fwd_ip" ++ length_suffix ++ ", fft_back_ip" ++ length_suffix
      ++ ", fft_fwd_op" ++ length_suffix ++ ", fft_back_op" ++ length_suffix
      ++ ", " ++ complex_case_precision precision ++ ")\n")

/-- Whether `get_2D_type` puts an entry into the bucket `b`. -/
def in_bucket (T : PowerTests) (b : String) (kernel : Key2D) : Bool :=
  match get_2D_type T kernel with
  | .ok type => decide (type = b)
  | .error _ => false

/-- The text a trace inserts into the streams on `file`: the chunks of its writes, in order.
It is what the streams were given, whether or not the file is opened again in between, and not
what the file holds afterwards. -/
def writtenTo (file : String) : List Event → Text
  | [] => []
  | .wrote f t :: rest => if f = file then t ++ writtenTo file rest else writtenTo file rest
  | _ :: rest => writtenTo file rest

/-! ## generator.file.cpp: the kernel file of a specialization -/

/-- The file operations of `WriteKernelToFile` on the file `fileName`: when the sink opens,
the include guard and the program text are written to it; otherwise the message naming the
file is printed. -/
def kernel_file_events (openable : String → Bool) (fileName : String) (str : Text) :
    List Event :=
  if openable fileName then
    [.opened fileName, .wrote fileName [.text "#pragma once\n"], .wrote fileName str]
  else
    [.cout ("File: " ++ fileName ++ " could not be opened, exiting ....\n")]

/-- The name of the kernel file `generate_2D_kernels` writes for an entry, as the launcher
unit of `write_cpu_function_2D` spells it in its include line. -/
def kernel_file_2D (kernel : Key2D) : String :=
  "rocfft_kernel" ++ ("_2D_" ++ to_string kernel.1 ++ "_" ++ to_string kernel.2.1) ++ ".h"

/-! ## Properties of the registry lookups -/

theorem FnMap.find_eq_some_iff {κ : Type} [DecidableEq κ] (l : List (κ × DevFnCall))
    (hl : (l.map Prod.fst).Nodup) (k : κ) (v : DevFnCall) :
    FnMap.find l k = some v ↔ (k, v) ∈ l := by
  induction l with
  | nil => simp [FnMap.find]
  | cons a rest ih =>
    obtain ⟨k', v'⟩ := a
    simp only [List.map_cons, List.nodup_cons, List.mem_map, Prod.exists, exists_and_right,
      exists_eq_right, not_exists] at hl
    by_cases h : k' = k
    · subst h
      simp only [FnMap.find, if_true, Option.some.injEq, List.mem_cons, Prod.mk.injEq, true_and]
      constructor
      · intro h; exact Or.inl h.symm
      · rintro (h | h)
        · exact h.symm
        · exact absurd h (hl.1 v)
    · simp only [FnMap.find, if_neg h, List.mem_cons, Prod.mk.injEq]
      rw [ih hl.2]
      constructor
      · intro h'; exact Or.inr h'
      · rintro (⟨h', _⟩ | h')
        · exact absurd h'.symm h
        · exact h'

theorem FnMap.find_eq_none_iff {κ : Type} [DecidableEq κ] (l : List (κ × DevFnCall)) (k : κ) :
    FnMap.find l k = none ↔ ∀ v, (k, v) ∉ l := by
  induction l with
  | nil => simp [FnMap.find]
  | cons a rest ih =>
    obtain ⟨k', v'⟩ := a
    by_cases h : k' = k
    · subst h
      simp only [FnMap.find, if_true, List.mem_cons, Prod.mk.injEq, true_and, not_or, false_iff,
        not_forall, not_and, not_not, reduceCtorEq]
      exact ⟨v', fun h => absurd rfl h⟩
    · simp only [FnMap.find, if_neg h, List.mem_cons, Prod.mk.injEq, not_or, not_and, ih]
      constructor
      · intro h' v
        exact ⟨fun hk => absurd hk.symm h, h' v⟩
      · intro h' v
        exact (h' v).2

theorem FnMap.at_eq_ok_iff {κ : Type} [DecidableEq κ] (m : FnMap κ) (k : κ) (v : DevFnCall) :
    m.at k = .ok v ↔ (k, v) ∈ m.entries := by
  rw [← FnMap.find_eq_some_iff m.entries m.nodup k v]
  unfold FnMap.at
  cases FnMap.find m.entries k <;> simp

theorem FnMap.at_eq_error_iff {κ : Type} [DecidableEq κ] (m : FnMap κ) (k : κ) (e : Exception) :
    m.at k = .error e ↔ e = .out_of_range ∧ ∀ v, (k, v) ∉ m.entries := by
  rw [← FnMap.find_eq_none_iff m.entries k]
  unfold FnMap.at
  cases e
  cases FnMap.find m.entries k <;> simp

theorem has_function_single_eq (func_pool : function_pool) (k : Key) :
    has_function func_pool .rocfft_precision_single k
      = .ok (FnMap.find func_pool.function_map_single.entries k).isSome := by
  unfold has_function get_function_single FnMap.at
  cases FnMap.find func_pool.function_map_single.entries k <;> rfl

theorem has_function_double_eq (func_pool : function_pool) (k : Key) :
    has_function func_pool .rocfft_precision_double k
      = .ok (FnMap.find func_pool.function_map_double.entries k).isSome := by
  unfold has_function get_function_double FnMap.at
  cases FnMap.find func_pool.function_map_double.entries k <;> rfl

theorem FnMap.find_isSome_iff {κ : Type} [DecidableEq κ] (m : FnMap κ) (k : κ) :
    (FnMap.find m.entries k).isSome = true ↔ ∃ v, (k, v) ∈ m.entries := by
  rw [Option.isSome_iff_exists]
  exact exists_congr fun v => FnMap.find_eq_some_iff m.entries m.nodup k v

/-- C1: each plain lookup (`get_function_single`, `get_function_double`,
`get_function_single_2D`, `get_function_double_2D`) returns `v` exactly when `v` is the entry
stored under the key in its own map, and fails exactly when the key is absent from that map,
the failure being `std::out_of_range` and nothing else. -/
theorem C1_plain_lookup_contract (func_pool : function_pool) (k : Key) (k2 : Key2D) :
    ((∀ v, get_function_single func_pool k = .ok v
          ↔ (k, v) ∈ func_pool.function_map_single.entries)
      ∧ (∀ e, get_function_single func_pool k = .error e
          ↔ e = .out_of_range ∧ ∀ v, (k, v) ∉ func_pool.function_map_single.entries))
    ∧ ((∀ v, get_function_double func_pool k = .ok v
          ↔ (k, v) ∈ func_pool.function_map_double.entries)
      ∧ (∀ e, get_function_double func_pool k = .error e
          ↔ e = .out_of_range ∧ ∀ v, (k, v) ∉ func_pool.function_map_double.entries))
    ∧ ((∀ v, get_function_single_2D func_pool k2 = .ok v
          ↔ (k2, v) ∈ func_pool.function_map_single_2D.entries)
      ∧ (∀ e, get_function_single_2D func_pool k2 = .error e
          ↔ e = .out_of_range ∧ ∀ v, (k2, v) ∉ func_pool.function_map_single_2D.entries))
    ∧ ((∀ v, get_function_double_2D func_pool k2 = .ok v
          ↔ (k2, v) ∈ func_pool.function_map_double_2D.entries)
      ∧ (∀ e, get_function_double_2D func_pool k2 = .error e
          ↔ e = .out_of_range ∧ ∀ v, (k2, v) ∉ func_pool.function_map_double_2D.entries)) :=
  ⟨⟨fun v => FnMap.at_eq_ok_iff _ k v, fun e => FnMap.at_eq_error_iff _ k e⟩,
   ⟨fun v => FnMap.at_eq_ok_iff _ k v, fun e => FnMap.at_eq_error_iff _ k e⟩,
   ⟨fun v => FnMap.at_eq_ok_iff _ k2 v, fun e => FnMap.at_eq_error_iff _ k2 e⟩,
   ⟨fun v => FnMap.at_eq_ok_iff _ k2 v, fun e => FnMap.at_eq_error_iff _ k2 e⟩⟩

/-- C2: `has_function` always returns a boolean (no exception escapes); for each precision the
boolean is `true` exactly when the plain lookup of that precision succeeds, that is exactly
when the key is present in that precision's plain map; and two registries that agree on that
one map give the same answer, whatever their other maps hold. -/
theorem C2_has_function_contract (func_pool : function_pool) (k : Key) :
    (∀ p, ∃ b, has_function func_pool p k = .ok b)
    ∧ (has_function func_pool .rocfft_precision_single k = .ok true
        ↔ ∃ v, get_function_single func_pool k = .ok v)
    ∧ (has_function func_pool .rocfft_precision_single k = .ok true
        ↔ ∃ v, (k, v) ∈ func_pool.function_map_single.entries)
    ∧ (has_function func_pool .rocfft_precision_double k = .ok true
        ↔ ∃ v, get_function_double func_pool k = .ok v)
    ∧ (has_function func_pool .rocfft_precision_double k = .ok true
        ↔ ∃ v, (k, v) ∈ func_pool.function_map_double.entries)
    ∧ (∀ other : function_pool,
        (other.function_map_single = func_pool.function_map_single
          → has_function other .rocfft_precision_single k
            = has_function func_pool .rocfft_precision_single k)
        ∧ (other.function_map_double = func_pool.function_map_double
          → has_function other .rocfft_precision_double k
            = has_function func_pool .rocfft_precision_double k)) := by
  have hs : has_function func_pool .rocfft_precision_single k = .ok true
      ↔ ∃ v, (k, v) ∈ func_pool.function_map_single.entries := by
    rw [has_function_single_eq, ← FnMap.find_isSome_iff]
    simp
  have hd : has_function func_pool .rocfft_precision_double k = .ok true
      ↔ ∃ v, (k, v) ∈ func_pool.function_map_double.entries := by
    rw [has_function_double_eq, ← FnMap.find_isSome_iff]
    simp
  refine ⟨?_, ?_, hs, ?_, hd, ?_⟩
  · intro p
    cases p
    · exact ⟨_, has_function_single_eq func_pool k⟩
    · exact ⟨_, has_function_double_eq func_pool k⟩
  · rw [hs]
    exact exists_congr fun v => (FnMap.at_eq_ok_iff _ k v).symm
  · rw [hd]
    exact exists_congr fun v => (FnMap.at_eq_ok_iff _ k v).symm
  · intro other
    constructor
    · intro h
      rw [has_function_single_eq, has_function_single_eq, h]
    · intro h
      rw [has_function_double_eq, has_function_double_eq, h]

/-! ## Properties of `initParams` -/

theorem initParams_ok_iff (H : GeometryHelpers) (params : FFTKernelGenKeyParams)
    (fft_N : List Nat) (blockCompute : Bool) (blockComputeType : BlockComputeType)
    (out : FFTKernelGenKeyParams)
    (h : initParams H params fft_N blockCompute blockComputeType = .ok out) :
    ∃ N0 rest, fft_N = N0 :: rest ∧ out.fft_N = fft_N ++ params.fft_N.drop fft_N.length
      ∧ (out.fft_workGroupSize, out.fft_numTrans)
          = (if (H.GetWGSAndNT N0).1 ≠ 0 ∧ (H.GetWGSAndNT N0).2 ≠ 0
                ∧ H.MAX_WORK_GROUP_SIZE ≥ 256
             then ((H.GetWGSAndNT N0).1, (H.GetWGSAndNT N0).2) else H.DetermineSizes N0)
      ∧ (out.fft_numTrans * N0) % 2 ^ 64 ≥ out.fft_workGroupSize
      ∧ out.fft_workGroupSize ≠ 0
      ∧ (out.fft_numTrans * N0) % 2 ^ 64 % out.fft_workGroupSize = 0 := by
  cases fft_N with
  | nil => simp [initParams] at h
  | cons N0 rest =>
    refine ⟨N0, rest, rfl, ?_⟩
    simp only [initParams] at h
    generalize (if (H.GetWGSAndNT N0).1 ≠ 0 ∧ (H.GetWGSAndNT N0).2 ≠ 0
                ∧ H.MAX_WORK_GROUP_SIZE ≥ 256
             then ((H.GetWGSAndNT N0).1, (H.GetWGSAndNT N0).2) else H.DetermineSizes N0)
      = sizes at h ⊢
    split_ifs at h with h1 h2 h3
    simp only [Except.ok.injEq] at h
    subst h
    exact ⟨rfl, rfl, h1, h2, h3⟩

/-- C6: whenever `initParams` returns (no assertion fails), the stored geometry satisfies
`fft_numTrans * fft_N[0] >= fft_workGroupSize` and
`(fft_numTrans * fft_N[0]) % fft_workGroupSize == 0`, for the `size_t` product the code
computes, and for the exact product whenever that product is below `2 ^ 64`; this holds for
every table lookup `GetWGSAndNT` and every fallback `DetermineSizes`. -/
theorem C6_initParams_geometry_invariant (H : GeometryHelpers) (params : FFTKernelGenKeyParams)
    (fft_N : List Nat) (blockCompute : Bool) (blockComputeType : BlockComputeType)
    (out : FFTKernelGenKeyParams)
    (h : initParams H params fft_N blockCompute blockComputeType = .ok out) :
    ∃ N0, fft_N.head? = some N0 ∧ out.fft_N.head? = some N0
      ∧ (out.fft_numTrans * N0) % 2 ^ 64 ≥ out.fft_workGroupSize
      ∧ (out.fft_numTrans * N0) % 2 ^ 64 % out.fft_workGroupSize = 0
      ∧ (out.fft_numTrans * N0 < 2 ^ 64 →
          out.fft_numTrans * N0 ≥ out.fft_workGroupSize
          ∧ (out.fft_numTrans * N0) % out.fft_workGroupSize = 0) := by
  obtain ⟨N0, rest, hN, hout, -, h1, -, h3⟩ :=
    initParams_ok_iff H params fft_N blockCompute blockComputeType out h
  refine ⟨N0, by simp [hN], by simp [hout, hN], h1, h3, ?_⟩
  intro hlt
  rw [Nat.mod_eq_of_lt hlt] at h1 h3
  exact ⟨h1, h3⟩

/-- Witness for C6: the table row `4096 ↦ (256, 1)` is accepted and stored. -/
theorem C6_initParams_geometry_invariant_witness :
    ∃ N0, [4096].head? = some N0
      ∧ sampleParams4096.fft_N.head? = some N0
      ∧ (1 * N0) % 2 ^ 64 ≥ 256
      ∧ (1 * N0) % 2 ^ 64 % 256 = 0
      ∧ (1 * N0 < 2 ^ 64 → 1 * N0 ≥ 256 ∧ (1 * N0) % 256 = 0) :=
  C6_initParams_geometry_invariant sampleGeometry blankParams [4096] false .BCT_C2C
    sampleParams4096 (by rfl)

/-- C7: whenever `initParams` returns success (a zero work-group size in the modulo counting
as an error), the stored `fft_workGroupSize` and `fft_numTrans` are both positive, whichever
of the table and the fallback supplied them. -/
theorem C7_initParams_geometry_positive (H : GeometryHelpers) (params : FFTKernelGenKeyParams)
    (fft_N : List Nat) (blockCompute : Bool) (blockComputeType : BlockComputeType)
    (out : FFTKernelGenKeyParams)
    (h : initParams H params fft_N blockCompute blockComputeType = .ok out) :
    0 < out.fft_workGroupSize ∧ 0 < out.fft_numTrans := by
  obtain ⟨N0, rest, -, -, -, h1, h2, -⟩ :=
    initParams_ok_iff H params fft_N blockCompute blockComputeType out h
  refine ⟨Nat.pos_of_ne_zero h2, Nat.pos_of_ne_zero ?_⟩
  intro h0
  rw [h0] at h1
  simp only [zero_mul, Nat.zero_mod, ge_iff_le, nonpos_iff_eq_zero] at h1
  exact h2 h1

/-- Witness for C7: length 7 is not in the table, the fallback pair `(64, 64)` is stored. -/
theorem C7_initParams_geometry_positive_witness :
    0 < sampleParams7.fft_workGroupSize ∧ 0 < sampleParams7.fft_numTrans :=
  C7_initParams_geometry_positive sampleGeometry blankParams [7] false .BCT_C2C
    sampleParams7 (by rfl)

/-! ## Properties of `get_2D_type` -/

theorem get_2D_type_cases (T : PowerTests) (dim : Key2D) :
    (get_2D_type T dim = .error .abort
        ∧ ¬ ((T.IsPo2 dim.1 = true ∨ T.IsPow3 dim.1 = true ∨ T.IsPow5 dim.1 = true)
            ∧ (T.IsPo2 dim.2.1 = true ∨ T.IsPow3 dim.2.1 = true ∨ T.IsPow5 dim.2.1 = true)))
    ∨ ((∃ b, b ∈ bucket_names ∧ get_2D_type T dim = .ok b)
        ∧ ((T.IsPo2 dim.1 = true ∨ T.IsPow3 dim.1 = true ∨ T.IsPow5 dim.1 = true)
            ∧ (T.IsPo2 dim.2.1 = true ∨ T.IsPow3 dim.2.1 = true ∨ T.IsPow5 dim.2.1 = true))) := by
  unfold get_2D_type bucket_names
  cases T.IsPo2 dim.1 <;> cases T.IsPow3 dim.1 <;> cases T.IsPow5 dim.1 <;>
    cases T.IsPo2 dim.2.1 <;> cases T.IsPow3 dim.2.1 <;> cases T.IsPow5 dim.2.1 <;> simp

/-- C8: `get_2D_type` returns one of the nine bucket names if and only if each of the two
lengths passes at least one of `IsPo2`, `IsPow<3>`, `IsPow<5>`; for every other pair it takes
the `abort()` path; and the outcome does not depend on the scheme component, only on the two
lengths. This holds for every implementation of the three tests. -/
theorem C8_get_2D_type_total_on_nine (T : PowerTests) (len1 len2 : Nat) (s : ComputeScheme) :
    ((∃ b, b ∈ bucket_names ∧ get_2D_type T (len1, len2, s) = .ok b)
        ↔ ((T.IsPo2 len1 = true ∨ T.IsPow3 len1 = true ∨ T.IsPow5 len1 = true)
            ∧ (T.IsPo2 len2 = true ∨ T.IsPow3 len2 = true ∨ T.IsPow5 len2 = true)))
    ∧ (get_2D_type T (len1, len2, s) = .error .abort
        ↔ ¬ ((T.IsPo2 len1 = true ∨ T.IsPow3 len1 = true ∨ T.IsPow5 len1 = true)
            ∧ (T.IsPo2 len2 = true ∨ T.IsPow3 len2 = true ∨ T.IsPow5 len2 = true)))
    ∧ (∀ s2, get_2D_type T (len1, len2, s2) = get_2D_type T (len1, len2, s)) := by
  refine ⟨?_, ?_, fun _ => rfl⟩
  · rcases get_2D_type_cases T (len1, len2, s) with ⟨h1, h2⟩ | ⟨h1, h2⟩
    · constructor
      · rintro ⟨b, -, hb⟩
        rw [h1] at hb
        cases hb
      · intro h
        exact absurd h h2
    · exact ⟨fun _ => h2, fun _ => h1⟩
  · rcases get_2D_type_cases T (len1, len2, s) with ⟨h1, h2⟩ | ⟨⟨b, -, hb⟩, h2⟩
    · exact ⟨fun _ => h2, fun _ => h1⟩
    · constructor
      · intro h
        rw [hb] at h
        cases h
      · intro h
        exact absurd h2 h

theorem IsPow_iff (base u : Nat) (hb : 2 ≤ base) : IsPow base u = true ↔ ∃ k, u = base ^ k := by
  unfold IsPow
  simp only [List.any_eq_true, List.mem_range, beq_iff_eq]
  constructor
  · rintro ⟨k, -, h⟩
    exact ⟨k, h.symm⟩
  · rintro ⟨k, h⟩
    refine ⟨k, ?_, h.symm⟩
    rw [h]
    exact Nat.lt_succ_of_lt (Nat.lt_pow_self hb k)

theorem pow_family_unique {p q len : Nat} (hp : p.Prime) (hq : q.Prime) (hne : p ≠ q)
    (h1 : 1 < len) (ha : ∃ a, len = p ^ a) : ¬ ∃ b, len = q ^ b := by
  rintro ⟨b, hb⟩
  obtain ⟨a, ha⟩ := ha
  have ha0 : a ≠ 0 := by
    rintro rfl
    simp only [pow_zero] at ha
    omega
  have hdvd : p ∣ q ^ b := by
    rw [← hb, ha]
    exact dvd_pow_self p ha0
  exact hne ((Nat.prime_dvd_prime_iff_eq hp hq).1 (hp.dvd_of_dvd_pow hdvd))

theorem IsPow_of_family {p len : Nat} (hp : p ∈ [2, 3, 5]) (h1 : 1 < len)
    (ha : ∃ a, len = p ^ a) (r : Nat) (hr : r ∈ [2, 3, 5]) :
    IsPow r len = decide (r = p) := by
  have prime_of : ∀ x, x ∈ [2, 3, 5] → x.Prime := by
    intro x hx
    simp only [List.mem_cons, List.mem_singleton, List.not_mem_nil, or_false] at hx
    rcases hx with rfl | rfl | rfl <;> norm_num
  have two_le : ∀ x, x ∈ [2, 3, 5] → 2 ≤ x := fun x hx => (prime_of x hx).two_le
  by_cases h : r = p
  · subst h
    simp only [decide_True]
    exact (IsPow_iff r len (two_le r hr)).2 ha
  · simp only [h, decide_False]
    rw [Bool.eq_false_iff]
    intro hpow
    exact pow_family_unique (prime_of p hp) (prime_of r hr) (Ne.symm h) h1 ha
      ((IsPow_iff r len (two_le r hr)).1 hpow)

/-- C9 (as amended): for lengths greater than 1 and `p`, `q` among 2, 3 and 5, if the first
length is a power of `p` and the second a power of `q`, then `get_2D_type` (with the power
tests of the spec) returns the pure bucket `pow<p>` when `p = q` and the mixed bucket
`mix_pow<p>_<q>` otherwise, the order of the pair preserved. -/
theorem C9_get_2D_type_family_bucket (len1 len2 : Nat) (s : ComputeScheme) (p q : Nat)
    (hp : p ∈ [2, 3, 5]) (hq : q ∈ [2, 3, 5]) (h1 : 1 < len1) (h2 : 1 < len2)
    (ha : ∃ a, len1 = p ^ a) (hb : ∃ b, len2 = q ^ b) :
    get_2D_type specPowerTests (len1, len2, s) = .ok (family_bucket p q) := by
  have e1 := IsPow_of_family hp h1 ha
  have e2 := IsPow_of_family hq h2 hb
  simp only [get_2D_type, specPowerTests, IsPo2, e1 2 (by simp), e1 3 (by simp), e1 5 (by simp),
    e2 2 (by simp), e2 3 (by simp), e2 5 (by simp)]
  simp only [List.mem_cons, List.mem_singleton, List.not_mem_nil, or_false] at hp hq
  rcases hp with rfl | rfl | rfl <;> rcases hq with rfl | rfl | rfl <;> simp [family_bucket]

/-- Witness for C9: `64 = 2 ^ 6` followed by `243 = 3 ^ 5` gives `mix_pow2_3`. -/
theorem C9_get_2D_type_family_bucket_witness :
    get_2D_type specPowerTests (64, 243, .CS_KERNEL_2D_SINGLE) = .ok (family_bucket 2 3) :=
  C9_get_2D_type_family_bucket 64 243 .CS_KERNEL_2D_SINGLE 2 3 (by simp) (by simp)
    (by decide) (by decide) ⟨6, by norm_num⟩ ⟨5, by norm_num⟩

/-- Counterexample to C9 as stated: the length 1 is a power of 3 (`3 ^ 0`), so the pair
`(1, 1)` is a power of 3 followed by a power of 3, yet `get_2D_type` returns `pow2`, the first
matching case, and not the pure bucket `pow3`. -/
theorem C9_counterexample_length_one :
    (∃ a, 1 = 3 ^ a) ∧ (∃ b, 1 = 3 ^ b)
      ∧ get_2D_type specPowerTests (1, 1, .CS_KERNEL_2D_SINGLE) = .ok "pow2"
      ∧ get_2D_type specPowerTests (1, 1, .CS_KERNEL_2D_SINGLE) ≠ .ok (family_bucket 3 3) := by
  have h : get_2D_type specPowerTests (1, 1, .CS_KERNEL_2D_SINGLE) = .ok "pow2" := by rfl
  refine ⟨⟨0, rfl⟩, ⟨0, rfl⟩, h, ?_⟩
  rw [h]
  simp [family_bucket]

/-! ## Reading names off generated text -/

theorem launcherNames_append (a b : Text) :
    launcherNames (a ++ b) = launcherNames a ++ launcherNames b := by
  induction a with
  | nil => rfl
  | cons x rest ih => cases x <;> simp [launcherNames, ih]

theorem includedFiles_append (a b : Text) :
    includedFiles (a ++ b) = includedFiles a ++ includedFiles b := by
  induction a with
  | nil => rfl
  | cons x rest ih => cases x <;> simp [includedFiles, ih]

theorem declaredNames_append (a b : Text) :
    declaredNames (a ++ b) = declaredNames a ++ declaredNames b := by
  induction a with
  | nil => rfl
  | cons x rest ih => cases x <;> simp [declaredNames, ih]

theorem assignments_append (a b : Text) :
    assignments (a ++ b) = assignments a ++ assignments b := by
  induction a with
  | nil => rfl
  | cons x rest ih => cases x <;> simp [assignments, ih]

theorem emittedLaunchers_append (a b : List Event) :
    emittedLaunchers (a ++ b) = emittedLaunchers a ++ emittedLaunchers b := by
  induction a with
  | nil => rfl
  | cons x rest ih => cases x <;> simp [emittedLaunchers, ih]

theorem launcherNames_map_launcher {α : Type} (l : List α) (h n t : α → String) :
    launcherNames (l.map fun x => .launcher (h x) (n x) (t x)) = l.map n := by
  induction l with
  | nil => rfl
  | cons x rest ih => simp [launcherNames, ih]

theorem launcherNames_map_incl {α : Type} (l : List α) (h n t : α → String) :
    launcherNames (l.map fun x => .incl (h x) (n x) (t x)) = [] := by
  induction l with
  | nil => rfl
  | cons x rest ih => simp [launcherNames, ih]

theorem includedFiles_map_incl {α : Type} (l : List α) (h n t : α → String) :
    includedFiles (l.map fun x => .incl (h x) (n x) (t x)) = l.map n := by
  induction l with
  | nil => rfl
  | cons x rest ih => simp [includedFiles, ih]

theorem includedFiles_map_launcher {α : Type} (l : List α) (h n t : α → String) :
    includedFiles (l.map fun x => .launcher (h x) (n x) (t x)) = [] := by
  induction l with
  | nil => rfl
  | cons x rest ih => simp [includedFiles, ih]

theorem emittedLaunchers_write_file (openable : String → Bool) (fileName : String) (str : Text)
    (h : openable fileName = true) :
    emittedLaunchers (write_file openable fileName str) = launcherNames str := by
  simp [write_file, h, emittedLaunchers]

theorem emittedLaunchers_flatMap {α : Type} (l : List α) (f : α → List Event) :
    emittedLaunchers (l.flatMap f) = l.flatMap fun x => emittedLaunchers (f x) := by
  induction l with
  | nil => rfl
  | cons x rest ih => simp [emittedLaunchers_append, ih]

/-! ## Properties of the grouping in `write_cpu_function_small` -/

theorem size_t_of_int_natCast (g : Nat) (h : g < 2 ^ 64) : size_t_of_int (g : Int) = g := by
  unfold size_t_of_int
  omega

theorem le_mul_group_size (n g : Nat) (hg : 1 ≤ g) : n ≤ g * group_size n g := by
  unfold group_size
  have h1 := Nat.div_add_mod (n + g - 1) g
  have h2 := Nat.mod_lt (n + g - 1) (show g > 0 by omega)
  omega

theorem group_size_pos (n g : Nat) (hg : 1 ≤ g) (hn : g ≤ n) : 0 < group_size n g := by
  have h := le_mul_group_size n g hg
  rcases Nat.eq_zero_or_pos (group_size n g) with h0 | h0
  · rw [h0] at h
    omega
  · exact h0

theorem for_range_flatMap (gs n : Nat) (m : Nat) :
    (List.range m).flatMap (fun j => for_range (i_start gs j) (i_end n gs j))
      = List.range (min (m * gs) n) := by
  induction m with
  | zero => simp
  | succ m ih =>
    rw [List.range_succ, List.flatMap_append, ih, List.flatMap_singleton]
    unfold for_range i_start i_end
    rw [List.range_eq_range', List.range_eq_range']
    have hle : m * gs ≤ (m + 1) * gs := Nat.mul_le_mul_right gs (Nat.le_succ m)
    by_cases h : m * gs ≤ n
    · rw [min_eq_left h]
      have hb : m * gs ≤ min ((m + 1) * gs) n := le_min hle h
      have e := List.range'_append_1 0 (m * gs) (min ((m + 1) * gs) n - m * gs)
      rw [Nat.zero_add] at e
      rw [e, Nat.sub_add_cancel hb]
    · have hn : n ≤ m * gs := Nat.le_of_not_le h
      rw [min_eq_right hn, min_eq_right (le_trans hn hle), Nat.sub_eq_zero_of_le hn]
      simp

theorem group_index_unique (n g : Nat) (hg : 1 ≤ g) (hn : g ≤ n) (i : Nat) (hi : i < n) :
    ∃! j, j < g ∧ i_start (group_size n g) j ≤ i ∧ i < i_end n (group_size n g) j := by
  have hpos := group_size_pos n g hg hn
  have hcover := le_mul_group_size n g hg
  unfold i_start i_end
  generalize group_size n g = gs at hpos hcover
  refine ⟨i / gs, ⟨?_, Nat.div_mul_le_self i gs, lt_min ?_ hi⟩, ?_⟩
  · apply Nat.div_lt_of_lt_mul
    rw [Nat.mul_comm]
    exact lt_of_lt_of_le hi hcover
  · rw [Nat.add_mul, Nat.one_mul]
    have := Nat.div_add_mod i gs
    have := Nat.mod_lt i hpos
    rw [Nat.mul_comm]
    omega
  · rintro j ⟨-, h1, h2⟩
    exact (Nat.div_eq_of_lt_le h1 (lt_of_lt_of_le h2 (min_le_left _ _))).symm

theorem map_getD_range (l : List Nat) : (List.range l.length).map (fun i => l.getD i 0) = l := by
  apply List.ext_getElem
  · simp
  · intro i h1 h2
    simp [List.getElem?_eq_getElem h2]

theorem includedFiles_small_str (support_list : List Nat) (precision : String) (a b : Nat) :
    includedFiles (write_cpu_function_small_str support_list precision a b)
      = (for_range a b).map
          fun i => "rocfft_kernel_" ++ to_string (support_list.getD i 0) ++ ".h" := by
  unfold write_cpu_function_small_str
  simp only [includedFiles_append, includedFiles_map_incl, includedFiles_map_launcher]
  simp [includedFiles]

theorem launcherNames_small_str (support_list : List Nat) (precision : String) (a b : Nat) :
    launcherNames (write_cpu_function_small_str support_list precision a b)
      = (for_range a b).map fun i =>
          "rocfft_internal_dfn_" ++ short_name_precision precision ++ "_ci_ci_stoc_"
            ++ to_string (support_list.getD i 0) := by
  unfold write_cpu_function_small_str
  simp only [launcherNames_append, launcherNames_map_incl, launcherNames_map_launcher]
  simp [launcherNames]

theorem flatMap_map_for_range {β : Type} (support_list : List Nat) (g : Nat) (hg : 1 ≤ g)
    (f : Nat → β) :
    (List.range g).flatMap (fun j =>
        (for_range (i_start (group_size support_list.length g) j)
          (i_end support_list.length (group_size support_list.length g) j)).map
          fun i => f (support_list.getD i 0))
      = support_list.map f := by
  have h := for_range_flatMap (group_size support_list.length g) support_list.length g
  rw [min_eq_right (le_mul_group_size support_list.length g hg)] at h
  have e : (List.range g).flatMap (fun j =>
        (for_range (i_start (group_size support_list.length g) j)
          (i_end support_list.length (group_size support_list.length g) j)).map
          fun i => f (support_list.getD i 0))
      = ((List.range g).flatMap (fun j =>
          for_range (i_start (group_size support_list.length g) j)
            (i_end support_list.length (group_size support_list.length g) j))).map
          fun i => f (support_list.getD i 0) := by
    rw [List.map_flatMap]
  rw [e, h]
  conv_rhs => rw [← map_getD_range support_list]
  rw [List.map_map]
  rfl

theorem write_cpu_function_small_eq (openable : String → Bool) (support_list : List Nat)
    (precision : String) (g : Nat) (hint : g < 2 ^ 31) (h1 : 1 ≤ g)
    (h2 : g ≤ support_list.length) :
    write_cpu_function_small openable support_list precision (g : Int)
      = .ok ((List.range g).flatMap
          (write_cpu_function_small_group openable support_list precision
            (group_size support_list.length g))) := by
  have hg : size_t_of_int (g : Int) = g := size_t_of_int_natCast g (by omega)
  unfold write_cpu_function_small
  rw [hg, if_neg (by omega), if_neg (by omega)]

/-- C10: for a catalog of `n` lengths and a group count `g` (an `int`) with `1 <= g <= n`,
`write_cpu_function_small` returns after running the groups `0 .. g-1`; every catalog index
lies in the range `[i_start, i_end)` of exactly one group; the ranges, taken in group order,
list `0 .. n-1`; the include lines and the `POWX_SMALL_GENERATOR` lines of a group are those of
the items of its range, in index order; and over all groups each catalog item gets exactly one
include line and one generator line, in catalog order. -/
theorem C10_small_groups_partition (openable : String → Bool) (support_list : List Nat)
    (precision : String) (g : Nat) (hint : g < 2 ^ 31) (h1 : 1 ≤ g)
    (h2 : g ≤ support_list.length) :
    write_cpu_function_small openable support_list precision (g : Int)
        = .ok ((List.range g).flatMap
            (write_cpu_function_small_group openable support_list precision
              (group_size support_list.length g)))
    ∧ (∀ i, i < support_list.length →
        ∃! j, j < g ∧ i_start (group_size support_list.length g) j ≤ i
          ∧ i < i_end support_list.length (group_size support_list.length g) j)
    ∧ (List.range g).flatMap (fun j =>
          for_range (i_start (group_size support_list.length g) j)
            (i_end support_list.length (group_size support_list.length g) j))
        = List.range support_list.length
    ∧ (∀ j,
        includedFiles (write_cpu_function_small_str support_list precision
            (i_start (group_size support_list.length g) j)
            (i_end support_list.length (group_size support_list.length g) j))
          = (for_range (i_start (group_size support_list.length g) j)
              (i_end support_list.length (group_size support_list.length g) j)).map
              (fun i => "rocfft_kernel_" ++ to_string (support_list.getD i 0) ++ ".h")
        ∧ launcherNames (write_cpu_function_small_str support_list precision
            (i_start (group_size support_list.length g) j)
            (i_end support_list.length (group_size support_list.length g) j))
          = (for_range (i_start (group_size support_list.length g) j)
              (i_end support_list.length (group_size support_list.length g) j)).map
              (fun i => "rocfft_internal_dfn_" ++ short_name_precision precision
                ++ "_ci_ci_stoc_" ++ to_string (support_list.getD i 0)))
    ∧ (List.range g).flatMap (fun j =>
          includedFiles (write_cpu_function_small_str support_list precision
            (i_start (group_size support_list.length g) j)
            (i_end support_list.length (group_size support_list.length g) j)))
        = support_list.map (fun len => "rocfft_kernel_" ++ to_string len ++ ".h")
    ∧ (List.range g).flatMap (fun j =>
          launcherNames (write_cpu_function_small_str support_list precision
            (i_start (group_size support_list.length g) j)
            (i_end support_list.length (group_size support_list.length g) j)))
        = support_list.map (fun len => "rocfft_internal_dfn_" ++ short_name_precision precision
            ++ "_ci_ci_stoc_" ++ to_string len) := by
  refine ⟨write_cpu_function_small_eq openable support_list precision g hint h1 h2,
    fun i hi => group_index_unique support_list.length g h1 h2 i hi, ?_,
    fun j => ⟨includedFiles_small_str _ _ _ _, launcherNames_small_str _ _ _ _⟩, ?_, ?_⟩
  · rw [for_range_flatMap, min_eq_right (le_mul_group_size support_list.length g h1)]
  · simp only [includedFiles_small_str]
    exact flatMap_map_for_range support_list g h1
      (fun len => "rocfft_kernel_" ++ to_string len ++ ".h")
  · simp only [launcherNames_small_str]
    exact flatMap_map_for_range support_list g h1
      (fun len => "rocfft_internal_dfn_" ++ short_name_precision precision
        ++ "_ci_ci_stoc_" ++ to_string len)

/-- Witness for C10: the catalog `[64, 128, 256]` in two groups, `[64, 128]` and `[256]`. -/
theorem C10_small_groups_partition_witness :
    (List.range 2).flatMap (fun j =>
        launcherNames (write_cpu_function_small_str [64, 128, 256] "single"
          (i_start (group_size [64, 128, 256].length 2) j)
          (i_end [64, 128, 256].length (group_size [64, 128, 256].length 2) j)))
      = [64, 128, 256].map (fun len => "rocfft_internal_dfn_" ++ short_name_precision "single"
          ++ "_ci_ci_stoc_" ++ to_string len) :=
  (C10_small_groups_partition (fun _ => true) [64, 128, 256] "single" 2 (by decide) (by decide)
    (by decide)).2.2.2.2.2

/-! ## Properties of the entry-point names -/

theorem toDigitsCore_append (b : Nat) : ∀ (f n : Nat) (ds : List Char),
    Nat.toDigitsCore b f n ds = Nat.toDigitsCore b f n [] ++ ds := by
  intro f
  induction f with
  | zero => intro n ds; simp [Nat.toDigitsCore]
  | succ f ih =>
    intro n ds
    simp only [Nat.toDigitsCore]
    split_ifs with h
    · simp
    · rw [ih (n / b) (Nat.digitChar (n % b) :: ds), ih (n / b) [Nat.digitChar (n % b)]]
      simp

theorem digitVal_digitChar (k : Nat) (h : k < 10) : digitVal (Nat.digitChar k) = k := by
  interval_cases k <;> rfl

theorem digitChar_ne_underscore (k : Nat) (h : k < 10) : Nat.digitChar k ≠ '_' := by
  interval_cases k <;> decide

theorem ofDigitChars_append_singleton (l : List Char) (c : Char) :
    ofDigitChars (l ++ [c]) = ofDigitChars l * 10 + digitVal c := by
  simp [ofDigitChars, List.foldl_append]

theorem ofDigitChars_toDigitsCore : ∀ (f n : Nat), n < f →
    ofDigitChars (Nat.toDigitsCore 10 f n []) = n := by
  intro f
  induction f with
  | zero => intro n h; omega
  | succ f ih =>
    intro n h
    simp only [Nat.toDigitsCore]
    split_ifs with h0
    · have hn : n < 10 := by omega
      simp [ofDigitChars, digitVal_digitChar (n % 10) (Nat.mod_lt n (by decide))]
      omega
    · rw [toDigitsCore_append, ofDigitChars_append_singleton, ih (n / 10) (by omega),
        digitVal_digitChar (n % 10) (Nat.mod_lt n (by decide))]
      omega

theorem toDigitsCore_no_underscore : ∀ (f n : Nat) (c : Char),
    c ∈ Nat.toDigitsCore 10 f n [] → c ≠ '_' := by
  intro f
  induction f with
  | zero => intro n c h; simp [Nat.toDigitsCore] at h
  | succ f ih =>
    intro n c h
    simp only [Nat.toDigitsCore] at h
    split_ifs at h with h0
    · simp only [List.mem_singleton] at h
      rw [h]
      exact digitChar_ne_underscore _ (Nat.mod_lt n (by decide))
    · rw [toDigitsCore_append] at h
      simp only [List.mem_append, List.mem_singleton] at h
      rcases h with h | h
      · exact ih _ c h
      · rw [h]
        exact digitChar_ne_underscore _ (Nat.mod_lt n (by decide))

theorem to_string_data (n : Nat) : (to_string n).data = Nat.toDigits 10 n := rfl

theorem to_string_injective : Function.Injective to_string := by
  intro a b h
  have h' : Nat.toDigits 10 a = Nat.toDigits 10 b := by
    rw [← to_string_data, ← to_string_data, h]
  have ha := ofDigitChars_toDigitsCore (a + 1) a (Nat.lt_succ_self a)
  have hb := ofDigitChars_toDigitsCore (b + 1) b (Nat.lt_succ_self b)
  unfold Nat.toDigits at h'
  rw [h'] at ha
  exact ha.symm.trans hb

theorem to_string_no_underscore (n : Nat) : '_' ∉ (to_string n).data := by
  intro h
  exact toDigitsCore_no_underscore (n + 1) n '_' h rfl

theorem split_at_underscore : ∀ (a a' b b' : List Char), '_' ∉ a → '_' ∉ a' →
    a ++ '_' :: b = a' ++ '_' :: b' → a = a' ∧ b = b' := by
  intro a
  induction a with
  | nil =>
    intro a' b b' _ ha' h
    cases a' with
    | nil => simpa using h
    | cons x xs =>
      simp only [List.nil_append, List.cons_append, List.cons.injEq] at h
      exact absurd (h.1 ▸ List.mem_cons_self _ _) ha'
  | cons y ys ih =>
    intro a' b b' ha ha' h
    cases a' with
    | nil =>
      simp only [List.nil_append, List.cons_append, List.cons.injEq] at h
      exact absurd (h.1 ▸ List.mem_cons_self _ _) ha
    | cons x xs =>
      simp only [List.cons_append, List.cons.injEq] at h
      obtain ⟨rfl, h2⟩ := h
      have := ih xs b b' (fun m => ha (List.mem_cons_of_mem _ m))
        (fun m => ha' (List.mem_cons_of_mem _ m)) h2
      exact ⟨by rw [this.1], this.2⟩

theorem append_ne_of_take_ne (p p' x y : List Char)
    (h : p.take (min p.length p'.length) ≠ p'.take (min p.length p'.length)) :
    p ++ x ≠ p' ++ y := by
  intro e
  apply h
  have := congrArg (List.take (min p.length p'.length)) e
  rwa [List.take_append_of_le_length (min_le_left _ _),
    List.take_append_of_le_length (min_le_right _ _)] at this

set_option maxRecDepth 100000 in
theorem entry_head_mismatch : ∀ (p p' : rocfft_precision) (k k' : Option EntryKind),
    (p, k) ≠ (p', k') →
    (entry_head p k).data.take (min (entry_head p k).data.length (entry_head p' k').data.length)
      ≠ (entry_head p' k').data.take
          (min (entry_head p k).data.length (entry_head p' k').data.length) := by
  intro p p' k k'
  cases p <;> cases p' <;> rcases k with _ | k <;> rcases k' with _ | k' <;>
    (try cases k) <;> (try cases k') <;> decide

theorem entry_name_injective : Function.Injective entry_name := by
  intro a b h
  have hd := congrArg String.data h
  cases a with
  | oneD p k len =>
    cases b with
    | oneD p' k' len' =>
      simp only [entry_name, String.data_append] at hd
      by_cases e : (p, some k) = (p', some k')
      · simp only [Prod.mk.injEq, Option.some.injEq] at e
        obtain ⟨rfl, rfl⟩ := e
        rw [to_string_injective (String.ext (List.append_cancel_left hd))]
      · exact absurd hd (append_ne_of_take_ne _ _ _ _ (entry_head_mismatch p p' _ _ e))
    | fused2D p' l1 l2 =>
      simp only [entry_name, String.data_append, List.append_assoc] at hd
      exact absurd hd (append_ne_of_take_ne _ _ _ _
        (entry_head_mismatch p p' (some k) none (by simp)))
  | fused2D p l1 l2 =>
    cases b with
    | oneD p' k' len' =>
      simp only [entry_name, String.data_append, List.append_assoc] at hd
      exact absurd hd (append_ne_of_take_ne _ _ _ _
        (entry_head_mismatch p p' none (some k') (by simp)))
    | fused2D p' m1 m2 =>
      simp only [entry_name, String.data_append, List.append_assoc] at hd
      by_cases e : (p, (none : Option EntryKind)) = (p', none)
      · simp only [Prod.mk.injEq, and_true] at e
        subst e
        have h2 := List.append_cancel_left hd
        have h3 := split_at_underscore _ _ _ _ (to_string_no_underscore l1)
          (to_string_no_underscore m1) h2
        rw [to_string_injective (String.ext h3.1), to_string_injective (String.ext h3.2)]
      · exact absurd hd (append_ne_of_take_ne _ _ _ _ (entry_head_mismatch p p' _ _ e))


/-- C5: the entry-point name is an injective function of the specialization (precision, kind,
length, and for a fused 2-D kernel the ordered pair of lengths): two different specializations
never get the same name; in particular the name `rocfft_internal_dfn_<p>_ci_ci_2D_<l1>_<l2>`
determines the ordered pair `(l1, l2)`. -/
theorem C5_entry_name_injective :
    Function.Injective entry_name
    ∧ (∀ p q l1 l2 m1 m2, entry_name (.fused2D p l1 l2) = entry_name (.fused2D q m1 m2)
        → p = q ∧ l1 = m1 ∧ l2 = m2) := by
  refine ⟨entry_name_injective, ?_⟩
  intro p q l1 l2 m1 m2 h
  have e := entry_name_injective h
  simp only [Specialization.fused2D.injEq] at e
  exact e

/-! ## The names each emitter produces, in terms of the specializations of the catalog -/

theorem registeredNames_append (p : rocfft_precision) (a b : Text) :
    registeredNames p (a ++ b) = registeredNames p a ++ registeredNames p b := by
  simp [registeredNames, assignments_append]

theorem registeredNames_flatMap {α : Type} (p : rocfft_precision) (l : List α) (f : α → Text) :
    registeredNames p (l.flatMap f) = l.flatMap fun x => registeredNames p (f x) := by
  induction l with
  | nil => rfl
  | cons x rest ih => simp [registeredNames_append, ih]

theorem registeredNames_map_assign {α : Type} (p : rocfft_precision) (l : List α) (m : MapId)
    (k : α → Key ⊕ Key2D) (h n t : α → String) :
    registeredNames p (l.map fun x => .assign m (k x) (h x) (n x) (t x))
      = if m.precision = p then l.map n else [] := by
  induction l with
  | nil => simp [registeredNames, assignments]
  | cons x rest ih =>
    simp only [registeredNames, List.map_cons, assignments] at ih ⊢
    by_cases hp : m.precision = p
    · simp only [hp, if_true] at ih ⊢
      simp [List.filter_cons, hp, ih]
    · simp only [hp, if_false] at ih ⊢
      simp [List.filter_cons, hp, ih]

theorem declaredNames_flatMap {α : Type} (l : List α) (f : α → Text) :
    declaredNames (l.flatMap f) = l.flatMap fun x => declaredNames (f x) := by
  induction l with
  | nil => rfl
  | cons x rest ih => simp [declaredNames_append, ih]

theorem launcherNames_flatMap {α : Type} (l : List α) (f : α → Text) :
    launcherNames (l.flatMap f) = l.flatMap fun x => launcherNames (f x) := by
  induction l with
  | nil => rfl
  | cons x rest ih => simp [launcherNames_append, ih]

theorem declaredNames_map_decl {α : Type} (l : List α) (h n t : α → String) :
    declaredNames (l.map fun x => .decl (h x) (n x) (t x)) = l.map n := by
  induction l with
  | nil => rfl
  | cons x rest ih => simp [declaredNames, ih]

theorem registeredNames_large_single (d : Nat → Bool) (p : rocfft_precision) (t : Key) :
    registeredNames p (AddCPUFunctionToPool_large_single d t)
      = if p = .rocfft_precision_single then (large_specs d p t).map entry_name else [] := by
  obtain ⟨len, scheme⟩ := t
  unfold AddCPUFunctionToPool_large_single large_specs
  cases scheme <;> cases hd : d len <;> cases p <;>
    simp [registeredNames, assignments, MapId.precision, entry_name, entry_head, hd]

theorem registeredNames_large_double (d : Nat → Bool) (p : rocfft_precision) (t : Key) :
    registeredNames p (AddCPUFunctionToPool_large_double d t)
      = if p = .rocfft_precision_double then (large_specs d p t).map entry_name else [] := by
  obtain ⟨len, scheme⟩ := t
  unfold AddCPUFunctionToPool_large_double large_specs
  cases scheme <;> cases hd : d len <;> cases p <;>
    simp [registeredNames, assignments, MapId.precision, entry_name, entry_head, hd]

theorem declaredNames_large (d : Nat → Bool) (t : Key) :
    declaredNames (WriteCPUHeaders_large d t)
      = (large_specs d .rocfft_precision_single t).map entry_name
        ++ (large_specs d .rocfft_precision_double t).map entry_name := by
  obtain ⟨len, scheme⟩ := t
  unfold WriteCPUHeaders_large large_specs
  cases scheme <;> cases hd : d len <;>
    simp [declaredNames, entry_name, entry_head, hd]

theorem declaredNames_2D (k : Key2D) :
    declaredNames (WriteCPUHeaders_2D k)
      = (specs_2D .rocfft_precision_single k).map entry_name
        ++ (specs_2D .rocfft_precision_double k).map entry_name := by
  obtain ⟨len1, len2, scheme⟩ := k
  unfold WriteCPUHeaders_2D specs_2D
  cases scheme <;> simp [declaredNames, entry_name, entry_head]

theorem registeredNames_cons_assign (p : rocfft_precision) (m : MapId) (k : Key ⊕ Key2D)
    (h n t : String) (rest : Text) :
    registeredNames p (.assign m k h n t :: rest)
      = (if m.precision = p then [n] else []) ++ registeredNames p rest := by
  by_cases hp : m.precision = p <;> simp [registeredNames, assignments, List.filter_cons, hp]

theorem registeredNames_2D_single (p : rocfft_precision) :
    ∀ (l : List Key2D) (t : Text), AddCPUFunctionToPool_2D_single l = .ok t →
      registeredNames p t
        = if p = .rocfft_precision_single then (l.flatMap (specs_2D p)).map entry_name
          else [] := by
  intro l
  induction l with
  | nil =>
    intro t h
    simp only [AddCPUFunctionToPool_2D_single, Except.ok.injEq] at h
    subst h
    simp [registeredNames, assignments]
  | cons k rest ih =>
    intro t h
    obtain ⟨len1, len2, scheme⟩ := k
    simp only [AddCPUFunctionToPool_2D_single] at h
    split_ifs at h with hs
    cases hrest : AddCPUFunctionToPool_2D_single rest with
    | error e => simp [hrest] at h
    | ok later =>
      simp only [hrest, Except.ok.injEq] at h
      subst h
      rw [registeredNames_cons_assign, ih later hrest]
      cases p <;> simp [MapId.precision, specs_2D, entry_name, entry_head, hs]

theorem registeredNames_2D_double (p : rocfft_precision) :
    ∀ (l : List Key2D) (t : Text), AddCPUFunctionToPool_2D_double l = .ok t →
      registeredNames p t
        = if p = .rocfft_precision_double then (l.flatMap (specs_2D p)).map entry_name
          else [] := by
  intro l
  induction l with
  | nil =>
    intro t h
    simp only [AddCPUFunctionToPool_2D_double, Except.ok.injEq] at h
    subst h
    simp [registeredNames, assignments]
  | cons k rest ih =>
    intro t h
    obtain ⟨len1, len2, scheme⟩ := k
    simp only [AddCPUFunctionToPool_2D_double] at h
    split_ifs at h with hs
    cases hrest : AddCPUFunctionToPool_2D_double rest with
    | error e => simp [hrest] at h
    | ok later =>
      simp only [hrest, Except.ok.injEq] at h
      subst h
      rw [registeredNames_cons_assign, ih later hrest]
      cases p <;> simp [MapId.precision, specs_2D, entry_name, entry_head, hs]

theorem registeredNames_text (p : rocfft_precision) (l : List String) :
    registeredNames p (l.map Piece.text) = [] := by
  induction l with
  | nil => rfl
  | cons x rest ih =>
    simp only [registeredNames, List.map_cons, assignments] at ih ⊢
    exact ih

theorem registeredNames_AddCPUFunctionToPool_str (d : Nat → Bool) (p : rocfft_precision)
    (support_list : List Nat) (large1D_list : List Key) (l2s l2d : List Key2D) (str : Text)
    (h : AddCPUFunctionToPool_str d support_list large1D_list l2s l2d = .ok str) :
    registeredNames p str
      = (catalog_specs d p support_list large1D_list
          (match p with
           | .rocfft_precision_single => l2s
           | .rocfft_precision_double => l2d)).map entry_name := by
  unfold AddCPUFunctionToPool_str at h
  cases h1 : AddCPUFunctionToPool_2D_single l2s with
  | error e => simp [h1] at h
  | ok single_2D =>
    cases h2 : AddCPUFunctionToPool_2D_double l2d with
    | error e => simp [h1, h2] at h
    | ok double_2D =>
      simp only [h1, h2, Except.ok.injEq] at h
      subst h
      have e1 := registeredNames_2D_single p l2s single_2D h1
      have e2 := registeredNames_2D_double p l2d double_2D h2
      have t1 := registeredNames_text p ["\n", "#include <iostream> \n",
        "#include \"../include/function_pool.h\" \n", "#include \"kernel_launch_generator.h\" \n",
        "\n", "//build hash map to store the function pointers\n",
        "function_pool::function_pool()\n", "\x7b\n", "\t//single precision \n"]
      have t2 := registeredNames_text p ["\n", "\t//double precision \n"]
      have t3 := registeredNames_text p ["\n"]
      have t4 := registeredNames_text p ["\x7d\n"]
      simp only [List.map_cons, List.map_nil] at t1 t2 t3 t4
      simp only [registeredNames_append, registeredNames_flatMap, registeredNames_map_assign,
        registeredNames_large_single, registeredNames_large_double, e1, e2, t1, t2, t3, t4,
        catalog_specs, List.map_append, List.map_map, List.map_flatMap]
      cases p <;> simp [MapId.precision, entry_name, entry_head, Function.comp_def]

theorem registeredNames_same_list (d : Nat → Bool) (p : rocfft_precision)
    (support_list : List Nat) (large1D_list : List Key) (list_2D : List Key2D) (str : Text)
    (h : AddCPUFunctionToPool_str d support_list large1D_list list_2D list_2D = .ok str) :
    registeredNames p str
      = (catalog_specs d p support_list large1D_list list_2D).map entry_name := by
  rw [registeredNames_AddCPUFunctionToPool_str d p support_list large1D_list list_2D list_2D
    str h]
  cases p <;> rfl

theorem exists_precision (P : rocfft_precision → Prop) :
    (∃ p, P p) ↔ P .rocfft_precision_single ∨ P .rocfft_precision_double := by
  constructor
  · rintro ⟨p, hp⟩
    cases p
    · exact Or.inl hp
    · exact Or.inr hp
  · rintro (h | h)
    · exact ⟨_, h⟩
    · exact ⟨_, h⟩

theorem mem_flatMap_append {α β : Type} (l : List α) (f g : α → List β) (x : β) :
    x ∈ l.flatMap (fun a => f a ++ g a) ↔ x ∈ l.flatMap f ∨ x ∈ l.flatMap g := by
  simp only [List.mem_flatMap, List.mem_append]
  constructor
  · rintro ⟨a, ha, h | h⟩
    · exact Or.inl ⟨a, ha, h⟩
    · exact Or.inr ⟨a, ha, h⟩
  · rintro (⟨a, ha, h⟩ | ⟨a, ha, h⟩)
    · exact ⟨a, ha, Or.inl h⟩
    · exact ⟨a, ha, Or.inr h⟩

theorem declaredNames_cons_text (x : String) (rest : Text) :
    declaredNames (.text x :: rest) = declaredNames rest := rfl

theorem declaredNames_nil : declaredNames [] = [] := rfl

theorem declaredNames_WriteCPUHeaders_str (d : Nat → Bool) (support_list : List Nat)
    (large1D_list : List Key) (list_2D : List Key2D) :
    declaredNames (WriteCPUHeaders_str d support_list large1D_list list_2D)
      = support_list.map (fun len => entry_name (.oneD .rocfft_precision_single .stoc len))
        ++ support_list.map (fun len => entry_name (.oneD .rocfft_precision_double .stoc len))
        ++ large1D_list.flatMap (fun t =>
            (large_specs d .rocfft_precision_single t).map entry_name
              ++ (large_specs d .rocfft_precision_double t).map entry_name)
        ++ list_2D.flatMap (fun k =>
            (specs_2D .rocfft_precision_single k).map entry_name
              ++ (specs_2D .rocfft_precision_double k).map entry_name) := by
  unfold WriteCPUHeaders_str
  simp only [List.cons_append, List.nil_append, declaredNames_cons_text, declaredNames_append,
    declaredNames_map_decl, declaredNames_flatMap, declaredNames_large, declaredNames_2D,
    declaredNames_nil, List.append_nil, List.append_assoc]
  rfl

theorem mem_declaredNames_WriteCPUHeaders_str (d : Nat → Bool) (support_list : List Nat)
    (large1D_list : List Key) (list_2D : List Key2D) (name : String) :
    name ∈ declaredNames (WriteCPUHeaders_str d support_list large1D_list list_2D)
      ↔ ∃ p, name ∈ (catalog_specs d p support_list large1D_list list_2D).map entry_name := by
  rw [exists_precision, declaredNames_WriteCPUHeaders_str]
  unfold catalog_specs
  simp only [List.mem_append, mem_flatMap_append, List.map_append, List.map_map,
    List.map_flatMap, Function.comp_def]
  tauto

theorem mem_assignment_names (t : Text) (name : String) :
    name ∈ (assignments t).map (fun a => a.2.2) ↔ ∃ p, name ∈ registeredNames p t := by
  simp only [registeredNames, List.mem_map, List.mem_filter, decide_eq_true_eq]
  constructor
  · rintro ⟨a, ha, rfl⟩
    exact ⟨a.1.precision, a, ⟨ha, rfl⟩, rfl⟩
  · rintro ⟨p, a, ⟨ha, -⟩, rfl⟩
    exact ⟨a, ha, rfl⟩

/-- C4: on every catalog for which `AddCPUFunctionToPool(support_list, large1D_list, list2D,
list2D)` builds its text (no `abort()`), a name is registered by that text if and only if
`WriteCPUHeaders(support_list, large1D_list, list2D)` declares it. -/
theorem C4_registry_lockstep_with_declarations (d : Nat → Bool) (support_list : List Nat)
    (large1D_list : List Key) (list_2D : List Key2D) (str : Text)
    (h : AddCPUFunctionToPool_str d support_list large1D_list list_2D list_2D = .ok str) :
    ∀ name, name ∈ (assignments str).map (fun a => a.2.2)
      ↔ name ∈ declaredNames (WriteCPUHeaders_str d support_list large1D_list list_2D) := by
  intro name
  rw [mem_assignment_names, mem_declaredNames_WriteCPUHeaders_str]
  apply exists_congr
  intro p
  rw [registeredNames_AddCPUFunctionToPool_str d p support_list large1D_list list_2D list_2D
    str h]
  cases p <;> rfl

/-- Witness for C4: the catalog with the small length 64, the large-1D entry
`(8192, CS_KERNEL_STOCKHAM_BLOCK_CC)` and the 2-D entry `(64, 128, CS_KERNEL_2D_SINGLE)`. -/
theorem C4_registry_lockstep_with_declarations_witness :
    "rocfft_internal_dfn_dp_ci_ci_2D_64_128" ∈ (assignments samplePoolText).map (fun a => a.2.2)
      ↔ "rocfft_internal_dfn_dp_ci_ci_2D_64_128"
          ∈ declaredNames (WriteCPUHeaders_str is_diagonal_sbrc_3D_length [64]
              [(8192, .CS_KERNEL_STOCKHAM_BLOCK_CC)] [(64, 128, .CS_KERNEL_2D_SINGLE)]) :=
  C4_registry_lockstep_with_declarations is_diagonal_sbrc_3D_length [64]
    [(8192, .CS_KERNEL_STOCKHAM_BLOCK_CC)] [(64, 128, .CS_KERNEL_2D_SINGLE)] samplePoolText
    (by rfl) "rocfft_internal_dfn_dp_ci_ci_2D_64_128"

/-! ## The launchers each emitter writes -/

theorem small_name_eq (p : rocfft_precision) (len : Nat) :
    "rocfft_internal_dfn_" ++ short_name_precision (precision_name p) ++ "_ci_ci_stoc_"
        ++ to_string len
      = entry_name (.oneD p .stoc len) := by
  cases p <;> simp [short_name_precision, precision_name, entry_name, entry_head]

theorem emittedLaunchers_small_group (openable : String → Bool)
    (hopen : ∀ f, openable f = true) (support_list : List Nat) (precision : String)
    (gs j : Nat) :
    emittedLaunchers (write_cpu_function_small_group openable support_list precision gs j)
      = launcherNames (write_cpu_function_small_str support_list precision (i_start gs j)
          (i_end support_list.length gs j)) := by
  unfold write_cpu_function_small_group
  simp only [emittedLaunchers_append, emittedLaunchers_write_file _ _ _ (hopen _)]
  simp [launcherNames]

theorem emittedLaunchers_small (openable : String → Bool) (hopen : ∀ f, openable f = true)
    (support_list : List Nat) (p : rocfft_precision) (g : Nat) (hint : g < 2 ^ 31) (h1 : 1 ≤ g)
    (h2 : g ≤ support_list.length) :
    ∃ tr, write_cpu_function_small openable support_list (precision_name p) (g : Int) = .ok tr
      ∧ emittedLaunchers tr = (support_list.map (.oneD p .stoc)).map entry_name := by
  refine ⟨_, write_cpu_function_small_eq openable support_list (precision_name p) g hint h1 h2,
    ?_⟩
  rw [emittedLaunchers_flatMap]
  simp only [emittedLaunchers_small_group openable hopen, launcherNames_small_str]
  rw [flatMap_map_for_range support_list g h1
    (fun len => "rocfft_internal_dfn_" ++ short_name_precision (precision_name p)
      ++ "_ci_ci_stoc_" ++ to_string len)]
  simp only [List.map_map, Function.comp_def, small_name_eq]

theorem launcherNames_large_entry (d : Nat → Bool) (p : rocfft_precision) (t : Key) :
    launcherNames (write_cpu_function_large_entry d (precision_name p) t)
      = (large_specs d p t).map entry_name := by
  obtain ⟨len, scheme⟩ := t
  unfold write_cpu_function_large_entry large_specs
  cases scheme <;> cases hd : d len <;> cases p <;>
    simp [launcherNames, entry_name, entry_head, short_name_precision, precision_name, hd]

theorem launcherNames_cons_text (x : String) (rest : Text) :
    launcherNames (.text x :: rest) = launcherNames rest := rfl

theorem emittedLaunchers_large (d : Nat → Bool) (openable : String → Bool)
    (hopen : ∀ f, openable f = true) (large1D_list : List Key) (p : rocfft_precision) :
    emittedLaunchers (write_cpu_function_large d openable large1D_list (precision_name p))
      = (large1D_list.flatMap (large_specs d p)).map entry_name := by
  unfold write_cpu_function_large write_cpu_function_large_str
  simp only [emittedLaunchers_append, emittedLaunchers_write_file _ _ _ (hopen _),
    List.cons_append, List.nil_append, launcherNames_cons_text, launcherNames_flatMap,
    launcherNames_large_entry, List.map_flatMap]
  simp [launcherNames]

theorem emittedLaunchers_open_2D_file (T : PowerTests) (openable : String → Bool) (dim : Key2D)
    (precision : String) (files : List String) (r : String × List String × List Event)
    (h : open_2D_file T openable dim precision files = .ok r) :
    emittedLaunchers r.2.2 = [] := by
  unfold open_2D_file at h
  cases hty : get_2D_type T dim with
  | error e => simp [hty] at h
  | ok type =>
    simp only [hty] at h
    split_ifs at h with h1 h2 h3
    all_goals
      simp only [Except.ok.injEq] at h
      subst h
      simp [emittedLaunchers, launcherNames]

theorem name_2D_eq (p : rocfft_precision) (len1 len2 : Nat) :
    "rocfft_internal_dfn_" ++ short_name_precision (precision_name p) ++ "_ci_ci"
        ++ ("_2D_" ++ to_string len1 ++ "_" ++ to_string len2)
      = entry_name (.fused2D p len1 len2) := by
  simp only [← String.append_assoc]
  cases p <;> simp [short_name_precision, precision_name, entry_name, entry_head]

theorem emittedLaunchers_2D_loop (T : PowerTests) (openable : String → Bool)
    (p : rocfft_precision) :
    ∀ (l : List Key2D) (files : List String) (tr : List Event),
      write_cpu_function_2D_loop T openable (precision_name p) l files = .ok tr →
      emittedLaunchers tr = (l.flatMap (specs_2D p)).map entry_name := by
  intro l
  induction l with
  | nil =>
    intro files tr h
    simp only [write_cpu_function_2D_loop, Except.ok.injEq] at h
    subst h
    rfl
  | cons k rest ih =>
    intro files tr h
    obtain ⟨len1, len2, scheme⟩ := k
    simp only [write_cpu_function_2D_loop] at h
    cases ho : open_2D_file T openable (len1, len2, scheme) (precision_name p) files with
    | error e => simp [ho] at h
    | ok r =>
      obtain ⟨file, files', opening⟩ := r
      have hopening := emittedLaunchers_open_2D_file T openable _ _ _ _ ho
      simp only [ho] at h
      split_ifs at h with hs
      cases hrest : write_cpu_function_2D_loop T openable (precision_name p) rest files' with
      | error e => simp [hrest] at h
      | ok later =>
        simp only [hrest, Except.ok.injEq] at h
        subst h
        simp only [emittedLaunchers_append, hopening, ih files' later hrest, emittedLaunchers,
          launcherNames, name_2D_eq, List.nil_append, List.append_nil]
        simp [specs_2D, hs]

/-- C3 (as amended): for every catalog and every group count `g` (an `int`) with
`1 <= g <= n`, `n` the size of the small list, when every sink opens and
`AddCPUFunctionToPool` and `write_cpu_function_2D` complete without `abort()`, then
`write_cpu_function_small` completes too and every entry-point name that the constructor text
registers for a precision is the name of a launcher that `write_cpu_function_small`,
`write_cpu_function_large` or `write_cpu_function_2D` writes for that catalog and precision. -/
theorem C3_registered_names_are_emitted (d : Nat → Bool) (T : PowerTests)
    (openable : String → Bool) (support_list : List Nat) (large1D_list : List Key)
    (list_2D : List Key2D) (p : rocfft_precision) (g : Nat) (str : Text)
    (tr2D : List Event) (hopen : ∀ f, openable f = true) (hint : g < 2 ^ 31) (h1 : 1 ≤ g)
    (h2 : g ≤ support_list.length)
    (hreg : AddCPUFunctionToPool_str d support_list large1D_list list_2D list_2D = .ok str)
    (h2D : write_cpu_function_2D T openable list_2D (precision_name p) = .ok tr2D) :
    ∃ trSmall,
      write_cpu_function_small openable support_list (precision_name p) (g : Int) = .ok trSmall
      ∧ ∀ name, name ∈ registeredNames p str →
          name ∈ emittedLaunchers trSmall
          ∨ name ∈ emittedLaunchers
              (write_cpu_function_large d openable large1D_list (precision_name p))
          ∨ name ∈ emittedLaunchers tr2D := by
  obtain ⟨trSmall, hrun, hsmall⟩ :=
    emittedLaunchers_small openable hopen support_list p g hint h1 h2
  refine ⟨trSmall, hrun, ?_⟩
  intro name hname
  rw [registeredNames_same_list d p support_list large1D_list list_2D str hreg] at hname
  rw [hsmall, emittedLaunchers_large d openable hopen large1D_list p,
    emittedLaunchers_2D_loop T openable p list_2D [] tr2D h2D]
  unfold catalog_specs at hname
  simp only [List.map_append, List.mem_append] at hname
  tauto

/-- Witness for C3: the catalog with the small length 64, the large-1D entry
`(8192, CS_KERNEL_STOCKHAM_BLOCK_CC)` and the 2-D entry `(64, 128, CS_KERNEL_2D_SINGLE)`,
single precision, one group. -/
theorem C3_registered_names_are_emitted_witness :
    ∃ trSmall,
      write_cpu_function_small (fun _ => true) [64] (precision_name .rocfft_precision_single)
          ((1 : Nat) : Int) = .ok trSmall
      ∧ ∀ name, name ∈ registeredNames .rocfft_precision_single samplePoolText →
          name ∈ emittedLaunchers trSmall
          ∨ name ∈ emittedLaunchers
              (write_cpu_function_large is_diagonal_sbrc_3D_length (fun _ => true)
                [(8192, .CS_KERNEL_STOCKHAM_BLOCK_CC)] (precision_name .rocfft_precision_single))
          ∨ name ∈ emittedLaunchers sampleTrace2D :=
  C3_registered_names_are_emitted is_diagonal_sbrc_3D_length specPowerTests (fun _ => true) [64]
    [(8192, .CS_KERNEL_STOCKHAM_BLOCK_CC)] [(64, 128, .CS_KERNEL_2D_SINGLE)]
    .rocfft_precision_single 1 samplePoolText sampleTrace2D (fun _ => rfl) (by decide)
    (by decide) (by decide) (by rfl) (by rfl)

/-- Counterexample to C3 as stated: for the small catalog `[4096]` and the group count 2,
with every sink opening, the constructor text registers
`rocfft_internal_dfn_sp_ci_ci_stoc_4096` for single precision, while
`write_cpu_function_small` refuses (it only prints its message) and neither it nor
`write_cpu_function_large` nor `write_cpu_function_2D` writes any launcher. -/
theorem C3_counterexample_refused_group_count :
    ∃ str,
      AddCPUFunctionToPool_str is_diagonal_sbrc_3D_length [4096] [] [] [] = .ok str
      ∧ "rocfft_internal_dfn_sp_ci_ci_stoc_4096" ∈ registeredNames .rocfft_precision_single str
      ∧ write_cpu_function_small (fun _ => true) [4096] "single" 2
          = .ok [.cout "Not enough kernels to generate with 2 groups.\n"]
      ∧ write_cpu_function_2D specPowerTests (fun _ => true) [] "single" = .ok []
      ∧ emittedLaunchers [.cout "Not enough kernels to generate with 2 groups.\n"]
          ++ emittedLaunchers
              (write_cpu_function_large is_diagonal_sbrc_3D_length (fun _ => true) [] "single")
          ++ emittedLaunchers [] = [] := by
  refine ⟨_, rfl, ?_, by rfl, by rfl, by rfl⟩
  decide

/-! ## Group sizes, refusal and units of `write_cpu_function_small` -/

theorem group_count_eq (n gs j : Nat) :
    group_count n gs j = min ((j + 1) * gs) n - j * gs := by
  simp [group_count, for_range, i_start, i_end]

theorem group_count_le (n gs j : Nat) : group_count n gs j ≤ gs := by
  rw [group_count_eq, Nat.add_mul, Nat.one_mul]
  omega

theorem group_count_full (n gs j : Nat) (h : (j + 1) * gs ≤ n) : group_count n gs j = gs := by
  rw [group_count_eq, min_eq_left h, Nat.add_mul, Nat.one_mul]
  omega

theorem group_count_antitone (n gs j k : Nat) (h : j ≤ k) :
    group_count n gs k ≤ group_count n gs j := by
  rcases Nat.eq_or_lt_of_le h with rfl | hlt
  · exact le_refl _
  · have hmul : (j + 1) * gs ≤ k * gs := Nat.mul_le_mul_right gs hlt
    rw [group_count_eq, group_count_eq]
    rw [Nat.add_mul, Nat.one_mul] at hmul ⊢
    rw [Nat.add_mul, Nat.one_mul]
    omega

theorem group_count_sum (n gs : Nat) (m : Nat) :
    ((List.range m).map (group_count n gs)).sum = min (m * gs) n := by
  induction m with
  | zero => simp
  | succ m ih =>
    rw [List.range_succ, List.map_append, List.sum_append, ih, List.map_singleton,
      List.sum_singleton, group_count_eq, Nat.add_mul, Nat.one_mul]
    omega

theorem launcherNames_small_str_length (support_list : List Nat) (precision : String)
    (gs j : Nat) :
    (launcherNames (write_cpu_function_small_str support_list precision (i_start gs j)
        (i_end support_list.length gs j))).length = group_count support_list.length gs j := by
  rw [launcherNames_small_str, List.length_map]
  rfl

/-- C11 (as amended): for a catalog of `n` lengths and a group count `g` with `1 <= g <= n`,
every group of `write_cpu_function_small` holds at most `ceil(n/g)` items, a group `j` with
`(j+1) * ceil(n/g) <= n` holds exactly `ceil(n/g)`, the sizes do not increase with the group
index, and the sizes of the `g` groups add up to `n`. The size of a group is the number of its
generator lines. -/
theorem C11_group_sizes (support_list : List Nat) (precision : String) (g : Nat)
    (h1 : 1 ≤ g) (h2 : g ≤ support_list.length) :
    (∀ j, (launcherNames (write_cpu_function_small_str support_list precision
          (i_start (group_size support_list.length g) j)
          (i_end support_list.length (group_size support_list.length g) j))).length
        = group_count support_list.length (group_size support_list.length g) j)
    ∧ (∀ j, group_count support_list.length (group_size support_list.length g) j
        ≤ group_size support_list.length g)
    ∧ (∀ j, (j + 1) * group_size support_list.length g ≤ support_list.length →
        group_count support_list.length (group_size support_list.length g) j
          = group_size support_list.length g)
    ∧ (∀ j k, j ≤ k →
        group_count support_list.length (group_size support_list.length g) k
          ≤ group_count support_list.length (group_size support_list.length g) j)
    ∧ ((List.range g).map
        (group_count support_list.length (group_size support_list.length g))).sum
        = support_list.length
    ∧ 1 ≤ group_size support_list.length g := by
  refine ⟨fun j => launcherNames_small_str_length support_list precision _ j,
    fun j => group_count_le _ _ j, fun j h => group_count_full _ _ j h,
    fun j k h => group_count_antitone _ _ j k h, ?_,
    group_size_pos support_list.length g h1 h2⟩
  rw [group_count_sum, min_eq_right (le_mul_group_size support_list.length g h1)]

/-- Witness for C11: the catalog `[4, 8, 16, 32, 64]` in two groups of sizes 3 and 2. -/
theorem C11_group_sizes_witness :
    ((List.range 2).map
        (group_count [4, 8, 16, 32, 64].length (group_size [4, 8, 16, 32, 64].length 2))).sum
      = [4, 8, 16, 32, 64].length :=
  (C11_group_sizes [4, 8, 16, 32, 64] "single" 2 (by decide) (by decide)).2.2.2.2.1

/-- Counterexample to C11 as stated: for the catalog `[4, 8, 16, 32]` and 3 groups
(`1 <= 3 <= 4`) the group size is `ceil(4/3) = 2`, group 0 gets two generator lines and
group 2 gets none: two group sizes differ by 2. -/
theorem C11_counterexample_four_in_three :
    1 ≤ 3 ∧ 3 ≤ [4, 8, 16, 32].length
      ∧ (launcherNames (write_cpu_function_small_str [4, 8, 16, 32] "single"
          (i_start (group_size [4, 8, 16, 32].length 3) 0)
          (i_end [4, 8, 16, 32].length (group_size [4, 8, 16, 32].length 3) 0))).length = 2
      ∧ (launcherNames (write_cpu_function_small_str [4, 8, 16, 32] "single"
          (i_start (group_size [4, 8, 16, 32].length 3) 2)
          (i_end [4, 8, 16, 32].length (group_size [4, 8, 16, 32].length 3) 2))).length = 0 := by
  refine ⟨by decide, by decide, by rfl, by rfl⟩

/-- C12: for a catalog of `n` lengths and a group count `g > n` (an `int`),
`write_cpu_function_small` refuses: it returns after printing its message, no sink is opened
and nothing is written. -/
theorem C12_small_refuses (openable : String → Bool) (support_list : List Nat)
    (precision : String) (g : Nat) (hint : g < 2 ^ 31) (h : support_list.length < g) :
    ∃ tr, write_cpu_function_small openable support_list precision (g : Int) = .ok tr
      ∧ tr = [.cout ("Not enough kernels to generate with " ++ toString (g : Int)
          ++ " groups.\n")]
      ∧ openedFiles tr = []
      ∧ ∀ f t, Event.wrote f t ∉ tr := by
  have hg : size_t_of_int (g : Int) = g := size_t_of_int_natCast g (by omega)
  refine ⟨_, ?_, rfl, rfl, ?_⟩
  · unfold write_cpu_function_small
    rw [hg, if_pos h]
  · intro f t hmem
    simp at hmem

/-- Witness for C12: three groups asked of a catalog of two lengths. -/
theorem C12_small_refuses_witness :
    ∃ tr, write_cpu_function_small (fun _ => true) [64, 128] "double" ((3 : Nat) : Int) = .ok tr
      ∧ tr = [.cout ("Not enough kernels to generate with " ++ toString ((3 : Nat) : Int)
          ++ " groups.\n")]
      ∧ openedFiles tr = []
      ∧ ∀ f t, Event.wrote f t ∉ tr :=
  C12_small_refuses (fun _ => true) [64, 128] "double" 3 (by decide) (by decide)

/-- C13 (as amended): for every one-element catalog, in particular `[4096]`, and the group
count 2, `write_cpu_function_small` refuses: it prints
`Not enough kernels to generate with 2 groups.` and returns; no unit is emitted, neither for
group 0 nor for group 1. -/
theorem C13_one_element_two_groups_refused (openable : String → Bool) (len : Nat)
    (precision : String) :
    write_cpu_function_small openable [len] precision 2
        = .ok [.cout "Not enough kernels to generate with 2 groups.\n"]
    ∧ openedFiles [Event.cout "Not enough kernels to generate with 2 groups.\n"] = []
    ∧ emittedLaunchers [Event.cout "Not enough kernels to generate with 2 groups.\n"] = [] := by
  refine ⟨?_, rfl, rfl⟩
  have hg : size_t_of_int 2 = 2 := size_t_of_int_natCast 2 (by decide)
  unfold write_cpu_function_small
  rw [hg, if_pos (show [len].length < 2 by simp)]
  rfl

/-- Counterexample to C13 as stated: for the catalog `[4096]` and the group count 2, with
every sink opening, `write_cpu_function_small` writes no launcher for the kernel and opens
neither `kernel_launch_single_0.cpp.h` nor `kernel_launch_single_1.cpp.h`: its trace is the
refusal message alone. -/
theorem C13_counterexample_scenario_A :
    ∃ tr, write_cpu_function_small (fun _ => true) [4096] "single" 2 = .ok tr
      ∧ "rocfft_internal_dfn_sp_ci_ci_stoc_4096" ∉ emittedLaunchers tr
      ∧ "kernel_launch_single_0.cpp.h" ∉ openedFiles tr
      ∧ "kernel_launch_single_1.cpp.h" ∉ openedFiles tr :=
  ⟨[.cout "Not enough kernels to generate with 2 groups.\n"], by rfl, by decide, by decide,
    by decide⟩

theorem toDigitsCore_mem_digitChar : ∀ (f n : Nat) (c : Char),
    c ∈ Nat.toDigitsCore 10 f n [] → ∃ k, k < 10 ∧ c = Nat.digitChar k := by
  intro f
  induction f with
  | zero =>
    intro n c h
    simp [Nat.toDigitsCore] at h
  | succ f ih =>
    intro n c h
    simp only [Nat.toDigitsCore] at h
    split_ifs at h with h0
    · simp only [List.mem_singleton] at h
      exact ⟨n % 10, Nat.mod_lt n (by decide), h⟩
    · rw [toDigitsCore_append] at h
      simp only [List.mem_append, List.mem_singleton] at h
      rcases h with h | h
      · exact ih _ c h
      · exact ⟨n % 10, Nat.mod_lt n (by decide), h⟩

theorem to_string_no_dot (n : Nat) : '.' ∉ (to_string n).data := by
  intro h
  obtain ⟨k, hk, e⟩ := toDigitsCore_mem_digitChar (n + 1) n '.' h
  interval_cases k <;> exact absurd e (by decide)

theorem split_at_char (c : Char) : ∀ (a a' b b' : List Char), c ∉ a → c ∉ a' →
    a ++ c :: b = a' ++ c :: b' → a = a' ∧ b = b' := by
  intro a
  induction a with
  | nil =>
    intro a' b b' _ ha' h
    cases a' with
    | nil => simpa using h
    | cons x xs =>
      simp only [List.nil_append, List.cons_append, List.cons.injEq] at h
      exact absurd (h.1 ▸ List.mem_cons_self _ _) ha'
  | cons y ys ih =>
    intro a' b b' ha ha' h
    cases a' with
    | nil =>
      simp only [List.nil_append, List.cons_append, List.cons.injEq] at h
      exact absurd (h.1 ▸ List.mem_cons_self _ _) ha
    | cons x xs =>
      simp only [List.cons_append, List.cons.injEq] at h
      obtain ⟨rfl, h2⟩ := h
      have hrec := ih xs b b' (fun m => ha (List.mem_cons_of_mem _ m))
        (fun m => ha' (List.mem_cons_of_mem _ m)) h2
      exact ⟨by rw [hrec.1], hrec.2⟩

theorem small_file_name_inj (precision : String) (j j' : Nat) (S S' : String)
    (r r' : List Char) (hS : S.data = '.' :: r) (hS' : S'.data = '.' :: r')
    (h : "kernel_launch_" ++ precision ++ "_" ++ to_string j ++ S
        = "kernel_launch_" ++ precision ++ "_" ++ to_string j' ++ S') :
    j = j' ∧ r = r' := by
  have hd := congrArg String.data h
  simp only [String.data_append, List.append_assoc, hS, hS'] at hd
  have h1 := List.append_cancel_left (List.append_cancel_left (List.append_cancel_left hd))
  have h2 := split_at_char '.' _ _ _ _ (to_string_no_dot j) (to_string_no_dot j') h1
  exact ⟨to_string_injective (String.ext h2.1), h2.2⟩

theorem small_unit_names_nodup (precision : String) (g : Nat) :
    ((List.range g).flatMap fun j =>
      ["kernel_launch_" ++ precision ++ "_" ++ to_string j ++ ".cpp.h",
       "kernel_launch_" ++ precision ++ "_" ++ to_string j ++ ".cpp"]).Nodup := by
  have hh : (".cpp.h" : String).data = '.' :: "cpp.h".data := rfl
  have hs : (".cpp" : String).data = '.' :: "cpp".data := rfl
  rw [List.nodup_flatMap]
  constructor
  · intro j _
    simp only [List.nodup_cons, List.mem_singleton, List.not_mem_nil, not_false_eq_true,
      List.nodup_nil, and_true]
    intro e
    have := (small_file_name_inj precision j j _ _ _ _ hh hs e).2
    exact absurd this (by decide)
  · refine (List.pairwise_lt_range g).imp ?_
    intro a b hab
    simp only [Function.onFun, List.disjoint_cons_left, List.mem_cons, List.mem_singleton,
      List.not_mem_nil, or_false, not_or, List.disjoint_nil_left, and_true]
    refine ⟨⟨?_, ?_⟩, ⟨?_, ?_⟩⟩
    · intro e
      exact absurd (small_file_name_inj precision a b _ _ _ _ hh hh e).1 (Nat.ne_of_lt hab)
    · intro e
      exact absurd (small_file_name_inj precision a b _ _ _ _ hh hs e).1 (Nat.ne_of_lt hab)
    · intro e
      exact absurd (small_file_name_inj precision a b _ _ _ _ hs hh e).1 (Nat.ne_of_lt hab)
    · intro e
      exact absurd (small_file_name_inj precision a b _ _ _ _ hs hs e).1 (Nat.ne_of_lt hab)

theorem openedFiles_append (a b : List Event) :
    openedFiles (a ++ b) = openedFiles a ++ openedFiles b := by
  induction a with
  | nil => rfl
  | cons x rest ih => cases x <;> simp [openedFiles, ih]

theorem openedFiles_flatMap {α : Type} (l : List α) (f : α → List Event) :
    openedFiles (l.flatMap f) = l.flatMap fun x => openedFiles (f x) := by
  induction l with
  | nil => rfl
  | cons x rest ih => simp [openedFiles_append, ih]

theorem openedFiles_write_file (openable : String → Bool) (fileName : String) (str : Text)
    (h : openable fileName = true) :
    openedFiles (write_file openable fileName str) = [fileName] := by
  simp [write_file, h, openedFiles]

theorem small_str_empty (support_list : List Nat) (precision : String) (gs j : Nat)
    (h : group_count support_list.length gs j = 0) :
    write_cpu_function_small_str support_list precision (i_start gs j)
        (i_end support_list.length gs j)
      = [.text "\n", .text "#include \"kernel_launch.h\" \n", .text "\n", .text "\n",
         .text ("//" ++ precision ++ " precision \n")] := by
  unfold group_count at h
  have hnil := List.length_eq_zero.1 h
  unfold write_cpu_function_small_str
  rw [hnil]
  rfl

/-- C14: for a catalog of `n` lengths and a group count `g` (an `int`) with `1 <= g <= n`,
`write_cpu_function_small` returns after treating the groups `0 .. g-1` in order, and for group
`j` it writes the group's text to `kernel_launch_<precision>_<j>.cpp.h` and an include of that
header to `kernel_launch_<precision>_<j>.cpp`; each group holds at most
`ceil(n/g) = (n + g - 1) / g` items; a group with no item still gets its pair, the header
holding only the preamble; and when the sinks open, the files opened are these `2 * g` files,
all different. -/
theorem C14_small_units (openable : String → Bool) (support_list : List Nat)
    (precision : String) (g : Nat) (hint : g < 2 ^ 31) (h1 : 1 ≤ g)
    (h2 : g ≤ support_list.length) :
    write_cpu_function_small openable support_list precision (g : Int)
        = .ok ((List.range g).flatMap fun j =>
            write_file openable ("kernel_launch_" ++ precision ++ "_" ++ to_string j ++ ".cpp.h")
              (write_cpu_function_small_str support_list precision
                (i_start (group_size support_list.length g) j)
                (i_end support_list.length (group_size support_list.length g) j))
            ++ write_file openable
                ("kernel_launch_" ++ precision ++ "_" ++ to_string j ++ ".cpp")
                [.incl "#include \""
                  ("kernel_launch_" ++ precision ++ "_" ++ to_string j ++ ".cpp.h") "\""])
    ∧ group_size support_list.length g = (support_list.length + g - 1) / g
    ∧ (∀ j, group_count support_list.length (group_size support_list.length g) j
        ≤ group_size support_list.length g)
    ∧ (∀ j, group_count support_list.length (group_size support_list.length g) j = 0 →
        write_cpu_function_small_str support_list precision
            (i_start (group_size support_list.length g) j)
            (i_end support_list.length (group_size support_list.length g) j)
          = [.text "\n", .text "#include \"kernel_launch.h\" \n", .text "\n", .text "\n",
             .text ("//" ++ precision ++ " precision \n")])
    ∧ ((∀ f, openable f = true) →
        ∃ tr, write_cpu_function_small openable support_list precision (g : Int) = .ok tr
          ∧ openedFiles tr = ((List.range g).flatMap fun j =>
              ["kernel_launch_" ++ precision ++ "_" ++ to_string j ++ ".cpp.h",
               "kernel_launch_" ++ precision ++ "_" ++ to_string j ++ ".cpp"])
          ∧ (openedFiles tr).Nodup
          ∧ (openedFiles tr).length = 2 * g) := by
  have hrun := write_cpu_function_small_eq openable support_list precision g hint h1 h2
  refine ⟨hrun, rfl, fun j => group_count_le _ _ j,
    fun j h => small_str_empty support_list precision _ j h, ?_⟩
  intro hopen
  refine ⟨_, hrun, ?_⟩
  have hfiles : openedFiles ((List.range g).flatMap
        (write_cpu_function_small_group openable support_list precision
          (group_size support_list.length g)))
      = ((List.range g).flatMap fun j =>
          ["kernel_launch_" ++ precision ++ "_" ++ to_string j ++ ".cpp.h",
           "kernel_launch_" ++ precision ++ "_" ++ to_string j ++ ".cpp"]) := by
    rw [openedFiles_flatMap]
    congr 1
    funext j
    unfold write_cpu_function_small_group
    rw [openedFiles_append, openedFiles_write_file _ _ _ (hopen _),
      openedFiles_write_file _ _ _ (hopen _)]
    rfl
  refine ⟨hfiles, ?_, ?_⟩
  · rw [hfiles]
    exact small_unit_names_nodup precision g
  · rw [hfiles, List.length_flatMap]
    have hconst : (List.length ∘ fun j =>
        ["kernel_launch_" ++ precision ++ "_" ++ to_string j ++ ".cpp.h",
         "kernel_launch_" ++ precision ++ "_" ++ to_string j ++ ".cpp"]) = fun _ => 2 := rfl
    rw [hconst]
    simp [Nat.mul_comm]

/-- Witness for C14: the catalog `[64, 128, 256]` in two groups, every sink opening. -/
theorem C14_small_units_witness :
    (∀ j, group_count [64, 128, 256].length (group_size [64, 128, 256].length 2) j
        ≤ group_size [64, 128, 256].length 2)
    ∧ ∃ tr, write_cpu_function_small (fun _ => true) [64, 128, 256] "single" ((2 : Nat) : Int)
          = .ok tr
        ∧ openedFiles tr = ((List.range 2).flatMap fun j =>
            ["kernel_launch_" ++ "single" ++ "_" ++ to_string j ++ ".cpp.h",
             "kernel_launch_" ++ "single" ++ "_" ++ to_string j ++ ".cpp"])
        ∧ (openedFiles tr).Nodup
        ∧ (openedFiles tr).length = 2 * 2 :=
  ⟨(C14_small_units (fun _ => true) [64, 128, 256] "single" 2 (by decide) (by decide)
      (by decide)).2.2.1,
   (C14_small_units (fun _ => true) [64, 128, 256] "single" 2 (by decide) (by decide)
      (by decide)).2.2.2.2 (fun _ => rfl)⟩

/-! ## The assignments of the constructor text -/

theorem assignments_flatMap {α : Type} (l : List α) (f : α → Text) :
    assignments (l.flatMap f) = l.flatMap fun x => assignments (f x) := by
  induction l with
  | nil => rfl
  | cons x rest ih => simp [assignments_append, ih]

theorem assignments_map_assign {α : Type} (l : List α) (m : MapId) (k : α → Key ⊕ Key2D)
    (h n t : α → String) :
    assignments (l.map fun x => .assign m (k x) (h x) (n x) (t x))
      = l.map fun x => (m, k x, n x) := by
  induction l with
  | nil => rfl
  | cons x rest ih => simp [assignments, ih]

theorem assignments_cons_text (x : String) (rest : Text) :
    assignments (.text x :: rest) = assignments rest := rfl

theorem assignments_nil : assignments [] = [] := rfl

theorem assignments_2D_single :
    ∀ (l : List Key2D) (t : Text), AddCPUFunctionToPool_2D_single l = .ok t →
      (∀ k ∈ l, k.2.2 = .CS_KERNEL_2D_SINGLE)
      ∧ assignments t = l.map fun k =>
          (MapId.function_map_single_2D, Sum.inr (k.1, k.2.1, ComputeScheme.CS_KERNEL_2D_SINGLE),
            entry_name (.fused2D .rocfft_precision_single k.1 k.2.1)) := by
  intro l
  induction l with
  | nil =>
    intro t h
    simp only [AddCPUFunctionToPool_2D_single, Except.ok.injEq] at h
    subst h
    simp [assignments]
  | cons k rest ih =>
    intro t h
    obtain ⟨len1, len2, scheme⟩ := k
    simp only [AddCPUFunctionToPool_2D_single] at h
    split_ifs at h with hs
    cases hrest : AddCPUFunctionToPool_2D_single rest with
    | error e => simp [hrest] at h
    | ok later =>
      simp only [hrest, Except.ok.injEq] at h
      subst h
      obtain ⟨ih1, ih2⟩ := ih later hrest
      refine ⟨?_, ?_⟩
      · intro k hk
        rcases List.mem_cons.1 hk with rfl | hk
        · exact hs
        · exact ih1 k hk
      · simp [assignments, ih2, entry_name, entry_head]

theorem assignments_2D_double :
    ∀ (l : List Key2D) (t : Text), AddCPUFunctionToPool_2D_double l = .ok t →
      (∀ k ∈ l, k.2.2 = .CS_KERNEL_2D_SINGLE)
      ∧ assignments t = l.map fun k =>
          (MapId.function_map_double_2D, Sum.inr (k.1, k.2.1, ComputeScheme.CS_KERNEL_2D_SINGLE),
            entry_name (.fused2D .rocfft_precision_double k.1 k.2.1)) := by
  intro l
  induction l with
  | nil =>
    intro t h
    simp only [AddCPUFunctionToPool_2D_double, Except.ok.injEq] at h
    subst h
    simp [assignments]
  | cons k rest ih =>
    intro t h
    obtain ⟨len1, len2, scheme⟩ := k
    simp only [AddCPUFunctionToPool_2D_double] at h
    split_ifs at h with hs
    cases hrest : AddCPUFunctionToPool_2D_double rest with
    | error e => simp [hrest] at h
    | ok later =>
      simp only [hrest, Except.ok.injEq] at h
      subst h
      obtain ⟨ih1, ih2⟩ := ih later hrest
      refine ⟨?_, ?_⟩
      · intro k hk
        rcases List.mem_cons.1 hk with rfl | hk
        · exact hs
        · exact ih1 k hk
      · simp [assignments, ih2, entry_name, entry_head]

theorem assignments_AddCPUFunctionToPool_str (d : Nat → Bool) (support_list : List Nat)
    (large1D_list : List Key) (l2s l2d : List Key2D) (str : Text)
    (h : AddCPUFunctionToPool_str d support_list large1D_list l2s l2d = .ok str) :
    assignments str
      = support_list.map (fun len =>
          (MapId.function_map_single, Sum.inl (len, ComputeScheme.CS_KERNEL_STOCKHAM),
            "rocfft_internal_dfn_sp_ci_ci_stoc_" ++ to_string len))
        ++ (support_list.map (fun len =>
          (MapId.function_map_double, Sum.inl (len, ComputeScheme.CS_KERNEL_STOCKHAM),
            "rocfft_internal_dfn_dp_ci_ci_stoc_" ++ to_string len))
        ++ (large1D_list.flatMap (fun t => assignments (AddCPUFunctionToPool_large_single d t))
        ++ (large1D_list.flatMap (fun t => assignments (AddCPUFunctionToPool_large_double d t))
        ++ (l2s.map (fun k =>
          (MapId.function_map_single_2D,
            Sum.inr (k.1, k.2.1, ComputeScheme.CS_KERNEL_2D_SINGLE),
            entry_name (.fused2D .rocfft_precision_single k.1 k.2.1)))
        ++ l2d.map (fun k =>
          (MapId.function_map_double_2D,
            Sum.inr (k.1, k.2.1, ComputeScheme.CS_KERNEL_2D_SINGLE),
            entry_name (.fused2D .rocfft_precision_double k.1 k.2.1))))))) := by
  unfold AddCPUFunctionToPool_str at h
  cases h1 : AddCPUFunctionToPool_2D_single l2s with
  | error e => simp [h1] at h
  | ok single_2D =>
    cases h2 : AddCPUFunctionToPool_2D_double l2d with
    | error e => simp [h1, h2] at h
    | ok double_2D =>
      simp only [h1, h2, Except.ok.injEq] at h
      subst h
      simp only [List.cons_append, List.nil_append, assignments_cons_text, assignments_append,
        assignments_map_assign, assignments_flatMap, assignments_nil, List.append_nil,
        List.append_assoc, (assignments_2D_single l2s single_2D h1).2,
        (assignments_2D_double l2d double_2D h2).2]

/-! ## Properties of the transpose lookups and of the validation -/

/-- C16: each transpose lookup, for each of the three modes, returns `v` exactly when `v` is
the entry stored under the key in the map of its precision and of that mode, and fails, with
`std::out_of_range`, exactly when the key is absent from that one map; no other map is
read. -/
theorem C16_transpose_lookup_contract (func_pool : function_pool) (k : Key) :
    ((∀ v, get_function_single_transpose func_pool k .DIAGONAL = .ok v
          ↔ (k, v) ∈ func_pool.function_map_single_transpose_diagonal.entries)
      ∧ (∀ e, get_function_single_transpose func_pool k .DIAGONAL = .error e
          ↔ e = .out_of_range
            ∧ ∀ v, (k, v) ∉ func_pool.function_map_single_transpose_diagonal.entries))
    ∧ ((∀ v, get_function_single_transpose func_pool k .TILE_ALIGNED = .ok v
          ↔ (k, v) ∈ func_pool.function_map_single_transpose_tile_aligned.entries)
      ∧ (∀ e, get_function_single_transpose func_pool k .TILE_ALIGNED = .error e
          ↔ e = .out_of_range
            ∧ ∀ v, (k, v) ∉ func_pool.function_map_single_transpose_tile_aligned.entries))
    ∧ ((∀ v, get_function_single_transpose func_pool k .TILE_UNALIGNED = .ok v
          ↔ (k, v) ∈ func_pool.function_map_single_transpose_tile_unaligned.entries)
      ∧ (∀ e, get_function_single_transpose func_pool k .TILE_UNALIGNED = .error e
          ↔ e = .out_of_range
            ∧ ∀ v, (k, v) ∉ func_pool.function_map_single_transpose_tile_unaligned.entries))
    ∧ ((∀ v, get_function_double_transpose func_pool k .DIAGONAL = .ok v
          ↔ (k, v) ∈ func_pool.function_map_double_transpose_diagonal.entries)
      ∧ (∀ e, get_function_double_transpose func_pool k .DIAGONAL = .error e
          ↔ e = .out_of_range
            ∧ ∀ v, (k, v) ∉ func_pool.function_map_double_transpose_diagonal.entries))
    ∧ ((∀ v, get_function_double_transpose func_pool k .TILE_ALIGNED = .ok v
          ↔ (k, v) ∈ func_pool.function_map_double_transpose_tile_aligned.entries)
      ∧ (∀ e, get_function_double_transpose func_pool k .TILE_ALIGNED = .error e
          ↔ e = .out_of_range
            ∧ ∀ v, (k, v) ∉ func_pool.function_map_double_transpose_tile_aligned.entries))
    ∧ ((∀ v, get_function_double_transpose func_pool k .TILE_UNALIGNED = .ok v
          ↔ (k, v) ∈ func_pool.function_map_double_transpose_tile_unaligned.entries)
      ∧ (∀ e, get_function_double_transpose func_pool k .TILE_UNALIGNED = .error e
          ↔ e = .out_of_range
            ∧ ∀ v, (k, v) ∉ func_pool.function_map_double_transpose_tile_unaligned.entries)) :=
  ⟨⟨fun v => FnMap.at_eq_ok_iff _ k v, fun e => FnMap.at_eq_error_iff _ k e⟩,
   ⟨fun v => FnMap.at_eq_ok_iff _ k v, fun e => FnMap.at_eq_error_iff _ k e⟩,
   ⟨fun v => FnMap.at_eq_ok_iff _ k v, fun e => FnMap.at_eq_error_iff _ k e⟩,
   ⟨fun v => FnMap.at_eq_ok_iff _ k v, fun e => FnMap.at_eq_error_iff _ k e⟩,
   ⟨fun v => FnMap.at_eq_ok_iff _ k v, fun e => FnMap.at_eq_error_iff _ k e⟩,
   ⟨fun v => FnMap.at_eq_ok_iff _ k v, fun e => FnMap.at_eq_error_iff _ k e⟩⟩

theorem verify_map_abort_iff {κ : Type} (l : List (κ × DevFnCall)) (description : String) :
    verify_map l description = .error .abort ↔ ∃ k, (k, none) ∈ l := by
  induction l with
  | nil => simp [verify_map]
  | cons f rest ih =>
    obtain ⟨k', v'⟩ := f
    cases v' with
    | none =>
      simp only [verify_map, if_true, true_iff]
      exact ⟨k', List.mem_cons_self _ _⟩
    | some name =>
      simp only [verify_map, reduceCtorEq, if_false, ih, List.mem_cons, Prod.mk.injEq,
        and_false, false_or]

theorem verify_map_total {κ : Type} (l : List (κ × DevFnCall)) (description : String) :
    verify_map l description = .ok () ∨ verify_map l description = .error .abort := by
  induction l with
  | nil => exact Or.inl rfl
  | cons f rest ih =>
    obtain ⟨k', v'⟩ := f
    cases v' with
    | none => exact Or.inr (by simp [verify_map])
    | some name => simpa [verify_map] using ih

theorem verify_map_bind_abort_iff {κ : Type} (l : List (κ × DevFnCall)) (description : String)
    (next : Except Fatal Unit) :
    (verify_map l description >>= fun _ => next) = .error .abort
      ↔ (∃ k, (k, none) ∈ l) ∨ next = .error .abort := by
  rw [← verify_map_abort_iff l description]
  rcases verify_map_total l description with h | h
  · rw [h]
    simp [bind, Except.bind]
  · rw [h]
    simp [bind, Except.bind]

theorem verify_map_bind_total {κ : Type} (l : List (κ × DevFnCall)) (description : String)
    (next : Except Fatal Unit) (hnext : next = .ok () ∨ next = .error .abort) :
    (verify_map l description >>= fun _ => next) = .ok ()
      ∨ (verify_map l description >>= fun _ => next) = .error .abort := by
  rcases verify_map_total l description with h | h
  · rw [h]
    simpa [bind, Except.bind] using hnext
  · rw [h]
    exact Or.inr (by simp [bind, Except.bind])

theorem verify_no_null_functions_abort_iff (func_pool : function_pool) :
    verify_no_null_functions func_pool = .error .abort
      ↔ ((∃ k, (k, none) ∈ func_pool.function_map_single.entries)
          ∨ (∃ k, (k, none) ∈ func_pool.function_map_double.entries)
          ∨ (∃ k, (k, none) ∈ func_pool.function_map_single_transpose_tile_aligned.entries)
          ∨ (∃ k, (k, none) ∈ func_pool.function_map_double_transpose_tile_aligned.entries)
          ∨ (∃ k, (k, none) ∈ func_pool.function_map_single_transpose_tile_unaligned.entries)
          ∨ (∃ k, (k, none) ∈ func_pool.function_map_double_transpose_tile_unaligned.entries)
          ∨ (∃ k, (k, none) ∈ func_pool.function_map_single_transpose_diagonal.entries)
          ∨ (∃ k, (k, none) ∈ func_pool.function_map_double_transpose_diagonal.entries)
          ∨ (∃ k, (k, none) ∈ func_pool.function_map_single_2D.entries)
          ∨ (∃ k, (k, none) ∈ func_pool.function_map_double_2D.entries)) := by
  unfold verify_no_null_functions
  simp only [verify_map_bind_abort_iff, verify_map_abort_iff]

theorem verify_no_null_functions_total (func_pool : function_pool) :
    verify_no_null_functions func_pool = .ok ()
      ∨ verify_no_null_functions func_pool = .error .abort := by
  unfold verify_no_null_functions
  repeat' apply verify_map_bind_total
  exact verify_map_total _ _

/-- C19: `verify_no_null_functions` ends the process exactly when one of the ten maps holds an
entry whose value is null; when every populated entry of the ten maps is non-null it returns
normally; a key that is absent plays no part, and on ten empty maps it returns. -/
theorem C19_verify_no_null_functions (func_pool : function_pool) :
    (verify_no_null_functions func_pool = .error .abort
      ↔ ((∃ k, (k, none) ∈ func_pool.function_map_single.entries)
          ∨ (∃ k, (k, none) ∈ func_pool.function_map_double.entries)
          ∨ (∃ k, (k, none) ∈ func_pool.function_map_single_transpose_tile_aligned.entries)
          ∨ (∃ k, (k, none) ∈ func_pool.function_map_double_transpose_tile_aligned.entries)
          ∨ (∃ k, (k, none) ∈ func_pool.function_map_single_transpose_tile_unaligned.entries)
          ∨ (∃ k, (k, none) ∈ func_pool.function_map_double_transpose_tile_unaligned.entries)
          ∨ (∃ k, (k, none) ∈ func_pool.function_map_single_transpose_diagonal.entries)
          ∨ (∃ k, (k, none) ∈ func_pool.function_map_double_transpose_diagonal.entries)
          ∨ (∃ k, (k, none) ∈ func_pool.function_map_single_2D.entries)
          ∨ (∃ k, (k, none) ∈ func_pool.function_map_double_2D.entries)))
    ∧ (verify_no_null_functions func_pool = .ok ()
      ↔ ((∀ k v, (k, v) ∈ func_pool.function_map_single.entries → v ≠ none)
          ∧ (∀ k v, (k, v) ∈ func_pool.function_map_double.entries → v ≠ none)
          ∧ (∀ k v, (k, v) ∈ func_pool.function_map_single_transpose_tile_aligned.entries → v ≠ none)
          ∧ (∀ k v, (k, v) ∈ func_pool.function_map_double_transpose_tile_aligned.entries → v ≠ none)
          ∧ (∀ k v, (k, v) ∈ func_pool.function_map_single_transpose_tile_unaligned.entries → v ≠ none)
          ∧ (∀ k v, (k, v) ∈ func_pool.function_map_double_transpose_tile_unaligned.entries → v ≠ none)
          ∧ (∀ k v, (k, v) ∈ func_pool.function_map_single_transpose_diagonal.entries → v ≠ none)
          ∧ (∀ k v, (k, v) ∈ func_pool.function_map_double_transpose_diagonal.entries → v ≠ none)
          ∧ (∀ k v, (k, v) ∈ func_pool.function_map_single_2D.entries → v ≠ none)
          ∧ (∀ k v, (k, v) ∈ func_pool.function_map_double_2D.entries → v ≠ none)))
    ∧ verify_no_null_functions function_pool.empty = .ok () := by
  refine ⟨verify_no_null_functions_abort_iff func_pool, ?_, by rfl⟩
  have habort := verify_no_null_functions_abort_iff func_pool
  constructor
  · intro hok
    have hno : ¬ verify_no_null_functions func_pool = .error .abort := by
      rw [hok]
      simp
    rw [habort] at hno
    simp only [not_or, not_exists] at hno
    obtain ⟨n1, n2, n3, n4, n5, n6, n7, n8, n9, n10⟩ := hno
    exact ⟨fun k v h e => n1 k (e ▸ h), fun k v h e => n2 k (e ▸ h),
      fun k v h e => n3 k (e ▸ h), fun k v h e => n4 k (e ▸ h), fun k v h e => n5 k (e ▸ h),
      fun k v h e => n6 k (e ▸ h), fun k v h e => n7 k (e ▸ h), fun k v h e => n8 k (e ▸ h),
      fun k v h e => n9 k (e ▸ h), fun k v h e => n10 k (e ▸ h)⟩
  · rintro ⟨n1, n2, n3, n4, n5, n6, n7, n8, n9, n10⟩
    rcases verify_no_null_functions_total func_pool with h | h
    · exact h
    · rw [habort] at h
      rcases h with ⟨k, h⟩ | ⟨k, h⟩ | ⟨k, h⟩ | ⟨k, h⟩ | ⟨k, h⟩ | ⟨k, h⟩ | ⟨k, h⟩ | ⟨k, h⟩
        | ⟨k, h⟩ | ⟨k, h⟩
      · exact absurd rfl (n1 k none h)
      · exact absurd rfl (n2 k none h)
      · exact absurd rfl (n3 k none h)
      · exact absurd rfl (n4 k none h)
      · exact absurd rfl (n5 k none h)
      · exact absurd rfl (n6 k none h)
      · exact absurd rfl (n7 k none h)
      · exact absurd rfl (n8 k none h)
      · exact absurd rfl (n9 k none h)
      · exact absurd rfl (n10 k none h)

/-! ## Block-RC and block-CC entries in the three emitters -/

theorem assignments_large_CC (d : Nat → Bool) (L : Nat) :
    assignments (AddCPUFunctionToPool_large_single d (L, .CS_KERNEL_STOCKHAM_BLOCK_CC))
        = [(.function_map_single, .inl (L, .CS_KERNEL_STOCKHAM_BLOCK_CC),
            "rocfft_internal_dfn_sp_ci_ci_sbcc_" ++ to_string L)]
    ∧ assignments (AddCPUFunctionToPool_large_double d (L, .CS_KERNEL_STOCKHAM_BLOCK_CC))
        = [(.function_map_double, .inl (L, .CS_KERNEL_STOCKHAM_BLOCK_CC),
            "rocfft_internal_dfn_dp_ci_ci_sbcc_" ++ to_string L)] := by
  simp [AddCPUFunctionToPool_large_single, AddCPUFunctionToPool_large_double, assignments]

theorem AddCPUFunctionToPool_str_large_only (d : Nat → Bool) (large1D_list : List Key) :
    ∃ str, AddCPUFunctionToPool_str d [] large1D_list [] [] = .ok str
      ∧ assignments str
        = large1D_list.flatMap (fun t => assignments (AddCPUFunctionToPool_large_single d t))
          ++ large1D_list.flatMap
              (fun t => assignments (AddCPUFunctionToPool_large_double d t)) := by
  refine ⟨_, rfl, ?_⟩
  rw [assignments_AddCPUFunctionToPool_str d [] large1D_list [] [] _ rfl]
  simp

/-- C18: for a large-1D entry `(L, CS_KERNEL_STOCKHAM_BLOCK_CC)`, `AddCPUFunctionToPool`
generates exactly one assignment in its single-precision loop and one in its double-precision
loop: `function_map_single[(L, CS_KERNEL_STOCKHAM_BLOCK_CC)] =
&rocfft_internal_dfn_sp_ci_ci_sbcc_<L>` and the same for `function_map_double` with `dp`;
none goes to a transpose map. For the catalog `[(L, CS_KERNEL_STOCKHAM_BLOCK_CC)]` the
registry built holds these two entries under the key, and every transpose lookup, for every
key and mode, is not-found. -/
theorem C18_block_CC_entry (d : Nat → Bool) (L : Nat) :
    assignments (AddCPUFunctionToPool_large_single d (L, .CS_KERNEL_STOCKHAM_BLOCK_CC))
        = [(.function_map_single, .inl (L, .CS_KERNEL_STOCKHAM_BLOCK_CC),
            "rocfft_internal_dfn_sp_ci_ci_sbcc_" ++ to_string L)]
    ∧ assignments (AddCPUFunctionToPool_large_double d (L, .CS_KERNEL_STOCKHAM_BLOCK_CC))
        = [(.function_map_double, .inl (L, .CS_KERNEL_STOCKHAM_BLOCK_CC),
            "rocfft_internal_dfn_dp_ci_ci_sbcc_" ++ to_string L)]
    ∧ ∃ str, AddCPUFunctionToPool_str d [] [(L, .CS_KERNEL_STOCKHAM_BLOCK_CC)] [] [] = .ok str
        ∧ (function_pool_ctor str).function_map_single.entries
            = [((L, .CS_KERNEL_STOCKHAM_BLOCK_CC),
                some ("rocfft_internal_dfn_sp_ci_ci_sbcc_" ++ to_string L))]
        ∧ (function_pool_ctor str).function_map_double.entries
            = [((L, .CS_KERNEL_STOCKHAM_BLOCK_CC),
                some ("rocfft_internal_dfn_dp_ci_ci_sbcc_" ++ to_string L))]
        ∧ get_function_single (function_pool_ctor str) (L, .CS_KERNEL_STOCKHAM_BLOCK_CC)
            = .ok (some ("rocfft_internal_dfn_sp_ci_ci_sbcc_" ++ to_string L))
        ∧ get_function_double (function_pool_ctor str) (L, .CS_KERNEL_STOCKHAM_BLOCK_CC)
            = .ok (some ("rocfft_internal_dfn_dp_ci_ci_sbcc_" ++ to_string L))
        ∧ (∀ k type, get_function_single_transpose (function_pool_ctor str) k type
            = .error .out_of_range)
        ∧ (∀ k type, get_function_double_transpose (function_pool_ctor str) k type
            = .error .out_of_range) := by
  obtain ⟨hs, hd⟩ := assignments_large_CC d L
  refine ⟨hs, hd, ?_⟩
  obtain ⟨str, hstr, hassign⟩ :=
    AddCPUFunctionToPool_str_large_only d [(L, .CS_KERNEL_STOCKHAM_BLOCK_CC)]
  refine ⟨str, hstr, ?_⟩
  have hctor : function_pool_ctor str
      = run_assignment (run_assignment function_pool.empty
          (.function_map_single, .inl (L, .CS_KERNEL_STOCKHAM_BLOCK_CC),
            "rocfft_internal_dfn_sp_ci_ci_sbcc_" ++ to_string L))
          (.function_map_double, .inl (L, .CS_KERNEL_STOCKHAM_BLOCK_CC),
            "rocfft_internal_dfn_dp_ci_ci_sbcc_" ++ to_string L) := by
    unfold function_pool_ctor
    rw [hassign]
    simp [hs, hd]
  rw [hctor]
  refine ⟨rfl, rfl, ?_, ?_, ?_, ?_⟩
  · simp [get_function_single, run_assignment, FnMap.at, FnMap.set, FnMap.find]
  · simp [get_function_double, run_assignment, FnMap.at, FnMap.set, FnMap.find]
  · intro k type
    cases type <;> rfl
  · intro k type
    cases type <;> rfl

/-! ## The tile-unaligned maps stay empty -/

theorem targets_large_single (d : Nat → Bool) (t : Key) :
    ∀ a ∈ assignments (AddCPUFunctionToPool_large_single d t),
      a.1 ≠ .function_map_single_transpose_tile_unaligned
        ∧ a.1 ≠ .function_map_double_transpose_tile_unaligned := by
  obtain ⟨len, scheme⟩ := t
  unfold AddCPUFunctionToPool_large_single
  cases scheme <;> cases hd : d len <;> simp [assignments, hd]

theorem targets_large_double (d : Nat → Bool) (t : Key) :
    ∀ a ∈ assignments (AddCPUFunctionToPool_large_double d t),
      a.1 ≠ .function_map_single_transpose_tile_unaligned
        ∧ a.1 ≠ .function_map_double_transpose_tile_unaligned := by
  obtain ⟨len, scheme⟩ := t
  unfold AddCPUFunctionToPool_large_double
  cases scheme <;> cases hd : d len <;> simp [assignments, hd]

theorem targets_AddCPUFunctionToPool_str (d : Nat → Bool) (support_list : List Nat)
    (large1D_list : List Key) (l2s l2d : List Key2D) (str : Text)
    (h : AddCPUFunctionToPool_str d support_list large1D_list l2s l2d = .ok str) :
    ∀ a ∈ assignments str,
      a.1 ≠ .function_map_single_transpose_tile_unaligned
        ∧ a.1 ≠ .function_map_double_transpose_tile_unaligned := by
  intro a ha
  rw [assignments_AddCPUFunctionToPool_str d support_list large1D_list l2s l2d str h] at ha
  simp only [List.mem_append, List.mem_map, List.mem_flatMap] at ha
  rcases ha with ⟨_, _, rfl⟩ | ⟨_, _, rfl⟩ | ⟨t, _, ht⟩ | ⟨t, _, ht⟩ | ⟨_, _, rfl⟩
    | ⟨_, _, rfl⟩
  · simp
  · simp
  · exact targets_large_single d t a ht
  · exact targets_large_double d t a ht
  · simp
  · simp

theorem run_assignment_unaligned (func_pool : function_pool)
    (a : MapId × (Key ⊕ Key2D) × String)
    (h : a.1 ≠ .function_map_single_transpose_tile_unaligned
      ∧ a.1 ≠ .function_map_double_transpose_tile_unaligned) :
    (run_assignment func_pool a).function_map_single_transpose_tile_unaligned
        = func_pool.function_map_single_transpose_tile_unaligned
    ∧ (run_assignment func_pool a).function_map_double_transpose_tile_unaligned
        = func_pool.function_map_double_transpose_tile_unaligned := by
  obtain ⟨m, k, name⟩ := a
  cases m <;> cases k <;> simp_all [run_assignment]

theorem foldl_run_assignment_unaligned (l : List (MapId × (Key ⊕ Key2D) × String)) :
    ∀ (func_pool : function_pool),
      (∀ a ∈ l, a.1 ≠ .function_map_single_transpose_tile_unaligned
        ∧ a.1 ≠ .function_map_double_transpose_tile_unaligned) →
      (l.foldl run_assignment func_pool).function_map_single_transpose_tile_unaligned
          = func_pool.function_map_single_transpose_tile_unaligned
      ∧ (l.foldl run_assignment func_pool).function_map_double_transpose_tile_unaligned
          = func_pool.function_map_double_transpose_tile_unaligned := by
  induction l with
  | nil =>
    intro func_pool _
    exact ⟨rfl, rfl⟩
  | cons a rest ih =>
    intro func_pool h
    have hstep := run_assignment_unaligned func_pool a (h a (List.mem_cons_self _ _))
    have hrest := ih (run_assignment func_pool a)
      (fun b hb => h b (List.mem_cons_of_mem _ hb))
    rw [List.foldl_cons]
    exact ⟨hrest.1.trans hstep.1, hrest.2.trans hstep.2⟩

theorem assignments_large_RC_diagonal (d : Nat → Bool) (L : Nat) (hd : d L = true) :
    assignments (AddCPUFunctionToPool_large_single d (L, .CS_KERNEL_STOCKHAM_BLOCK_RC))
        = [(.function_map_single, .inl (L, .CS_KERNEL_STOCKHAM_BLOCK_RC),
            entry_name (.oneD .rocfft_precision_single .sbrc L)),
           (.function_map_single_transpose_tile_aligned,
            .inl (L, .CS_KERNEL_STOCKHAM_TRANSPOSE_XY_Z),
            entry_name (.oneD .rocfft_precision_single .sbrc3d_xy_z_tile_aligned L)),
           (.function_map_single_transpose_tile_aligned,
            .inl (L, .CS_KERNEL_STOCKHAM_TRANSPOSE_Z_XY),
            entry_name (.oneD .rocfft_precision_single .sbrc3d_z_xy_tile_aligned L)),
           (.function_map_single_transpose_diagonal,
            .inl (L, .CS_KERNEL_STOCKHAM_TRANSPOSE_XY_Z),
            entry_name (.oneD .rocfft_precision_single .sbrc3d_xy_z_diagonal L)),
           (.function_map_single_transpose_diagonal,
            .inl (L, .CS_KERNEL_STOCKHAM_TRANSPOSE_Z_XY),
            entry_name (.oneD .rocfft_precision_single .sbrc3d_z_xy_diagonal L))]
    ∧ assignments (AddCPUFunctionToPool_large_double d (L, .CS_KERNEL_STOCKHAM_BLOCK_RC))
        = [(.function_map_double, .inl (L, .CS_KERNEL_STOCKHAM_BLOCK_RC),
            entry_name (.oneD .rocfft_precision_double .sbrc L)),
           (.function_map_double_transpose_tile_aligned,
            .inl (L, .CS_KERNEL_STOCKHAM_TRANSPOSE_XY_Z),
            entry_name (.oneD .rocfft_precision_double .sbrc3d_xy_z_tile_aligned L)),
           (.function_map_double_transpose_tile_aligned,
            .inl (L, .CS_KERNEL_STOCKHAM_TRANSPOSE_Z_XY),
            entry_name (.oneD .rocfft_precision_double .sbrc3d_z_xy_tile_aligned L)),
           (.function_map_double_transpose_diagonal,
            .inl (L, .CS_KERNEL_STOCKHAM_TRANSPOSE_XY_Z),
            entry_name (.oneD .rocfft_precision_double .sbrc3d_xy_z_diagonal L)),
           (.function_map_double_transpose_diagonal,
            .inl (L, .CS_KERNEL_STOCKHAM_TRANSPOSE_Z_XY),
            entry_name (.oneD .rocfft_precision_double .sbrc3d_z_xy_diagonal L))] := by
  simp [AddCPUFunctionToPool_large_single, AddCPUFunctionToPool_large_double, assignments, hd,
    entry_name, entry_head]

/-- C17: the constructor text that `AddCPUFunctionToPool` builds, for any catalog, holds no
assignment into `function_map_single_transpose_tile_unaligned` or
`function_map_double_transpose_tile_unaligned`; in the registry its constructor builds both
maps are empty and a transpose lookup with mode `TILE_UNALIGNED` is not-found for every key.
For the catalog `[(L, CS_KERNEL_STOCKHAM_BLOCK_RC)]` with `L` diagonal-eligible (such as
16384), the tile-aligned and the diagonal lookups of both precisions find the `xy_z` and
`z_xy` entries of `L`. -/
theorem C17_tile_unaligned_never_populated (d : Nat → Bool) (support_list : List Nat)
    (large1D_list : List Key) (l2s l2d : List Key2D) (str : Text)
    (hreg : AddCPUFunctionToPool_str d support_list large1D_list l2s l2d = .ok str) :
    (∀ a ∈ assignments str,
        a.1 ≠ .function_map_single_transpose_tile_unaligned
          ∧ a.1 ≠ .function_map_double_transpose_tile_unaligned)
    ∧ (function_pool_ctor str).function_map_single_transpose_tile_unaligned.entries = []
    ∧ (function_pool_ctor str).function_map_double_transpose_tile_unaligned.entries = []
    ∧ (∀ k, get_function_single_transpose (function_pool_ctor str) k .TILE_UNALIGNED
        = .error .out_of_range)
    ∧ (∀ k, get_function_double_transpose (function_pool_ctor str) k .TILE_UNALIGNED
        = .error .out_of_range)
    ∧ (∀ L, d L = true →
        ∃ rc, AddCPUFunctionToPool_str d [] [(L, .CS_KERNEL_STOCKHAM_BLOCK_RC)] [] [] = .ok rc
          ∧ get_function_single_transpose (function_pool_ctor rc)
              (L, .CS_KERNEL_STOCKHAM_TRANSPOSE_XY_Z) .TILE_ALIGNED
            = .ok (some (entry_name
                (.oneD .rocfft_precision_single .sbrc3d_xy_z_tile_aligned L)))
          ∧ get_function_single_transpose (function_pool_ctor rc)
              (L, .CS_KERNEL_STOCKHAM_TRANSPOSE_Z_XY) .TILE_ALIGNED
            = .ok (some (entry_name
                (.oneD .rocfft_precision_single .sbrc3d_z_xy_tile_aligned L)))
          ∧ get_function_single_transpose (function_pool_ctor rc)
              (L, .CS_KERNEL_STOCKHAM_TRANSPOSE_XY_Z) .DIAGONAL
            = .ok (some (entry_name (.oneD .rocfft_precision_single .sbrc3d_xy_z_diagonal L)))
          ∧ get_function_single_transpose (function_pool_ctor rc)
              (L, .CS_KERNEL_STOCKHAM_TRANSPOSE_Z_XY) .DIAGONAL
            = .ok (some (entry_name (.oneD .rocfft_precision_single .sbrc3d_z_xy_diagonal L)))
          ∧ get_function_double_transpose (function_pool_ctor rc)
              (L, .CS_KERNEL_STOCKHAM_TRANSPOSE_XY_Z) .TILE_ALIGNED
            = .ok (some (entry_name
                (.oneD .rocfft_precision_double .sbrc3d_xy_z_tile_aligned L)))
          ∧ get_function_double_transpose (function_pool_ctor rc)
              (L, .CS_KERNEL_STOCKHAM_TRANSPOSE_Z_XY) .TILE_ALIGNED
            = .ok (some (entry_name
                (.oneD .rocfft_precision_double .sbrc3d_z_xy_tile_aligned L)))
          ∧ get_function_double_transpose (function_pool_ctor rc)
              (L, .CS_KERNEL_STOCKHAM_TRANSPOSE_XY_Z) .DIAGONAL
            = .ok (some (entry_name (.oneD .rocfft_precision_double .sbrc3d_xy_z_diagonal L)))
          ∧ get_function_double_transpose (function_pool_ctor rc)
              (L, .CS_KERNEL_STOCKHAM_TRANSPOSE_Z_XY) .DIAGONAL
            = .ok (some (entry_name (.oneD .rocfft_precision_double .sbrc3d_z_xy_diagonal L)))
          ∧ (∀ k, get_function_single_transpose (function_pool_ctor rc) k .TILE_UNALIGNED
              = .error .out_of_range)
          ∧ (∀ k, get_function_double_transpose (function_pool_ctor rc) k .TILE_UNALIGNED
              = .error .out_of_range)) := by
  have unaligned_of : ∀ (t : Text),
      (∀ a ∈ assignments t,
        a.1 ≠ .function_map_single_transpose_tile_unaligned
          ∧ a.1 ≠ .function_map_double_transpose_tile_unaligned) →
      (function_pool_ctor t).function_map_single_transpose_tile_unaligned.entries = []
      ∧ (function_pool_ctor t).function_map_double_transpose_tile_unaligned.entries = []
      ∧ (∀ k, get_function_single_transpose (function_pool_ctor t) k .TILE_UNALIGNED
          = .error .out_of_range)
      ∧ (∀ k, get_function_double_transpose (function_pool_ctor t) k .TILE_UNALIGNED
          = .error .out_of_range) := by
    intro t ht
    have hfold := foldl_run_assignment_unaligned (assignments t) function_pool.empty ht
    have e1 : (function_pool_ctor t).function_map_single_transpose_tile_unaligned.entries = [] := by
      unfold function_pool_ctor
      rw [hfold.1]
      rfl
    have e2 : (function_pool_ctor t).function_map_double_transpose_tile_unaligned.entries = [] := by
      unfold function_pool_ctor
      rw [hfold.2]
      rfl
    refine ⟨e1, e2, ?_, ?_⟩
    · intro k
      simp [get_function_single_transpose, FnMap.at, e1, FnMap.find]
    · intro k
      simp [get_function_double_transpose, FnMap.at, e2, FnMap.find]
  have htargets := targets_AddCPUFunctionToPool_str d support_list large1D_list l2s l2d str hreg
  obtain ⟨u1, u2, u3, u4⟩ := unaligned_of str htargets
  refine ⟨htargets, u1, u2, u3, u4, ?_⟩
  intro L hL
  obtain ⟨rc, hrc, hassign⟩ :=
    AddCPUFunctionToPool_str_large_only d [(L, .CS_KERNEL_STOCKHAM_BLOCK_RC)]
  obtain ⟨hs, hdbl⟩ := assignments_large_RC_diagonal d L hL
  have hrc_targets := targets_AddCPUFunctionToPool_str d [] _ [] [] rc hrc
  obtain ⟨-, -, v3, v4⟩ := unaligned_of rc hrc_targets
  have hlist : assignments rc = _ := hassign
  simp only [List.flatMap_cons, List.flatMap_nil, List.append_nil, hs, hdbl] at hlist
  refine ⟨rc, hrc, ?_, ?_, ?_, ?_, ?_, ?_, ?_, ?_, v3, v4⟩ <;>
    simp [function_pool_ctor, hlist, run_assignment, function_pool.empty, FnMap.empty,
      get_function_single_transpose, get_function_double_transpose, FnMap.at, FnMap.set,
      FnMap.find]

/-- Witness for C17: the constructor text of the sample catalog has no tile-unaligned entry,
and for the catalog `[(16384, CS_KERNEL_STOCKHAM_BLOCK_RC)]`, 16384 being a power of two, the
tile-aligned `xy_z` entry of single precision is found. -/
theorem C17_tile_unaligned_never_populated_witness :
    get_function_single_transpose (function_pool_ctor samplePoolText)
        (16384, .CS_KERNEL_STOCKHAM_TRANSPOSE_XY_Z) .TILE_UNALIGNED = .error .out_of_range
    ∧ ∃ rc, AddCPUFunctionToPool_str is_diagonal_sbrc_3D_length []
          [(16384, .CS_KERNEL_STOCKHAM_BLOCK_RC)] [] [] = .ok rc
        ∧ get_function_single_transpose (function_pool_ctor rc)
            (16384, .CS_KERNEL_STOCKHAM_TRANSPOSE_XY_Z) .TILE_ALIGNED
          = .ok (some (entry_name
              (.oneD .rocfft_precision_single .sbrc3d_xy_z_tile_aligned 16384))) :=
  ⟨(C17_tile_unaligned_never_populated is_diagonal_sbrc_3D_length [64]
      [(8192, .CS_KERNEL_STOCKHAM_BLOCK_CC)] [(64, 128, .CS_KERNEL_2D_SINGLE)]
      [(64, 128, .CS_KERNEL_2D_SINGLE)] samplePoolText (by rfl)).2.2.2.1
      (16384, .CS_KERNEL_STOCKHAM_TRANSPOSE_XY_Z),
   (fun ⟨rc, h1, h2, _⟩ => ⟨rc, h1, h2⟩)
    ((C17_tile_unaligned_never_populated is_diagonal_sbrc_3D_length [64]
      [(8192, .CS_KERNEL_STOCKHAM_BLOCK_CC)] [(64, 128, .CS_KERNEL_2D_SINGLE)]
      [(64, 128, .CS_KERNEL_2D_SINGLE)] samplePoolText (by rfl)).2.2.2.2.2 16384
      ((IsPow_iff 2 16384 (by decide)).2 ⟨14, by norm_num⟩))⟩

/-! ## Entries with a scheme the emitters do not implement -/

theorem get_2D_type_error (T : PowerTests) (dim : Key2D) (e : Fatal)
    (h : get_2D_type T dim = .error e) : e = .abort := by
  unfold get_2D_type at h
  split_ifs at h
  simp only [Except.error.injEq] at h
  exact h.symm

theorem open_2D_file_error (T : PowerTests) (openable : String → Bool) (dim : Key2D)
    (precision : String) (files : List String) (e : Fatal)
    (h : open_2D_file T openable dim precision files = .error e) : e = .abort := by
  unfold open_2D_file at h
  cases hty : get_2D_type T dim with
  | error e' =>
    simp only [hty, Except.error.injEq] at h
    rw [← h]
    exact get_2D_type_error T dim e' hty
  | ok type =>
    simp only [hty] at h
    split_ifs at h
    simp only [Except.error.injEq] at h
    exact h.symm

theorem write_cpu_function_2D_loop_error (T : PowerTests) (openable : String → Bool)
    (precision : String) :
    ∀ (l : List Key2D) (files : List String) (e : Fatal),
      write_cpu_function_2D_loop T openable precision l files = .error e → e = .abort := by
  intro l
  induction l with
  | nil =>
    intro files e h
    simp [write_cpu_function_2D_loop] at h
  | cons k rest ih =>
    intro files e h
    simp only [write_cpu_function_2D_loop] at h
    cases ho : open_2D_file T openable k precision files with
    | error e' =>
      simp only [ho, Except.error.injEq] at h
      rw [← h]
      exact open_2D_file_error T openable k precision files e' ho
    | ok r =>
      obtain ⟨file, files', opening⟩ := r
      simp only [ho] at h
      split_ifs at h with hs
      · cases hrest : write_cpu_function_2D_loop T openable precision rest files' with
        | error e' =>
          simp only [hrest, Except.error.injEq] at h
          rw [← h]
          exact ih files' e' hrest
        | ok later => simp [hrest] at h
      · simp only [Except.error.injEq] at h
        exact h.symm

theorem write_cpu_function_2D_loop_unknown_scheme (T : PowerTests) (openable : String → Bool)
    (precision : String) :
    ∀ (l : List Key2D) (files : List String) (k : Key2D), k ∈ l →
      k.2.2 ≠ .CS_KERNEL_2D_SINGLE →
      write_cpu_function_2D_loop T openable precision l files = .error .abort := by
  intro l
  induction l with
  | nil =>
    intro files k hk
    simp at hk
  | cons k0 rest ih =>
    intro files k hk hs
    cases hrun : write_cpu_function_2D_loop T openable precision (k0 :: rest) files with
    | error e =>
      rw [write_cpu_function_2D_loop_error T openable precision _ files e hrun]
    | ok tr =>
      exfalso
      simp only [write_cpu_function_2D_loop] at hrun
      cases ho : open_2D_file T openable k0 precision files with
      | error e' => simp [ho] at hrun
      | ok r =>
        obtain ⟨file, files', opening⟩ := r
        simp only [ho] at hrun
        split_ifs at hrun with hs0
        cases hrest : write_cpu_function_2D_loop T openable precision rest files' with
        | error e' => simp [hrest] at hrun
        | ok later =>
          rcases List.mem_cons.1 hk with rfl | hk'
          · exact hs hs0
          · have := ih files' k hk' hs
            rw [hrest] at this
            simp at this

theorem AddCPUFunctionToPool_2D_single_error :
    ∀ (l : List Key2D) (e : Fatal), AddCPUFunctionToPool_2D_single l = .error e →
      e = .abort := by
  intro l
  induction l with
  | nil =>
    intro e h
    simp [AddCPUFunctionToPool_2D_single] at h
  | cons k rest ih =>
    intro e h
    simp only [AddCPUFunctionToPool_2D_single] at h
    split_ifs at h with hs
    · cases hrest : AddCPUFunctionToPool_2D_single rest with
      | error e' =>
        simp only [hrest, Except.error.injEq] at h
        rw [← h]
        exact ih e' hrest
      | ok later => simp [hrest] at h
    · simp only [Except.error.injEq] at h
      exact h.symm

theorem AddCPUFunctionToPool_2D_double_error :
    ∀ (l : List Key2D) (e : Fatal), AddCPUFunctionToPool_2D_double l = .error e →
      e = .abort := by
  intro l
  induction l with
  | nil =>
    intro e h
    simp [AddCPUFunctionToPool_2D_double] at h
  | cons k rest ih =>
    intro e h
    simp only [AddCPUFunctionToPool_2D_double] at h
    split_ifs at h with hs
    · cases hrest : AddCPUFunctionToPool_2D_double rest with
      | error e' =>
        simp only [hrest, Except.error.injEq] at h
        rw [← h]
        exact ih e' hrest
      | ok later => simp [hrest] at h
    · simp only [Except.error.injEq] at h
      exact h.symm

theorem AddCPUFunctionToPool_str_unknown_scheme (d : Nat → Bool) (support_list : List Nat)
    (large1D_list : List Key) (l2s l2d : List Key2D) (k : Key2D)
    (hk : k ∈ l2s ∨ k ∈ l2d) (hs : k.2.2 ≠ .CS_KERNEL_2D_SINGLE) :
    AddCPUFunctionToPool_str d support_list large1D_list l2s l2d = .error .abort := by
  unfold AddCPUFunctionToPool_str
  cases h1 : AddCPUFunctionToPool_2D_single l2s with
  | error e =>
    rw [AddCPUFunctionToPool_2D_single_error l2s e h1]
  | ok single_2D =>
    cases h2 : AddCPUFunctionToPool_2D_double l2d with
    | error e =>
      rw [AddCPUFunctionToPool_2D_double_error l2d e h2]
    | ok double_2D =>
      exfalso
      rcases hk with hk | hk
      · exact hs ((assignments_2D_single l2s single_2D h1).1 k hk)
      · exact hs ((assignments_2D_double l2d double_2D h2).1 k hk)

theorem generate_2D_kernels_unknown_scheme (H : GeometryHelpers) (C : KernelCodegen)
    (openable : String → Bool) :
    ∀ (l : List Key2D) (k : Key2D), k ∈ l → k.2.2 ≠ .CS_KERNEL_2D_SINGLE →
      ∃ e, generate_2D_kernels H C openable l = .error e := by
  intro l
  induction l with
  | nil =>
    intro k hk
    simp at hk
  | cons k0 rest ih =>
    intro k hk hs
    by_cases hs0 : k0.2.2 = .CS_KERNEL_2D_SINGLE
    · simp only [generate_2D_kernels]
      rw [if_pos hs0]
      cases h1 : initParams H C.defaultParams [k0.1] false .BCT_C2C with
      | error e => exact ⟨e, rfl⟩
      | ok params1 =>
        cases h2 : initParams H { C.defaultParams with forceNonUnitStride := true } [k0.2.1]
            false .BCT_C2C with
        | error e => exact ⟨e, rfl⟩
        | ok params2 =>
          rcases List.mem_cons.1 hk with rfl | hk'
          · exact absurd hs0 hs
          · obtain ⟨e, he⟩ := ih k hk' hs
            exact ⟨e, by simp [he]⟩
    · simp only [generate_2D_kernels]
      rw [if_neg hs0]
      exact ⟨.abort, rfl⟩

theorem AddCPUFunctionToPool_str_no_2D (d : Nat → Bool) (support_list : List Nat)
    (large1D_list : List Key) :
    ∃ str, AddCPUFunctionToPool_str d support_list large1D_list [] [] = .ok str :=
  ⟨_, rfl⟩

/-- C20 (as amended): a 2-D entry whose scheme is not `CS_KERNEL_2D_SINGLE` makes
`write_cpu_function_2D` and `AddCPUFunctionToPool` end in `abort()` and keeps
`generate_2D_kernels` from returning normally, wherever the entry stands in the list. A
large-1D entry whose scheme is neither `CS_KERNEL_STOCKHAM_BLOCK_CC` nor
`CS_KERNEL_STOCKHAM_BLOCK_RC` is skipped: `WriteCPUHeaders`, `write_cpu_function_large` and
the two loops of `AddCPUFunctionToPool` append nothing for it and go on, so no large-1D list
makes `AddCPUFunctionToPool` abort; and `generate_kernel` called with a scheme other than
`CS_KERNEL_STOCKHAM`, `CS_KERNEL_STOCKHAM_BLOCK_CC`, `CS_KERNEL_STOCKHAM_BLOCK_RC` returns
without writing anything. -/
theorem C20_unknown_scheme_paths (d : Nat → Bool) (T : PowerTests) (H : GeometryHelpers)
    (C : KernelCodegen) (openable : String → Bool) (precision : String) :
    (∀ (l : List Key2D) (k : Key2D), k ∈ l → k.2.2 ≠ .CS_KERNEL_2D_SINGLE →
        write_cpu_function_2D T openable l precision = .error .abort)
    ∧ (∀ (support_list : List Nat) (large1D_list : List Key) (l2s l2d : List Key2D)
        (k : Key2D), (k ∈ l2s ∨ k ∈ l2d) → k.2.2 ≠ .CS_KERNEL_2D_SINGLE →
        AddCPUFunctionToPool d openable support_list large1D_list l2s l2d = .error .abort)
    ∧ (∀ (l : List Key2D) (k : Key2D), k ∈ l → k.2.2 ≠ .CS_KERNEL_2D_SINGLE →
        ∃ e, generate_2D_kernels H C openable l = .error e)
    ∧ (∀ (L : Nat) (s : ComputeScheme), s ≠ .CS_KERNEL_STOCKHAM_BLOCK_CC →
        s ≠ .CS_KERNEL_STOCKHAM_BLOCK_RC →
        WriteCPUHeaders_large d (L, s) = []
        ∧ write_cpu_function_large_entry d precision (L, s) = []
        ∧ AddCPUFunctionToPool_large_single d (L, s) = []
        ∧ AddCPUFunctionToPool_large_double d (L, s) = [])
    ∧ (∀ (support_list : List Nat) (large1D_list : List Key),
        ∃ tr, AddCPUFunctionToPool d openable support_list large1D_list [] [] = .ok tr)
    ∧ (∀ (len : Nat) (s : ComputeScheme), s ≠ .CS_KERNEL_STOCKHAM →
        s ≠ .CS_KERNEL_STOCKHAM_BLOCK_CC → s ≠ .CS_KERNEL_STOCKHAM_BLOCK_RC →
        generate_kernel H C openable len s = .ok []) := by
  refine ⟨?_, ?_, ?_, ?_, ?_, ?_⟩
  · intro l k hk hs
    exact write_cpu_function_2D_loop_unknown_scheme T openable precision l [] k hk hs
  · intro support_list large1D_list l2s l2d k hk hs
    unfold AddCPUFunctionToPool
    rw [AddCPUFunctionToPool_str_unknown_scheme d support_list large1D_list l2s l2d k hk hs]
  · intro l k hk hs
    exact generate_2D_kernels_unknown_scheme H C openable l k hk hs
  · intro L s h1 h2
    simp [WriteCPUHeaders_large, write_cpu_function_large_entry,
      AddCPUFunctionToPool_large_single, AddCPUFunctionToPool_large_double, h1, h2]
  · intro support_list large1D_list
    obtain ⟨str, hstr⟩ := AddCPUFunctionToPool_str_no_2D d support_list large1D_list
    unfold AddCPUFunctionToPool
    rw [hstr]
    exact ⟨_, rfl⟩
  · intro len s h1 h2 h3
    simp [generate_kernel, h1, h2, h3]

/-- Counterexample to C20 as stated: `generate_kernel` called for length 4096 with the scheme
`CS_KERNEL_2D_SINGLE`, which it does not implement, returns without writing; and the large-1D
entry `(4096, CS_KERNEL_STOCKHAM)`, whose scheme is neither block-CC nor block-RC, is skipped
by `write_cpu_function_large` and by `AddCPUFunctionToPool`, which builds its text with no
assignment. None takes the `abort()` path. -/
theorem C20_counterexample_silent_skip :
    generate_kernel sampleGeometry sampleCodegen (fun _ => true) 4096 .CS_KERNEL_2D_SINGLE
        = .ok []
    ∧ write_cpu_function_large_entry is_diagonal_sbrc_3D_length "single"
        (4096, .CS_KERNEL_STOCKHAM) = []
    ∧ ∃ str, AddCPUFunctionToPool_str is_diagonal_sbrc_3D_length []
          [(4096, .CS_KERNEL_STOCKHAM)] [] [] = .ok str
        ∧ assignments str = [] :=
  ⟨by rfl, by rfl, _, rfl, by rfl⟩

/-! ## Sinks that fail to open -/

theorem with_failed_sinks_append (openable : String → Bool) (a b : List Event) :
    with_failed_sinks openable (a ++ b)
      = with_failed_sinks openable a ++ with_failed_sinks openable b := by
  induction a with
  | nil => rfl
  | cons x rest ih =>
    cases x with
    | opened f => simp [with_failed_sinks, ih]
    | wrote f t =>
      by_cases h : openable f = true <;> simp [with_failed_sinks, ih, h]
    | cout m => simp [with_failed_sinks, ih]

theorem with_failed_sinks_flatMap {α : Type} (openable : String → Bool) (l : List α)
    (f : α → List Event) :
    with_failed_sinks openable (l.flatMap f)
      = l.flatMap fun x => with_failed_sinks openable (f x) := by
  induction l with
  | nil => rfl
  | cons x rest ih => simp [with_failed_sinks_append, ih]

theorem write_file_with_failed_sinks (openable : String → Bool) (fileName : String)
    (str : Text) :
    write_file openable fileName str
      = with_failed_sinks openable (write_file (fun _ => true) fileName str) := by
  by_cases h : openable fileName = true <;> simp [write_file, with_failed_sinks, h]

theorem WriteKernelToFile_with_failed_sinks (openable : String → Bool) (str : Text)
    (LEN : String) :
    WriteKernelToFile openable str LEN
      = with_failed_sinks openable (WriteKernelToFile (fun _ => true) str LEN) := by
  by_cases h : openable ("rocfft_kernel_" ++ LEN ++ ".h") = true <;>
    simp [WriteKernelToFile, with_failed_sinks, h]

theorem open_2D_file_ok (T : PowerTests) (openable : String → Bool) (dim : Key2D)
    (precision : String) (files : List String) (file : String) (files' : List String)
    (opening : List Event)
    (h : open_2D_file T openable dim precision files = .ok (file, files', opening)) :
    ∃ type, get_2D_type T dim = .ok type
      ∧ file = "kernel_launch_" ++ precision ++ "_2D_" ++ type ++ ".cpp.h"
      ∧ ((type ∈ files ∧ files' = files
            ∧ opening = if openable file = true then [.opened file] else [])
        ∨ (type ∉ files ∧ openable file = true ∧ files' = files ++ [type]
            ∧ opening = [.opened file, .wrote file [.text "#include \"kernel_launch.h\"\n"]]
                ++ (if openable ("kernel_launch_" ++ precision ++ "_2D_" ++ type ++ ".cpp")
                    then [.opened ("kernel_launch_" ++ precision ++ "_2D_" ++ type ++ ".cpp"),
                          .wrote ("kernel_launch_" ++ precision ++ "_2D_" ++ type ++ ".cpp")
                            [.incl "#include \"" file "\""]]
                    else []))) := by
  unfold open_2D_file at h
  cases hty : get_2D_type T dim with
  | error e => simp [hty] at h
  | ok type =>
    refine ⟨type, rfl, ?_⟩
    simp only [hty] at h
    by_cases hmem : type ∈ files
    · rw [if_pos hmem] at h
      simp only [Except.ok.injEq, Prod.mk.injEq] at h
      obtain ⟨h1, h2, h3⟩ := h
      subst h1
      exact ⟨rfl, Or.inl ⟨hmem, h2.symm, h3.symm⟩⟩
    · rw [if_neg hmem] at h
      by_cases hop : openable ("kernel_launch_" ++ precision ++ "_2D_" ++ type ++ ".cpp.h") = true
      · simp only [hop, Bool.not_true, Bool.false_eq_true, if_false, Except.ok.injEq,
          Prod.mk.injEq] at h
        obtain ⟨h1, h2, h3⟩ := h
        subst h1
        exact ⟨rfl, Or.inr ⟨hmem, hop, h2.symm, h3.symm⟩⟩
      · simp [hop] at h

theorem write_cpu_function_2D_loop_header_fails (T : PowerTests) (openable : String → Bool)
    (precision : String) :
    ∀ (l : List Key2D) (files : List String) (k : Key2D) (b : String),
      (∀ b', b' ∈ files →
        openable ("kernel_launch_" ++ precision ++ "_2D_" ++ b' ++ ".cpp.h") = true) →
      k ∈ l → get_2D_type T k = .ok b →
      openable ("kernel_launch_" ++ precision ++ "_2D_" ++ b ++ ".cpp.h") = false →
      write_cpu_function_2D_loop T openable precision l files = .error .abort := by
  intro l
  induction l with
  | nil =>
    intro files k b _ hk
    simp at hk
  | cons k0 rest ih =>
    intro files k b hfiles hk hb hclosed
    cases hrun : write_cpu_function_2D_loop T openable precision (k0 :: rest) files with
    | error e =>
      rw [write_cpu_function_2D_loop_error T openable precision _ files e hrun]
    | ok tr =>
      exfalso
      simp only [write_cpu_function_2D_loop] at hrun
      cases ho : open_2D_file T openable k0 precision files with
      | error e' => simp [ho] at hrun
      | ok r =>
        obtain ⟨file, files', opening⟩ := r
        simp only [ho] at hrun
        obtain ⟨type, hty, hfile, hcase⟩ := open_2D_file_ok T openable k0 precision files _ _ _ ho
        have hfiles' : ∀ b', b' ∈ files' →
            openable ("kernel_launch_" ++ precision ++ "_2D_" ++ b' ++ ".cpp.h") = true := by
          intro b' hb'
          rcases hcase with ⟨-, hf, -⟩ | ⟨-, hop, hf, -⟩
          · rw [hf] at hb'
            exact hfiles b' hb'
          · rw [hf] at hb'
            rcases List.mem_append.1 hb' with h | h
            · exact hfiles b' h
            · simp only [List.mem_singleton] at h
              rw [h, ← hfile]
              exact hop
        have hopen_type :
            openable ("kernel_launch_" ++ precision ++ "_2D_" ++ type ++ ".cpp.h") = true := by
          rcases hcase with ⟨hmem, -, -⟩ | ⟨-, hop, -, -⟩
          · exact hfiles type hmem
          · rw [← hfile]
            exact hop
        split_ifs at hrun with hs0
        cases hrest : write_cpu_function_2D_loop T openable precision rest files' with
        | error e' => simp [hrest] at hrun
        | ok later =>
          rcases List.mem_cons.1 hk with rfl | hk'
          · rw [hty] at hb
            simp only [Except.ok.injEq] at hb
            subst hb
            rw [hopen_type] at hclosed
            cases hclosed
          · have := ih files' k b hfiles' hk' hb hclosed
            rw [hrest] at this
            simp at this

theorem AddCPUFunctionToPool_eq (d : Nat → Bool) (openable : String → Bool)
    (support_list : List Nat) (large1D_list : List Key) (s2 d2 : List Key2D) (str : Text)
    (h : AddCPUFunctionToPool_str d support_list large1D_list s2 d2 = .ok str) :
    AddCPUFunctionToPool d openable support_list large1D_list s2 d2
      = .ok (write_file openable "function_pool.cpp.h" str
          ++ write_file openable "function_pool.cpp"
              [.incl "#include \"" "function_pool.cpp.h" "\""]) := by
  unfold AddCPUFunctionToPool
  rw [h]

theorem small_group_with_failed_sinks (openable : String → Bool) (support_list : List Nat)
    (precision : String) (gs j : Nat) :
    write_cpu_function_small_group openable support_list precision gs j
      = with_failed_sinks openable
          (write_cpu_function_small_group (fun _ => true) support_list precision gs j) := by
  unfold write_cpu_function_small_group
  simp only [with_failed_sinks_append, ← write_file_with_failed_sinks]

/-- C21 (as amended): for the artifacts written by `WriteCPUHeaders`,
`write_cpu_function_small` (group count `1 <= g <= n`), `write_cpu_function_large`,
`AddCPUFunctionToPool` (when the constructor text is built) and `WriteKernelToFile`, a sink
that cannot be opened is reported by the message `File: <name> could not be opened, exiting ....`
and the run goes on: its trace is the trace of the same run with every sink open, in which each
failed open is replaced by that message and the insertions into the failed sink are dropped,
every other event unchanged. For the 2-D launcher units it is otherwise: when the header of
the bucket of some entry of the list cannot be opened, `write_cpu_function_2D` ends in
`abort()`. -/
theorem C21_sink_failures (d : Nat → Bool) (T : PowerTests) (openable : String → Bool)
    (support_list : List Nat) (large1D_list : List Key) (list_2D s2 d2 : List Key2D)
    (precision : String) (g : Nat) (str : Text) (hint : g < 2 ^ 31) (h1 : 1 ≤ g)
    (h2 : g ≤ support_list.length)
    (hstr : AddCPUFunctionToPool_str d support_list large1D_list s2 d2 = .ok str) :
    WriteCPUHeaders d openable support_list large1D_list list_2D
        = with_failed_sinks openable
            (WriteCPUHeaders d (fun _ => true) support_list large1D_list list_2D)
    ∧ (∃ full, write_cpu_function_small (fun _ => true) support_list precision (g : Int)
          = .ok full
        ∧ write_cpu_function_small openable support_list precision (g : Int)
          = .ok (with_failed_sinks openable full))
    ∧ write_cpu_function_large d openable large1D_list precision
        = with_failed_sinks openable
            (write_cpu_function_large d (fun _ => true) large1D_list precision)
    ∧ (∃ full, AddCPUFunctionToPool d (fun _ => true) support_list large1D_list s2 d2 = .ok full
        ∧ AddCPUFunctionToPool d openable support_list large1D_list s2 d2
          = .ok (with_failed_sinks openable full))
    ∧ (∀ (code : Text) (LEN : String), WriteKernelToFile openable code LEN
        = with_failed_sinks openable (WriteKernelToFile (fun _ => true) code LEN))
    ∧ (∀ f t, openable f = false →
        write_file openable f t
          = [.cout ("File: " ++ f ++ " could not be opened, exiting ....\n")])
    ∧ (∀ k b, k ∈ list_2D → get_2D_type T k = .ok b →
        openable ("kernel_launch_" ++ precision ++ "_2D_" ++ b ++ ".cpp.h") = false →
        write_cpu_function_2D T openable list_2D precision = .error .abort) := by
  refine ⟨?_, ?_, ?_, ?_, ?_, ?_, ?_⟩
  · unfold WriteCPUHeaders
    exact write_file_with_failed_sinks _ _ _
  · refine ⟨_, write_cpu_function_small_eq _ support_list precision g hint h1 h2, ?_⟩
    rw [write_cpu_function_small_eq openable support_list precision g hint h1 h2,
      with_failed_sinks_flatMap]
    simp only [← small_group_with_failed_sinks]
  · unfold write_cpu_function_large
    simp only [with_failed_sinks_append, ← write_file_with_failed_sinks]
  · refine ⟨_, AddCPUFunctionToPool_eq d _ support_list large1D_list s2 d2 str hstr, ?_⟩
    rw [AddCPUFunctionToPool_eq d openable support_list large1D_list s2 d2 str hstr]
    simp only [with_failed_sinks_append, ← write_file_with_failed_sinks]
  · exact fun code LEN => WriteKernelToFile_with_failed_sinks openable code LEN
  · intro f t hf
    simp [write_file, hf]
  · intro k b hk hb hclosed
    exact write_cpu_function_2D_loop_header_fails T openable precision list_2D [] k b
      (by simp) hk hb hclosed

/-- Witness for C21: the catalog with the small length 64, the large-1D entry
`(8192, CS_KERNEL_STOCKHAM_BLOCK_CC)` and the 2-D entry `(64, 128, CS_KERNEL_2D_SINGLE)`, one
group, when no sink at all can be opened: the small-kernel run returns, and its trace is the
all-open trace with both opens replaced by their messages. -/
theorem C21_sink_failures_witness :
    ∃ full, write_cpu_function_small (fun _ => true) [64] "single" ((1 : Nat) : Int) = .ok full
      ∧ write_cpu_function_small (fun _ => false) [64] "single" ((1 : Nat) : Int)
        = .ok (with_failed_sinks (fun _ => false) full) :=
  (C21_sink_failures is_diagonal_sbrc_3D_length specPowerTests (fun _ => false) [64]
    [(8192, .CS_KERNEL_STOCKHAM_BLOCK_CC)] [(64, 128, .CS_KERNEL_2D_SINGLE)]
    [(64, 128, .CS_KERNEL_2D_SINGLE)] [(64, 128, .CS_KERNEL_2D_SINGLE)] "single" 1
    samplePoolText (by decide) (by decide) (by decide) (by rfl)).2.1

/-- Counterexample to C21 as stated: with the single sink
`kernel_launch_single_2D_pow2.cpp.h` failing to open, `write_cpu_function_2D` on the list
`[(64, 128), (9, 27)]` ends in `abort()`; the unit `kernel_launch_single_2D_pow3.cpp.h` of the
second entry, which the run with every sink open produces, is not produced. -/
theorem C21_counterexample_header_abort :
    write_cpu_function_2D specPowerTests
        (fun f => f != "kernel_launch_single_2D_pow2.cpp.h")
        [(64, 128, .CS_KERNEL_2D_SINGLE), (9, 27, .CS_KERNEL_2D_SINGLE)] "single"
      = .error .abort
    ∧ ∃ tr, write_cpu_function_2D specPowerTests (fun _ => true)
          [(64, 128, .CS_KERNEL_2D_SINGLE), (9, 27, .CS_KERNEL_2D_SINGLE)] "single" = .ok tr
        ∧ "kernel_launch_single_2D_pow3.cpp.h" ∈ openedFiles tr := by
  refine ⟨by rfl, _, rfl, ?_⟩
  decide

/-! ## The lookups do not change the registry -/

/-- C22: none of the lookups `get_function_single`, `get_function_double`, the two transpose
lookups, the two 2-D lookups and `has_function` changes a constructed registry, whether the key
is present or absent (the state after the call holds the registry the call found); run a second
time with the same key, from any state of the singleton (also before its construction), each
gives the same outcome as the first run, the same entry or not-found both times; and on a
constructed registry the outcome is the one of the lookup read as a function of the
registry. -/
theorem C22_lookups_do_not_mutate (ctor : function_pool) (k : Key) (k2 : Key2D)
    (type : SBRC_TRANSPOSE_TYPE) (precision : rocfft_precision) :
    PureRead (fun s => run_get_function_single ctor s k)
    ∧ PureRead (fun s => run_get_function_double ctor s k)
    ∧ PureRead (fun s => run_get_function_single_transpose ctor s k type)
    ∧ PureRead (fun s => run_get_function_double_transpose ctor s k type)
    ∧ PureRead (fun s => run_get_function_single_2D ctor s k2)
    ∧ PureRead (fun s => run_get_function_double_2D ctor s k2)
    ∧ PureRead (fun s => run_has_function ctor s precision k)
    ∧ (∀ func_pool,
        (run_get_function_single ctor (some func_pool) k).1 = get_function_single func_pool k
        ∧ (run_get_function_double ctor (some func_pool) k).1 = get_function_double func_pool k
        ∧ (run_get_function_single_transpose ctor (some func_pool) k type).1
            = get_function_single_transpose func_pool k type
        ∧ (run_get_function_double_transpose ctor (some func_pool) k type).1
            = get_function_double_transpose func_pool k type
        ∧ (run_get_function_single_2D ctor (some func_pool) k2).1
            = get_function_single_2D func_pool k2
        ∧ (run_get_function_double_2D ctor (some func_pool) k2).1
            = get_function_double_2D func_pool k2
        ∧ (run_has_function ctor (some func_pool) precision k).1
            = has_function func_pool precision k) := by
  refine ⟨⟨fun _ => rfl, ?_⟩, ⟨fun _ => rfl, ?_⟩, ⟨?_, ?_⟩, ⟨?_, ?_⟩, ⟨fun _ => rfl, ?_⟩,
    ⟨fun _ => rfl, ?_⟩, ⟨?_, ?_⟩, ?_⟩
  · intro s; cases s <;> rfl
  · intro s; cases s <;> rfl
  · intro fp; cases type <;> rfl
  · intro s; cases s <;> cases type <;> rfl
  · intro fp; cases type <;> rfl
  · intro s; cases s <;> cases type <;> rfl
  · intro s; cases s <;> rfl
  · intro s; cases s <;> rfl
  · intro fp; cases precision <;> rfl
  · intro s; cases s <;> cases precision <;> rfl
  · intro fp
    refine ⟨rfl, rfl, ?_, ?_, rfl, rfl, ?_⟩
    · cases type <;> rfl
    · cases type <;> rfl
    · cases precision <;> rfl

/-! ## Properties of `SimpleHash` -/

theorem SimpleHash_hash_in_small (first second : Nat) (h1 : first < 2 ^ 32)
    (h2 : second < 2 ^ 32) : SimpleHash_hash_in first second = 2 ^ 32 * second + first := by
  simp only [SimpleHash_hash_in]
  rw [Nat.zero_or, Nat.shiftLeft_eq, Nat.mod_eq_of_lt (by omega : first < 2 ^ 64),
    Nat.mod_eq_of_lt (by omega : second < 2 ^ 64),
    Nat.mod_eq_of_lt (by omega : second * 2 ^ 32 < 2 ^ 64), Nat.lor_comm,
    Nat.mul_comm second, Nat.mul_add_lt_is_or h1]

theorem SimpleHash_hash_in_zero (second : Nat) :
    SimpleHash_hash_in 0 second = (second % 2 ^ 64) <<< 32 % 2 ^ 64 := by
  unfold SimpleHash_hash_in
  simp

theorem SimpleHash_hash_in_self (second : Nat) :
    SimpleHash_hash_in ((second % 2 ^ 64) <<< 32 % 2 ^ 64) second
      = (second % 2 ^ 64) <<< 32 % 2 ^ 64 := by
  simp only [SimpleHash_hash_in]
  rw [Nat.zero_or, Nat.mod_mod, Nat.or_self]

theorem SimpleHash_hash_in_shifted_zero (first second : Nat) (h1 : first < 2 ^ 64)
    (h : (second % 2 ^ 64) <<< 32 % 2 ^ 64 = 0) : SimpleHash_hash_in first second = first := by
  simp only [SimpleHash_hash_in]
  rw [h, Nat.zero_or, Nat.or_zero, Nat.mod_eq_of_lt h1]

theorem shifted_code_ge (second : Nat) (h : (second % 2 ^ 64) <<< 32 % 2 ^ 64 ≠ 0) :
    2 ^ 32 ≤ (second % 2 ^ 64) <<< 32 % 2 ^ 64 := by
  rw [Nat.shiftLeft_eq] at h ⊢
  omega

theorem SimpleHash_hash_in_collision (code : ComputeScheme → Nat) :
    ∃ p q : Key, p ≠ q ∧ 2 ^ 32 ≤ p.1 ∧ p.1 < 2 ^ 64 ∧ q.1 < 2 ^ 64
      ∧ SimpleHash_hash_in p.1 (code p.2) = SimpleHash_hash_in q.1 (code q.2) := by
  have key : ∀ s : ComputeScheme, (code s % 2 ^ 64) <<< 32 % 2 ^ 64 ≠ 0 →
      ∃ p q : Key, p ≠ q ∧ 2 ^ 32 ≤ p.1 ∧ p.1 < 2 ^ 64 ∧ q.1 < 2 ^ 64
        ∧ SimpleHash_hash_in p.1 (code p.2) = SimpleHash_hash_in q.1 (code q.2) := by
    intro s hs
    have hge := shifted_code_ge (code s) hs
    refine ⟨((code s % 2 ^ 64) <<< 32 % 2 ^ 64, s), (0, s), ?_, hge,
      Nat.mod_lt _ (by norm_num), by norm_num, ?_⟩
    · intro h
      have h' := congrArg Prod.fst h
      simp only at h'
      omega
    · simp only [SimpleHash_hash_in_self, SimpleHash_hash_in_zero]
  by_cases h1 : (code .CS_KERNEL_STOCKHAM % 2 ^ 64) <<< 32 % 2 ^ 64 = 0
  · by_cases h2 : (code .CS_KERNEL_STOCKHAM_BLOCK_CC % 2 ^ 64) <<< 32 % 2 ^ 64 = 0
    · refine ⟨(2 ^ 32, .CS_KERNEL_STOCKHAM), (2 ^ 32, .CS_KERNEL_STOCKHAM_BLOCK_CC), ?_,
        le_refl _, by norm_num, by norm_num, ?_⟩
      · intro h
        have h' := congrArg Prod.snd h
        simp at h'
      · simp only
        rw [SimpleHash_hash_in_shifted_zero _ _ (by norm_num) h1,
          SimpleHash_hash_in_shifted_zero _ _ (by norm_num) h2]
    · exact key _ h2
  · exact key _ h1

/-- C23: with a 64-bit `size_t` and for every assignment `code` of values to the enumerators of
`ComputeScheme`, the word that `SimpleHash` packs for a 1-D key, the length OR-ed with the
scheme code shifted left by 32, determines the length and the scheme code of every key whose
length and scheme code are below `2 ^ 32`, so that distinct such keys have distinct words when
distinct schemes have distinct codes; and there are two distinct keys with lengths below
`2 ^ 64`, one of them of length at least `2 ^ 32`, whose packed words are equal, hence whose
hashes are equal for every `std::hash<size_t>`. For instance length `2 ^ 32` with code 0 and
length 0 with code 1 pack to the same word. -/
theorem C23_packed_word (code : ComputeScheme → Nat) :
    (∀ p q : Key, p.1 < 2 ^ 32 → q.1 < 2 ^ 32 → code p.2 < 2 ^ 32 → code q.2 < 2 ^ 32 →
        SimpleHash_hash_in p.1 (code p.2) = SimpleHash_hash_in q.1 (code q.2) →
        p.1 = q.1 ∧ code p.2 = code q.2)
    ∧ (Function.Injective code →
        ∀ p q : Key, p.1 < 2 ^ 32 → q.1 < 2 ^ 32 → code p.2 < 2 ^ 32 → code q.2 < 2 ^ 32 →
          p ≠ q → SimpleHash_hash_in p.1 (code p.2) ≠ SimpleHash_hash_in q.1 (code q.2))
    ∧ (∃ p q : Key, p ≠ q ∧ 2 ^ 32 ≤ p.1 ∧ p.1 < 2 ^ 64 ∧ q.1 < 2 ^ 64
        ∧ SimpleHash_hash_in p.1 (code p.2) = SimpleHash_hash_in q.1 (code q.2)
        ∧ ∀ hash, SimpleHash_pair hash code p = SimpleHash_pair hash code q)
    ∧ SimpleHash_hash_in (2 ^ 32) 0 = SimpleHash_hash_in 0 1 := by
  have inj : ∀ p q : Key, p.1 < 2 ^ 32 → q.1 < 2 ^ 32 → code p.2 < 2 ^ 32 →
      code q.2 < 2 ^ 32 →
      SimpleHash_hash_in p.1 (code p.2) = SimpleHash_hash_in q.1 (code q.2) →
      p.1 = q.1 ∧ code p.2 = code q.2 := by
    intro p q hp hq hcp hcq h
    rw [SimpleHash_hash_in_small _ _ hp hcp, SimpleHash_hash_in_small _ _ hq hcq] at h
    norm_num at hp hq hcp hcq h
    omega
  refine ⟨inj, ?_, ?_, by decide⟩
  · intro hcode p q hp hq hcp hcq hne h
    obtain ⟨h1, h2⟩ := inj p q hp hq hcp hcq h
    exact hne (Prod.ext h1 (hcode h2))
  · obtain ⟨p, q, hne, h1, h2, h3, h4⟩ := SimpleHash_hash_in_collision code
    refine ⟨p, q, hne, h1, h2, h3, h4, fun hash => ?_⟩
    unfold SimpleHash_pair
    rw [h4]

/-- C28: for every pair of component hashes, the hash `SimpleHash` of a 2-D key is unchanged
when the two lengths are swapped, and for a key with two equal lengths it is the hash of the
scheme alone, whatever the length; while the keys `(a, b, s)` and `(b, a, s)` themselves are
different whenever `a` and `b` differ. -/
theorem C28_tuple_hash_symmetric (hash_size_t : Nat → Nat) (hash_scheme : ComputeScheme → Nat)
    (a b : Nat) (s : ComputeScheme) :
    SimpleHash_tuple hash_size_t hash_scheme (a, b, s)
        = SimpleHash_tuple hash_size_t hash_scheme (b, a, s)
    ∧ SimpleHash_tuple hash_size_t hash_scheme (a, a, s) = hash_scheme s
    ∧ (a ≠ b → ((a, b, s) : Key2D) ≠ (b, a, s)) := by
  refine ⟨?_, ?_, ?_⟩
  · unfold SimpleHash_tuple
    simp only
    rw [Nat.xor_comm (hash_size_t a)]
  · unfold SimpleHash_tuple
    simp only
    rw [Nat.xor_self, Nat.zero_xor]
  · intro hne h
    exact hne (congrArg Prod.fst h)

/-! ## The geometry `initParams` stores -/

theorem initParams_ok_of (H : GeometryHelpers) (params : FFTKernelGenKeyParams)
    (N0 : Nat) (rest : List Nat) (blockCompute : Bool) (blockComputeType : BlockComputeType)
    (sizes : Nat × Nat)
    (hs : sizes = (if (H.GetWGSAndNT N0).1 ≠ 0 ∧ (H.GetWGSAndNT N0).2 ≠ 0
                ∧ H.MAX_WORK_GROUP_SIZE ≥ 256
             then ((H.GetWGSAndNT N0).1, (H.GetWGSAndNT N0).2) else H.DetermineSizes N0))
    (h1 : (sizes.2 * N0) % 2 ^ 64 ≥ sizes.1) (h2 : sizes.1 ≠ 0)
    (h3 : (sizes.2 * N0) % 2 ^ 64 % sizes.1 = 0) :
    ∃ out, initParams H params (N0 :: rest) blockCompute blockComputeType = .ok out
      ∧ out.fft_workGroupSize = sizes.1 ∧ out.fft_numTrans = sizes.2 := by
  simp only [initParams]
  rw [← hs, if_neg (not_not.2 h1), if_neg h2, if_neg (not_not.2 h3)]
  exact ⟨_, rfl, rfl, rfl⟩

/-- C25: whenever `initParams` returns, the pair it stores in `fft_workGroupSize` and
`fft_numTrans` is the pair of the table lookup `GetWGSAndNT(fft_N[0])` when that lookup gives
a non-zero work-group size and a non-zero transform count and `MAX_WORK_GROUP_SIZE >= 256`, and
in every other case the pair `DetermineSizes` computes for `fft_N[0]`; and the stored pair
depends on `fft_N[0]` only: with the same first length, any other incoming `params`, further
lengths, `blockCompute` and `blockComputeType` make `initParams` return as well, with the
same pair. -/
theorem C25_initParams_selection (H : GeometryHelpers) (params : FFTKernelGenKeyParams)
    (fft_N : List Nat) (blockCompute : Bool) (blockComputeType : BlockComputeType)
    (out : FFTKernelGenKeyParams)
    (h : initParams H params fft_N blockCompute blockComputeType = .ok out) :
    ∃ N0, fft_N.head? = some N0
      ∧ (((H.GetWGSAndNT N0).1 ≠ 0 ∧ (H.GetWGSAndNT N0).2 ≠ 0 ∧ H.MAX_WORK_GROUP_SIZE ≥ 256) →
          (out.fft_workGroupSize, out.fft_numTrans) = H.GetWGSAndNT N0)
      ∧ (¬ ((H.GetWGSAndNT N0).1 ≠ 0 ∧ (H.GetWGSAndNT N0).2 ≠ 0
            ∧ H.MAX_WORK_GROUP_SIZE ≥ 256) →
          (out.fft_workGroupSize, out.fft_numTrans) = H.DetermineSizes N0)
      ∧ ∀ (params' : FFTKernelGenKeyParams) (rest' : List Nat) (blockCompute' : Bool)
          (blockComputeType' : BlockComputeType),
          ∃ out', initParams H params' (N0 :: rest') blockCompute' blockComputeType' = .ok out'
            ∧ out'.fft_workGroupSize = out.fft_workGroupSize
            ∧ out'.fft_numTrans = out.fft_numTrans := by
  obtain ⟨N0, rest, hN, -, hsizes, h1, h2, h3⟩ :=
    initParams_ok_iff H params fft_N blockCompute blockComputeType out h
  refine ⟨N0, by simp [hN], ?_, ?_, ?_⟩
  · intro hc
    rw [hsizes, if_pos hc]
  · intro hc
    rw [hsizes, if_neg hc]
  · intro params' rest' bc' bct'
    exact initParams_ok_of H params' N0 rest' bc' bct'
      (out.fft_workGroupSize, out.fft_numTrans) hsizes h1 h2 h3

/-- Witness for C25: the length vector `[4096]` with the stand-in helpers, whose table holds
the row `4096 ↦ (256, 1)`. -/
theorem C25_initParams_selection_witness :
    ∃ N0, [4096].head? = some N0
      ∧ (((sampleGeometry.GetWGSAndNT N0).1 ≠ 0 ∧ (sampleGeometry.GetWGSAndNT N0).2 ≠ 0
            ∧ sampleGeometry.MAX_WORK_GROUP_SIZE ≥ 256) →
          (sampleParams4096.fft_workGroupSize, sampleParams4096.fft_numTrans)
            = sampleGeometry.GetWGSAndNT N0)
      ∧ (¬ ((sampleGeometry.GetWGSAndNT N0).1 ≠ 0 ∧ (sampleGeometry.GetWGSAndNT N0).2 ≠ 0
            ∧ sampleGeometry.MAX_WORK_GROUP_SIZE ≥ 256) →
          (sampleParams4096.fft_workGroupSize, sampleParams4096.fft_numTrans)
            = sampleGeometry.DetermineSizes N0)
      ∧ ∀ (params' : FFTKernelGenKeyParams) (rest' : List Nat) (blockCompute' : Bool)
          (blockComputeType' : BlockComputeType),
          ∃ out', initParams sampleGeometry params' (N0 :: rest') blockCompute'
                blockComputeType' = .ok out'
            ∧ out'.fft_workGroupSize = sampleParams4096.fft_workGroupSize
            ∧ out'.fft_numTrans = sampleParams4096.fft_numTrans :=
  C25_initParams_selection sampleGeometry blankParams [4096] false .BCT_C2C sampleParams4096
    (by rfl)

/-! ## The order of the tests in `get_2D_type` -/

theorem get_2D_type_eq_first_match (T : PowerTests) (dim : Key2D) :
    get_2D_type T dim = first_match (get_2D_type_tests T dim) := by
  unfold get_2D_type get_2D_type_tests
  simp only [first_match]

theorem first_match_of_unique (b : String) :
    ∀ l : List (Bool × String), (∃ x, x ∈ l ∧ x.1 = true) →
      (∀ x, x ∈ l → x.1 = true → x.2 = b) → first_match l = .ok b := by
  intro l
  induction l with
  | nil =>
    rintro ⟨x, hx, -⟩
    simp at hx
  | cons y rest ih =>
    obtain ⟨c, b'⟩ := y
    intro hex hall
    cases c with
    | true =>
      have := hall (true, b') (List.mem_cons_self _ _) rfl
      simp only at this
      simp [first_match, this]
    | false =>
      simp only [first_match, Bool.false_eq_true, if_false]
      apply ih
      · obtain ⟨x, hx, hx1⟩ := hex
        rcases List.mem_cons.1 hx with rfl | hx'
        · simp at hx1
        · exact ⟨x, hx', hx1⟩
      · intro x hx
        exact hall x (List.mem_cons_of_mem _ hx)

theorem get_2D_type_tests_unique (T : PowerTests) (dim : Key2D)
    (h1 : [T.IsPo2 dim.1, T.IsPow3 dim.1, T.IsPow5 dim.1].count true = 1)
    (h2 : [T.IsPo2 dim.2.1, T.IsPow3 dim.2.1, T.IsPow5 dim.2.1].count true = 1) :
    ∃ b, get_2D_type T dim = .ok b
      ∧ ((get_2D_type_tests T dim).filter fun x => x.1).length = 1
      ∧ (∃ x, x ∈ get_2D_type_tests T dim ∧ x.1 = true)
      ∧ (∀ x, x ∈ get_2D_type_tests T dim → x.1 = true → x.2 = b) := by
  unfold get_2D_type get_2D_type_tests
  revert h1 h2
  cases T.IsPo2 dim.1 <;> cases T.IsPow3 dim.1 <;> cases T.IsPow5 dim.1 <;>
    cases T.IsPo2 dim.2.1 <;> cases T.IsPow3 dim.2.1 <;> cases T.IsPow5 dim.2.1 <;>
    intro h1 h2 <;>
    first
    | exact absurd h1 (by decide)
    | exact absurd h2 (by decide)
    | exact ⟨_, rfl, rfl, by decide, by decide⟩

theorem family_exactly_one {p len : Nat} (hp : p ∈ [2, 3, 5]) (h1 : 1 < len)
    (ha : ∃ a, len = p ^ a) :
    [specPowerTests.IsPo2 len, specPowerTests.IsPow3 len, specPowerTests.IsPow5 len].count true
      = 1 := by
  have e := IsPow_of_family hp h1 ha
  simp only [specPowerTests, IsPo2, e 2 (by simp), e 3 (by simp), e 5 (by simp)]
  simp only [List.mem_cons, List.mem_singleton, List.not_mem_nil, or_false] at hp
  rcases hp with rfl | rfl | rfl <;> simp

/-- C27: `get_2D_type` returns the bucket of the first of its nine conditions that holds, in
the order pow2, pow3, pow5, mix_pow2_3, mix_pow3_2, mix_pow3_5, mix_pow5_3, mix_pow2_5,
mix_pow5_2. When each of the two lengths passes exactly one of the tests `IsPo2`, `IsPow<3>`,
`IsPow<5>`, exactly one of the nine conditions holds, and testing the nine cases in any other
order returns the same bucket. With the power tests of the spec every power of 2, 3 or 5
greater than 1 passes exactly one test, whereas the length 1 passes all three: for the pair
`(1, 1)` all nine conditions hold and the first one, pow2, decides. -/
theorem C27_one_condition (T : PowerTests) (len1 len2 : Nat) (s : ComputeScheme) :
    get_2D_type T (len1, len2, s) = first_match (get_2D_type_tests T (len1, len2, s))
    ∧ ([T.IsPo2 len1, T.IsPow3 len1, T.IsPow5 len1].count true = 1 →
        [T.IsPo2 len2, T.IsPow3 len2, T.IsPow5 len2].count true = 1 →
        ((get_2D_type_tests T (len1, len2, s)).filter fun x => x.1).length = 1
        ∧ ∀ l, l.Perm (get_2D_type_tests T (len1, len2, s)) →
            first_match l = get_2D_type T (len1, len2, s))
    ∧ (∀ p len, p ∈ [2, 3, 5] → 1 < len → (∃ a, len = p ^ a) →
        [specPowerTests.IsPo2 len, specPowerTests.IsPow3 len,
          specPowerTests.IsPow5 len].count true = 1)
    ∧ [specPowerTests.IsPo2 1, specPowerTests.IsPow3 1, specPowerTests.IsPow5 1].count true = 3
    ∧ (get_2D_type_tests specPowerTests (1, 1, s)).map (fun x => x.1)
        = [true, true, true, true, true, true, true, true, true]
    ∧ get_2D_type specPowerTests (1, 1, s) = .ok "pow2" := by
  refine ⟨get_2D_type_eq_first_match T _, ?_, ?_, by decide, by rfl, by rfl⟩
  · intro h1 h2
    obtain ⟨b, hb, hcount, hex, hall⟩ := get_2D_type_tests_unique T (len1, len2, s) h1 h2
    refine ⟨hcount, ?_⟩
    intro l hl
    rw [hb]
    apply first_match_of_unique
    · obtain ⟨x, hx, hx1⟩ := hex
      exact ⟨x, hl.mem_iff.2 hx, hx1⟩
    · intro x hx
      exact hall x (hl.mem_iff.1 hx)
  · intro p len hp h1 ha
    exact family_exactly_one hp h1 ha

/-! ## The test after the source stream of `open_2D_file` -/

/-- C29: in `open_2D_file`, for a bucket not yet in the map whose header
`kernel_launch_<precision>_2D_<bucket>.cpp.h` opens while the companion source file
`kernel_launch_<precision>_2D_<bucket>.cpp` cannot be opened, the function returns the header
stream: the trace holds the open of the header and its preamble line and nothing else, neither
a message nor any operation on the source file. More generally, whenever the header opens the
function returns, whatever the source sink does: the test that follows the creation of the
source stream reads the header stream, and its `abort()` branch is never taken. -/
theorem C29_source_open_failure_unnoticed (T : PowerTests) (openable : String → Bool)
    (dim : Key2D) (precision : String) (files : List String) (type : String)
    (hty : get_2D_type T dim = .ok type) (hnew : type ∉ files)
    (hheader : openable ("kernel_launch_" ++ precision ++ "_2D_" ++ type ++ ".cpp.h") = true)
    (hsource : openable ("kernel_launch_" ++ precision ++ "_2D_" ++ type ++ ".cpp") = false) :
    open_2D_file T openable dim precision files
        = .ok ("kernel_launch_" ++ precision ++ "_2D_" ++ type ++ ".cpp.h", files ++ [type],
            [.opened ("kernel_launch_" ++ precision ++ "_2D_" ++ type ++ ".cpp.h"),
             .wrote ("kernel_launch_" ++ precision ++ "_2D_" ++ type ++ ".cpp.h")
               [.text "#include \"kernel_launch.h\"\n"]])
    ∧ (∀ openable' : String → Bool,
        openable' ("kernel_launch_" ++ precision ++ "_2D_" ++ type ++ ".cpp.h") = true →
        ∃ r, open_2D_file T openable' dim precision files = .ok r) := by
  constructor
  · unfold open_2D_file
    simp [hty, hnew, hheader, hsource]
  · intro openable' h'
    unfold open_2D_file
    simp [hty, hnew, h']

/-- Witness for C29: the entry `(64, 128)` in single precision when only the sink
`kernel_launch_single_2D_pow2.cpp` fails to open; `write_cpu_function_2D` then completes and
writes the header unit alone. -/
theorem C29_source_open_failure_unnoticed_witness :
    open_2D_file specPowerTests (fun f => f != "kernel_launch_single_2D_pow2.cpp")
        (64, 128, .CS_KERNEL_2D_SINGLE) "single" []
        = .ok ("kernel_launch_" ++ "single" ++ "_2D_" ++ "pow2" ++ ".cpp.h", [] ++ ["pow2"],
            [.opened ("kernel_launch_" ++ "single" ++ "_2D_" ++ "pow2" ++ ".cpp.h"),
             .wrote ("kernel_launch_" ++ "single" ++ "_2D_" ++ "pow2" ++ ".cpp.h")
               [.text "#include \"kernel_launch.h\"\n"]])
    ∧ write_cpu_function_2D specPowerTests (fun f => f != "kernel_launch_single_2D_pow2.cpp")
        [(64, 128, .CS_KERNEL_2D_SINGLE)] "single"
        = .ok [.opened "kernel_launch_single_2D_pow2.cpp.h",
            .wrote "kernel_launch_single_2D_pow2.cpp.h" [.text "#include \"kernel_launch.h\"\n"],
            .wrote "kernel_launch_single_2D_pow2.cpp.h"
              [.incl "#include \"" "rocfft_kernel_2D_64_128.h" "\"\n"],
            .wrote "kernel_launch_single_2D_pow2.cpp.h"
              [.launcher "POWX_SMALL_GENERATOR(" "rocfft_internal_dfn_sp_ci_ci_2D_64_128"
                (", fft_fwd_ip_2D_64_128, fft_back_ip_2D_64_128, fft_fwd_op_2D_64_128, "
                  ++ "fft_back_op_2D_64_128, float2)\n")]] :=
  ⟨(C29_source_open_failure_unnoticed specPowerTests
      (fun f => f != "kernel_launch_single_2D_pow2.cpp") (64, 128, .CS_KERNEL_2D_SINGLE)
      "single" [] "pow2" (by rfl) (by simp) (by decide) (by decide)).1, by rfl⟩

/-! ## Division and indexing in `write_cpu_function_small` -/

theorem mem_for_range_lt (n gs j i : Nat) (h : i ∈ for_range (i_start gs j) (i_end n gs j)) :
    i < n := by
  unfold for_range i_start i_end at h
  rw [List.mem_range'_1] at h
  have := min_le_right ((j + 1) * gs) n
  omega

theorem for_range_past_end (n gs j : Nat) (h : n ≤ i_start gs j) :
    for_range (i_start gs j) (i_end n gs j) = [] := by
  unfold for_range i_end
  have := min_le_right ((j + 1) * gs) n
  rw [Nat.sub_eq_zero_of_le (by omega)]
  rfl

/-- C30: for a catalog of `n` lengths and a group count `g` (an `int`) with `1 <= g <= n`, the
refusal test of `write_cpu_function_small` does not trigger, the divisor of the group-size
computation is not zero, the function returns, every index `i` that the two loops of a group
read lies below `n` (so `support_list[i]` is an element of the catalog), and a group whose
start index is `n` or more reads nothing. For `g = 0` and any catalog the refusal test does
not trigger and the group-size computation divides by zero. -/
theorem C30_small_division_and_reads (openable : String → Bool) (support_list : List Nat)
    (precision : String) (g : Nat) (hint : g < 2 ^ 31) (h1 : 1 ≤ g)
    (h2 : g ≤ support_list.length) :
    ¬ (support_list.length < size_t_of_int (g : Int))
    ∧ size_t_of_int (g : Int) ≠ 0
    ∧ (∃ tr, write_cpu_function_small openable support_list precision (g : Int) = .ok tr)
    ∧ (∀ j i, i ∈ for_range (i_start (group_size support_list.length g) j)
          (i_end support_list.length (group_size support_list.length g) j) →
        i < support_list.length ∧ support_list[i]? = some (support_list.getD i 0))
    ∧ (∀ j, support_list.length ≤ i_start (group_size support_list.length g) j →
        for_range (i_start (group_size support_list.length g) j)
          (i_end support_list.length (group_size support_list.length g) j) = [])
    ∧ (∀ (catalog : List Nat),
        ¬ (catalog.length < size_t_of_int 0)
        ∧ write_cpu_function_small openable catalog precision 0 = .error .division_by_zero) := by
  have hg : size_t_of_int (g : Int) = g := size_t_of_int_natCast g (by omega)
  refine ⟨by omega, by omega,
    ⟨_, write_cpu_function_small_eq openable support_list precision g hint h1 h2⟩, ?_,
    fun j h => for_range_past_end _ _ j h, ?_⟩
  · intro j i hi
    have hlt := mem_for_range_lt _ _ j i hi
    refine ⟨hlt, ?_⟩
    rw [List.getD_eq_getElem?_getD, List.getElem?_eq_getElem hlt]
    rfl
  · intro catalog
    have h0 : size_t_of_int 0 = 0 := by decide
    refine ⟨by omega, ?_⟩
    unfold write_cpu_function_small
    rw [h0, if_neg (by omega), if_pos rfl]

/-- Witness for C30: the catalog `[64, 128, 256]` in two groups. -/
theorem C30_small_division_and_reads_witness :
    ¬ ([64, 128, 256].length < size_t_of_int ((2 : Nat) : Int))
    ∧ size_t_of_int ((2 : Nat) : Int) ≠ 0
    ∧ ∃ tr, write_cpu_function_small (fun _ => true) [64, 128, 256] "single" ((2 : Nat) : Int)
        = .ok tr :=
  ⟨(C30_small_division_and_reads (fun _ => true) [64, 128, 256] "single" 2 (by decide)
      (by decide) (by decide)).1,
   (C30_small_division_and_reads (fun _ => true) [64, 128, 256] "single" 2 (by decide)
      (by decide) (by decide)).2.1,
   (C30_small_division_and_reads (fun _ => true) [64, 128, 256] "single" 2 (by decide)
      (by decide) (by decide)).2.2.1⟩

/-! ## The launcher units of the fused 2-D kernels -/

theorem headerFileName_2D_inj (precision b b' : String)
    (h : headerFileName_2D precision b = headerFileName_2D precision b') : b = b' := by
  have hd := congrArg String.data h
  simp only [headerFileName_2D, String.data_append, List.append_assoc] at hd
  have h1 := List.append_cancel_left (List.append_cancel_left (List.append_cancel_left hd))
  exact String.ext (List.append_cancel_right h1)

theorem sourceFileName_2D_inj (precision b b' : String)
    (h : sourceFileName_2D precision b = sourceFileName_2D precision b') : b = b' := by
  have hd := congrArg String.data h
  simp only [sourceFileName_2D, String.data_append, List.append_assoc] at hd
  have h1 := List.append_cancel_left (List.append_cancel_left (List.append_cancel_left hd))
  exact String.ext (List.append_cancel_right h1)

theorem headerFileName_2D_ne_source (precision b b' : String) :
    headerFileName_2D precision b ≠ sourceFileName_2D precision b' := by
  intro h
  have hd := congrArg String.data h
  simp only [headerFileName_2D, sourceFileName_2D, String.data_append, List.append_assoc] at hd
  have h1 := List.append_cancel_left (List.append_cancel_left (List.append_cancel_left hd))
  have h2 := congrArg List.reverse h1
  simp only [List.reverse_append] at h2
  have h3 : (".cpp.h" : String).data.reverse = 'h' :: ['.', 'p', 'p', 'c', '.'] := rfl
  have h4 : (".cpp" : String).data.reverse = 'p' :: ['p', 'c', '.'] := rfl
  rw [h3, h4] at h2
  simp only [List.cons_append, List.cons.injEq] at h2
  exact absurd h2.1 (by decide)

theorem writtenTo_append (file : String) (a b : List Event) :
    writtenTo file (a ++ b) = writtenTo file a ++ writtenTo file b := by
  induction a with
  | nil => rfl
  | cons x rest ih =>
    cases x with
    | opened f => simp [writtenTo, ih]
    | wrote f t => by_cases h : f = file <;> simp [writtenTo, ih, h]
    | cout m => simp [writtenTo, ih]

theorem in_bucket_eq (T : PowerTests) (b type : String) (k : Key2D)
    (h : get_2D_type T k = .ok type) : in_bucket T b k = decide (type = b) := by
  simp [in_bucket, h]

theorem in_bucket_iff (T : PowerTests) (b : String) (k : Key2D) :
    in_bucket T b k = true ↔ get_2D_type T k = .ok b := by
  unfold in_bucket
  cases h : get_2D_type T k with
  | error e => simp
  | ok type => simp

theorem write_cpu_function_2D_loop_cons_ok (T : PowerTests) (openable : String → Bool)
    (precision : String) (k : Key2D) (rest : List Key2D) (files : List String)
    (tr : List Event)
    (h : write_cpu_function_2D_loop T openable precision (k :: rest) files = .ok tr) :
    ∃ file files' opening later,
      open_2D_file T openable k precision files = .ok (file, files', opening)
      ∧ k.2.2 = .CS_KERNEL_2D_SINGLE
      ∧ write_cpu_function_2D_loop T openable precision rest files' = .ok later
      ∧ tr = opening ++ [.wrote file [include_line_2D k],
                .wrote file [generator_line_2D precision k]] ++ later := by
  simp only [write_cpu_function_2D_loop] at h
  cases ho : open_2D_file T openable k precision files with
  | error e => simp [ho] at h
  | ok r =>
    obtain ⟨file, files', opening⟩ := r
    simp only [ho] at h
    split_ifs at h with hs
    cases hrest : write_cpu_function_2D_loop T openable precision rest files' with
    | error e => simp [hrest] at h
    | ok later =>
      simp only [hrest, Except.ok.injEq] at h
      exact ⟨file, files', opening, later, rfl, hs, hrest, h.symm⟩

theorem write_cpu_function_2D_loop_step (T : PowerTests) (openable : String → Bool)
    (precision : String) (k : Key2D) (rest : List Key2D) (files : List String)
    (tr : List Event)
    (h : write_cpu_function_2D_loop T openable precision (k :: rest) files = .ok tr) :
    ∃ type later, get_2D_type T k = .ok type ∧ k.2.2 = .CS_KERNEL_2D_SINGLE
      ∧ ((type ∈ files
          ∧ write_cpu_function_2D_loop T openable precision rest files = .ok later
          ∧ tr = (if openable (headerFileName_2D precision type) = true
                    then [.opened (headerFileName_2D precision type)] else [])
                ++ [.wrote (headerFileName_2D precision type) [include_line_2D k],
                    .wrote (headerFileName_2D precision type)
                      [generator_line_2D precision k]]
                ++ later)
        ∨ (type ∉ files ∧ openable (headerFileName_2D precision type) = true
          ∧ write_cpu_function_2D_loop T openable precision rest (files ++ [type]) = .ok later
          ∧ tr = [.opened (headerFileName_2D precision type),
                  .wrote (headerFileName_2D precision type)
                    [.text "#include \"kernel_launch.h\"\n"]]
                ++ (if openable (sourceFileName_2D precision type)
                    then [.opened (sourceFileName_2D precision type),
                          .wrote (sourceFileName_2D precision type)
                            [.incl "#include \"" (headerFileName_2D precision type) "\""]]
                    else [])
                ++ [.wrote (headerFileName_2D precision type) [include_line_2D k],
                    .wrote (headerFileName_2D precision type)
                      [generator_line_2D precision k]]
                ++ later)) := by
  obtain ⟨file, files', opening, later, ho, hs, hrest, htr⟩ :=
    write_cpu_function_2D_loop_cons_ok T openable precision k rest files tr h
  obtain ⟨type, hty, hfile, hcase⟩ := open_2D_file_ok T openable k precision files _ _ _ ho
  refine ⟨type, later, hty, hs, ?_⟩
  rcases hcase with ⟨hmem, hf, hop⟩ | ⟨hmem, hopen, hf, hop⟩
  · left
    subst hf hop hfile
    exact ⟨hmem, hrest, by simpa [headerFileName_2D] using htr⟩
  · right
    subst hf hop hfile
    exact ⟨hmem, hopen, hrest, by simpa [headerFileName_2D, sourceFileName_2D] using htr⟩

theorem writtenTo_reopen (f g : String) (c : Prop) [Decidable c] (rest : List Event) :
    writtenTo f ((if c then [Event.opened g] else []) ++ rest) = writtenTo f rest := by
  split_ifs <;> rfl

theorem mem_wrote_reopen (f g : String) (t : Text) (c : Prop) [Decidable c]
    (rest : List Event) :
    Event.wrote f t ∈ (if c then [Event.opened g] else []) ++ rest ↔ Event.wrote f t ∈ rest := by
  split_ifs <;> simp

theorem write_cpu_function_2D_loop_returns (T : PowerTests) (openable : String → Bool)
    (hopen : ∀ f, openable f = true) (precision : String) :
    ∀ (l : List Key2D) (files : List String),
      (∀ k, k ∈ l → k.2.2 = .CS_KERNEL_2D_SINGLE) →
      (∀ k, k ∈ l → ∃ b, get_2D_type T k = .ok b) →
      ∃ tr, write_cpu_function_2D_loop T openable precision l files = .ok tr := by
  intro l
  induction l with
  | nil =>
    intro files _ _
    exact ⟨[], rfl⟩
  | cons k rest ih =>
    intro files hs hc
    obtain ⟨b, hb⟩ := hc k (List.mem_cons_self _ _)
    have hk := hs k (List.mem_cons_self _ _)
    simp only [write_cpu_function_2D_loop, open_2D_file, hb, hopen, Bool.not_true,
      Bool.false_eq_true, if_false, if_true, hk]
    by_cases hmem : b ∈ files
    · rw [if_pos hmem]
      obtain ⟨later, hlater⟩ := ih files (fun k' hk' => hs k' (List.mem_cons_of_mem _ hk'))
        (fun k' hk' => hc k' (List.mem_cons_of_mem _ hk'))
      simp only [hlater]
      exact ⟨_, rfl⟩
    · rw [if_neg hmem]
      obtain ⟨later, hlater⟩ := ih (files ++ [b])
        (fun k' hk' => hs k' (List.mem_cons_of_mem _ hk'))
        (fun k' hk' => hc k' (List.mem_cons_of_mem _ hk'))
      simp only [hlater]
      exact ⟨_, rfl⟩

theorem writtenTo_header_2D_loop (T : PowerTests) (openable : String → Bool)
    (precision : String) :
    ∀ (l : List Key2D) (files : List String) (tr : List Event),
      write_cpu_function_2D_loop T openable precision l files = .ok tr →
      ∀ b, writtenTo (headerFileName_2D precision b) tr
        = (if b ∉ files ∧ l.any (in_bucket T b) = true
            then [.text "#include \"kernel_launch.h\"\n"] else [])
          ++ (l.filter (in_bucket T b)).flatMap
              (fun k => [include_line_2D k, generator_line_2D precision k]) := by
  intro l
  induction l with
  | nil =>
    intro files tr h b
    simp only [write_cpu_function_2D_loop, Except.ok.injEq] at h
    subst h
    simp [writtenTo]
  | cons k rest ih =>
    intro files tr h b
    obtain ⟨type, later, hty, -, hcase⟩ :=
      write_cpu_function_2D_loop_step T openable precision k rest files tr h
    have hns : ∀ x, sourceFileName_2D precision x ≠ headerFileName_2D precision b :=
      fun x e => headerFileName_2D_ne_source precision b x e.symm
    by_cases hb : type = b
    · subst hb
      have hin : in_bucket T type k = true := (in_bucket_iff T type k).2 hty
      simp only [List.any_cons, List.filter_cons, hin, Bool.true_or, and_true, if_true,
        List.flatMap_cons]
      rcases hcase with ⟨hmem, hrest, htr⟩ | ⟨hmem, -, hrest, htr⟩
      · subst htr
        rw [List.append_assoc, writtenTo_reopen]
        have hih := ih files later hrest type
        simp only [hmem, not_true_eq_false, false_and, if_false, List.nil_append] at hih ⊢
        simp [writtenTo, hih]
      · subst htr
        have hih := ih (files ++ [type]) later hrest type
        simp only [List.mem_append, List.mem_singleton, or_true, not_true_eq_false, false_and,
          if_false, List.nil_append] at hih
        simp only [hmem, not_false_eq_true, if_true]
        by_cases hsrc : openable (sourceFileName_2D precision type) = true
        · simp [writtenTo, writtenTo_append, hih, hsrc, hns]
        · simp [writtenTo, writtenTo_append, hih, hsrc]
    · have hin : in_bucket T b k = false := by
        rw [in_bucket_eq T b type k hty]
        simp [hb]
      have hne : headerFileName_2D precision type ≠ headerFileName_2D precision b :=
        fun e => hb (headerFileName_2D_inj precision _ _ e)
      have hb' : ¬ b = type := fun e => hb e.symm
      simp only [List.any_cons, List.filter_cons, hin, Bool.false_or, Bool.false_eq_true,
        if_false]
      rcases hcase with ⟨hmem, hrest, htr⟩ | ⟨hmem, -, hrest, htr⟩
      · subst htr
        rw [List.append_assoc, writtenTo_reopen]
        have hih := ih files later hrest b
        simp [writtenTo, hih, hne]
      · subst htr
        have hih := ih (files ++ [type]) later hrest b
        simp only [List.mem_append, List.mem_singleton, hb', or_false] at hih
        by_cases hsrc : openable (sourceFileName_2D precision type) = true
        · simp [writtenTo, writtenTo_append, hih, hne, hsrc, hns]
        · simp [writtenTo, writtenTo_append, hih, hne, hsrc]

theorem openedFiles_cons_wrote (f : String) (t : Text) (rest : List Event) :
    openedFiles (.wrote f t :: rest) = openedFiles rest := rfl

theorem openedFiles_cons_opened (f : String) (rest : List Event) :
    openedFiles (.opened f :: rest) = f :: openedFiles rest := rfl

theorem writtenTo_source_2D_loop (T : PowerTests) (openable : String → Bool)
    (precision : String) :
    ∀ (l : List Key2D) (files : List String) (tr : List Event),
      write_cpu_function_2D_loop T openable precision l files = .ok tr →
      ∀ b, writtenTo (sourceFileName_2D precision b) tr
        = if b ∉ files ∧ l.any (in_bucket T b) = true
              ∧ openable (sourceFileName_2D precision b) = true
          then [.incl "#include \"" (headerFileName_2D precision b) "\""] else [] := by
  intro l
  induction l with
  | nil =>
    intro files tr h b
    simp only [write_cpu_function_2D_loop, Except.ok.injEq] at h
    subst h
    simp [writtenTo]
  | cons k rest ih =>
    intro files tr h b
    obtain ⟨type, later, hty, -, hcase⟩ :=
      write_cpu_function_2D_loop_step T openable precision k rest files tr h
    have hhs : ∀ x, headerFileName_2D precision x ≠ sourceFileName_2D precision b :=
      fun x => headerFileName_2D_ne_source precision x b
    by_cases hb : type = b
    · subst hb
      have hin : in_bucket T type k = true := (in_bucket_iff T type k).2 hty
      simp only [List.any_cons, hin, Bool.true_or, true_and]
      rcases hcase with ⟨hmem, hrest, htr⟩ | ⟨hmem, -, hrest, htr⟩
      · subst htr
        rw [List.append_assoc, writtenTo_reopen]
        have hih := ih files later hrest type
        simp only [hmem, not_true_eq_false, false_and, if_false] at hih ⊢
        simp [writtenTo, hih, hhs]
      · subst htr
        have hih := ih (files ++ [type]) later hrest type
        simp only [List.mem_append, List.mem_singleton, or_true, not_true_eq_false, false_and,
          if_false] at hih
        simp only [hmem, not_false_eq_true, true_and]
        by_cases hsrc : openable (sourceFileName_2D precision type) = true
        · simp [writtenTo, writtenTo_append, hih, hsrc, hhs]
        · simp [writtenTo, writtenTo_append, hih, hsrc, hhs]
    · have hin : in_bucket T b k = false := by
        rw [in_bucket_eq T b type k hty]
        simp [hb]
      have hne : sourceFileName_2D precision type ≠ sourceFileName_2D precision b :=
        fun e => hb (sourceFileName_2D_inj precision _ _ e)
      have hb' : ¬ b = type := fun e => hb e.symm
      simp only [List.any_cons, hin, Bool.false_or]
      rcases hcase with ⟨hmem, hrest, htr⟩ | ⟨hmem, -, hrest, htr⟩
      · subst htr
        rw [List.append_assoc, writtenTo_reopen]
        have hih := ih files later hrest b
        simp [writtenTo, hih, hhs]
      · subst htr
        have hih := ih (files ++ [type]) later hrest b
        simp only [List.mem_append, List.mem_singleton, hb', or_false] at hih
        by_cases hsrc : openable (sourceFileName_2D precision type) = true
        · simp [writtenTo, writtenTo_append, hih, hne, hsrc, hhs]
        · simp [writtenTo, writtenTo_append, hih, hne, hsrc, hhs]

theorem get_2D_type_family (len1 len2 : Nat) (s : ComputeScheme) (p q : Nat)
    (hp : p ∈ [2, 3, 5]) (hq : q ∈ [2, 3, 5]) (h1 : 1 < len1) (h2 : 1 < len2)
    (ha : ∃ a, len1 = p ^ a) (hb : ∃ b, len2 = q ^ b) :
    get_2D_type specPowerTests (len1, len2, s) = .ok (family_bucket p q) := by
  have e1 := IsPow_of_family hp h1 ha
  have e2 := IsPow_of_family hq h2 hb
  simp only [get_2D_type, specPowerTests, IsPo2, e1 2 (by simp), e1 3 (by simp), e1 5 (by simp),
    e2 2 (by simp), e2 3 (by simp), e2 5 (by simp)]
  simp only [List.mem_cons, List.mem_singleton, List.not_mem_nil, or_false] at hp hq
  rcases hp with rfl | rfl | rfl <;> rcases hq with rfl | rfl | rfl <;> simp [family_bucket]

theorem get_2D_type_lengths (T : PowerTests) (k k' : Key2D) (h1 : k.1 = k'.1)
    (h2 : k.2.1 = k'.2.1) : get_2D_type T k = get_2D_type T k' := by
  unfold get_2D_type
  rw [h1, h2]

theorem short_name_precision_cases (precision : String) :
    ∃ p, short_name_precision precision = short_name_precision (precision_name p) := by
  by_cases h : precision = "double"
  · exact ⟨.rocfft_precision_double, by simp [short_name_precision, precision_name, h]⟩
  · exact ⟨.rocfft_precision_single, by simp [short_name_precision, precision_name, h]⟩

theorem generator_line_2D_inj (precision : String) (k k' : Key2D)
    (h : generator_line_2D precision k = generator_line_2D precision k') :
    k.1 = k'.1 ∧ k.2.1 = k'.2.1 := by
  obtain ⟨p, hp⟩ := short_name_precision_cases precision
  simp only [generator_line_2D, Piece.launcher.injEq, true_and] at h
  have hn := h.1
  rw [hp, name_2D_eq, name_2D_eq] at hn
  have := entry_name_injective hn
  simp only [Specialization.fused2D.injEq, true_and] at this
  exact this

theorem mem_generator_2D_loop (T : PowerTests) (openable : String → Bool)
    (precision : String) :
    ∀ (l : List Key2D) (files : List String) (tr : List Event),
      write_cpu_function_2D_loop T openable precision l files = .ok tr →
      ∀ (f : String) (k0 : Key2D),
        Event.wrote f [generator_line_2D precision k0] ∈ tr ↔
          ∃ k, k ∈ l ∧ ∃ b, get_2D_type T k = .ok b ∧ f = headerFileName_2D precision b
            ∧ generator_line_2D precision k0 = generator_line_2D precision k := by
  intro l
  induction l with
  | nil =>
    intro files tr h f k0
    simp only [write_cpu_function_2D_loop, Except.ok.injEq] at h
    subst h
    simp
  | cons k rest ih =>
    intro files tr h f k0
    obtain ⟨type, later, hty, -, hcase⟩ :=
      write_cpu_function_2D_loop_step T openable precision k rest files tr h
    have hstep : Event.wrote f [generator_line_2D precision k0] ∈ tr ↔
        (f = headerFileName_2D precision type
          ∧ generator_line_2D precision k0 = generator_line_2D precision k)
        ∨ Event.wrote f [generator_line_2D precision k0] ∈ later := by
      rcases hcase with ⟨-, -, htr⟩ | ⟨-, -, -, htr⟩
      · subst htr
        simp [include_line_2D, generator_line_2D]
      · subst htr
        by_cases hsrc : openable (sourceFileName_2D precision type) = true
        · simp [hsrc, include_line_2D, generator_line_2D]
        · simp [hsrc, include_line_2D, generator_line_2D]
    have hlater : ∃ files', write_cpu_function_2D_loop T openable precision rest files'
        = .ok later := by
      rcases hcase with ⟨-, hrest, -⟩ | ⟨-, -, hrest, -⟩
      · exact ⟨_, hrest⟩
      · exact ⟨_, hrest⟩
    obtain ⟨files', hrest⟩ := hlater
    rw [hstep, ih files' later hrest f k0]
    constructor
    · rintro (⟨hf, hg⟩ | ⟨k', hk', b, hb, hf, hg⟩)
      · exact ⟨k, List.mem_cons_self _ _, type, hty, hf, hg⟩
      · exact ⟨k', List.mem_cons_of_mem _ hk', b, hb, hf, hg⟩
    · rintro ⟨k', hk', b, hb, hf, hg⟩
      rcases List.mem_cons.1 hk' with rfl | hk''
      · left
        rw [hty] at hb
        simp only [Except.ok.injEq] at hb
        subst hb
        exact ⟨hf, hg⟩
      · exact Or.inr ⟨k', hk'', b, hb, hf, hg⟩

theorem generator_2D_routed (T : PowerTests) (openable : String → Bool)
    (precision : String) (list_2D : List Key2D) (tr : List Event) (k : Key2D)
    (hrun : write_cpu_function_2D T openable list_2D precision = .ok tr) (hk : k ∈ list_2D) :
    ∃ b, get_2D_type T k = .ok b
      ∧ ∀ f, Event.wrote f [generator_line_2D precision k] ∈ tr
          ↔ f = headerFileName_2D precision b := by
  have hmem := mem_generator_2D_loop T openable precision list_2D [] tr hrun
  have hex : ∃ b, get_2D_type T k = .ok b := by
    cases hty : get_2D_type T k with
    | ok b => exact ⟨b, rfl⟩
    | error e =>
      exfalso
      have : ∀ (l : List Key2D) (files : List String) (tr : List Event),
          write_cpu_function_2D_loop T openable precision l files = .ok tr → k ∈ l →
          False := by
        intro l
        induction l with
        | nil =>
          intro _ _ _ hk
          simp at hk
        | cons k0 rest ih =>
          intro files tr h hk
          obtain ⟨type, later, hty0, -, hcase⟩ :=
            write_cpu_function_2D_loop_step T openable precision k0 rest files tr h
          rcases List.mem_cons.1 hk with rfl | hk'
          · rw [hty] at hty0
            cases hty0
          · rcases hcase with ⟨-, hrest, -⟩ | ⟨-, -, hrest, -⟩
            · exact ih _ _ hrest hk'
            · exact ih _ _ hrest hk'
      exact this list_2D [] tr hrun hk
  obtain ⟨b, hb⟩ := hex
  refine ⟨b, hb, fun f => ?_⟩
  rw [hmem f k]
  constructor
  · rintro ⟨k', -, b', hb', hf, hg⟩
    obtain ⟨e1, e2⟩ := generator_line_2D_inj precision k k' hg
    rw [get_2D_type_lengths T k k' e1 e2, hb'] at hb
    simp only [Except.ok.injEq] at hb
    rw [hf, hb]
  · intro hf
    exact ⟨k, hk, b, hb, hf, rfl⟩

/-- C24: in a run of `write_cpu_function_2D` that returns, every entry of the list has a bucket
`b` by `get_2D_type`, and its `POWX_SMALL_GENERATOR` line is written to the launcher unit
`kernel_launch_<precision>_2D_<b>.cpp.h` and to no other file; so the lines of two entries of
the list go to a common unit if and only if `get_2D_type` gives the two entries the same
bucket. With the power tests of the spec `get_2D_type(64, 128)` is `pow2` and
`get_2D_type(64, 243)` is `mix_pow2_3`, and in every returning run over a list that holds both
pairs the first goes to the `pow2` unit, the second to the `mix_pow2_3` unit, and no unit
receives both. -/
theorem C24_routing_by_bucket (T : PowerTests) (openable : String → Bool)
    (precision : String) (list_2D : List Key2D) (tr : List Event) (k1 k2 : Key2D)
    (s : ComputeScheme)
    (hrun : write_cpu_function_2D T openable list_2D precision = .ok tr)
    (h1 : k1 ∈ list_2D) (h2 : k2 ∈ list_2D) :
    (∃ b1 b2, get_2D_type T k1 = .ok b1 ∧ get_2D_type T k2 = .ok b2
      ∧ (∀ f, Event.wrote f [generator_line_2D precision k1] ∈ tr
          ↔ f = "kernel_launch_" ++ precision ++ "_2D_" ++ b1 ++ ".cpp.h")
      ∧ (∀ f, Event.wrote f [generator_line_2D precision k2] ∈ tr
          ↔ f = "kernel_launch_" ++ precision ++ "_2D_" ++ b2 ++ ".cpp.h"))
    ∧ ((∃ f, Event.wrote f [generator_line_2D precision k1] ∈ tr
          ∧ Event.wrote f [generator_line_2D precision k2] ∈ tr)
        ↔ get_2D_type T k1 = get_2D_type T k2)
    ∧ get_2D_type specPowerTests (64, 128, s) = .ok "pow2"
    ∧ get_2D_type specPowerTests (64, 243, s) = .ok "mix_pow2_3"
    ∧ (∀ (l : List Key2D) (tr' : List Event),
        write_cpu_function_2D specPowerTests openable l precision = .ok tr' →
        (64, 128, s) ∈ l → (64, 243, s) ∈ l →
        Event.wrote ("kernel_launch_" ++ precision ++ "_2D_" ++ "pow2" ++ ".cpp.h")
            [generator_line_2D precision (64, 128, s)] ∈ tr'
        ∧ Event.wrote ("kernel_launch_" ++ precision ++ "_2D_" ++ "mix_pow2_3" ++ ".cpp.h")
            [generator_line_2D precision (64, 243, s)] ∈ tr'
        ∧ ¬ ∃ f, Event.wrote f [generator_line_2D precision (64, 128, s)] ∈ tr'
              ∧ Event.wrote f [generator_line_2D precision (64, 243, s)] ∈ tr') := by
  obtain ⟨b1, hb1, hr1⟩ := generator_2D_routed T openable precision list_2D tr k1 hrun h1
  obtain ⟨b2, hb2, hr2⟩ := generator_2D_routed T openable precision list_2D tr k2 hrun h2
  have hD1 : get_2D_type specPowerTests (64, 128, s) = .ok "pow2" :=
    get_2D_type_family 64 128 s 2 2 (by simp) (by simp) (by decide) (by decide)
      ⟨6, by norm_num⟩ ⟨7, by norm_num⟩
  have hD2 : get_2D_type specPowerTests (64, 243, s) = .ok "mix_pow2_3" :=
    get_2D_type_family 64 243 s 2 3 (by simp) (by simp) (by decide) (by decide)
      ⟨6, by norm_num⟩ ⟨5, by norm_num⟩
  refine ⟨⟨b1, b2, hb1, hb2, hr1, hr2⟩, ?_, hD1, hD2, ?_⟩
  · constructor
    · rintro ⟨f, hf1, hf2⟩
      have e1 := (hr1 f).1 hf1
      have e2 := (hr2 f).1 hf2
      rw [hb1, hb2, headerFileName_2D_inj precision b1 b2 (e1.symm.trans e2)]
    · intro h
      rw [hb1, hb2] at h
      simp only [Except.ok.injEq] at h
      subst h
      exact ⟨_, (hr1 _).2 rfl, (hr2 _).2 rfl⟩
  · intro l tr' hrun' hm1 hm2
    obtain ⟨c1, hc1, hq1⟩ :=
      generator_2D_routed specPowerTests openable precision l tr' _ hrun' hm1
    obtain ⟨c2, hc2, hq2⟩ :=
      generator_2D_routed specPowerTests openable precision l tr' _ hrun' hm2
    rw [hD1] at hc1
    rw [hD2] at hc2
    simp only [Except.ok.injEq] at hc1 hc2
    subst hc1 hc2
    refine ⟨(hq1 _).2 rfl, (hq2 _).2 rfl, ?_⟩
    rintro ⟨f, hf1, hf2⟩
    have e := headerFileName_2D_inj precision _ _
      (((hq1 f).1 hf1).symm.trans ((hq2 f).1 hf2))
    exact absurd e (by decide)

set_option maxRecDepth 100000 in
/-- Witness for C24: the list `[(64, 128), (64, 243)]` in single precision, every sink
opening. -/
theorem C24_routing_by_bucket_witness :
    ∃ tr, write_cpu_function_2D specPowerTests (fun _ => true)
        [(64, 128, .CS_KERNEL_2D_SINGLE), (64, 243, .CS_KERNEL_2D_SINGLE)] "single" = .ok tr
      ∧ ((∃ f, Event.wrote f [generator_line_2D "single" (64, 128, .CS_KERNEL_2D_SINGLE)] ∈ tr
            ∧ Event.wrote f [generator_line_2D "single" (64, 243, .CS_KERNEL_2D_SINGLE)] ∈ tr)
          ↔ get_2D_type specPowerTests (64, 128, .CS_KERNEL_2D_SINGLE)
              = get_2D_type specPowerTests (64, 243, .CS_KERNEL_2D_SINGLE)) :=
  ⟨_, rfl, (C24_routing_by_bucket specPowerTests (fun _ => true) "single"
    [(64, 128, .CS_KERNEL_2D_SINGLE), (64, 243, .CS_KERNEL_2D_SINGLE)] _
    (64, 128, .CS_KERNEL_2D_SINGLE) (64, 243, .CS_KERNEL_2D_SINGLE) .CS_KERNEL_2D_SINGLE
    rfl (by simp) (by simp)).2.1⟩

theorem WriteKernelToFile_eq (openable : String → Bool) (str : Text) (LEN : String) :
    WriteKernelToFile openable str LEN
      = kernel_file_events openable ("rocfft_kernel_" ++ LEN ++ ".h") str := rfl

theorem kernel_file_2D_eq (kernel : Key2D) :
    "rocfft_kernel_" ++ ("2D_" ++ to_string kernel.1 ++ "_" ++ to_string kernel.2.1) ++ ".h"
      = kernel_file_2D kernel := by
  unfold kernel_file_2D
  apply String.ext
  simp only [String.data_append, List.append_assoc]
  rfl

theorem kernel_file_2D_spelled (kernel : Key2D) :
    kernel_file_2D kernel
      = "rocfft_kernel_2D_" ++ to_string kernel.1 ++ "_" ++ to_string kernel.2.1 ++ ".h" := by
  unfold kernel_file_2D
  apply String.ext
  simp only [String.data_append, List.append_assoc]
  rfl

theorem initParams_name_suffix (H : GeometryHelpers) (params : FFTKernelGenKeyParams)
    (fft_N : List Nat) (blockCompute : Bool) (blockComputeType : BlockComputeType)
    (out : FFTKernelGenKeyParams)
    (h : initParams H params fft_N blockCompute blockComputeType = .ok out) :
    out.name_suffix = params.name_suffix := by
  cases fft_N with
  | nil => simp [initParams] at h
  | cons N0 rest =>
    simp only [initParams] at h
    generalize (if (H.GetWGSAndNT N0).1 ≠ 0 ∧ (H.GetWGSAndNT N0).2 ≠ 0
                ∧ H.MAX_WORK_GROUP_SIZE ≥ 256
             then ((H.GetWGSAndNT N0).1, (H.GetWGSAndNT N0).2) else H.DetermineSizes N0)
      = sizes at h
    split_ifs at h with h1 h2 h3
    simp only [Except.ok.injEq] at h
    subst h
    rfl

theorem initParams_returns_of (H : GeometryHelpers) (params : FFTKernelGenKeyParams)
    (N0 : Nat) (rest : List Nat) (blockCompute : Bool) (blockComputeType : BlockComputeType)
    (out : FFTKernelGenKeyParams)
    (h : initParams H params (N0 :: rest) blockCompute blockComputeType = .ok out)
    (params' : FFTKernelGenKeyParams) (rest' : List Nat) (blockCompute' : Bool)
    (blockComputeType' : BlockComputeType) :
    ∃ out', initParams H params' (N0 :: rest') blockCompute' blockComputeType' = .ok out' := by
  obtain ⟨N, r, hN, -, hsizes, h1, h2, h3⟩ :=
    initParams_ok_iff H params (N0 :: rest) blockCompute blockComputeType out h
  simp only [List.cons.injEq] at hN
  obtain ⟨rfl, -⟩ := hN
  obtain ⟨out', hout', -⟩ := initParams_ok_of H params' N0 rest' blockCompute' blockComputeType'
    (out.fft_workGroupSize, out.fft_numTrans) hsizes h1 h2 h3
  exact ⟨out', hout'⟩

theorem generate_kernel_stockham (H : GeometryHelpers) (C : KernelCodegen)
    (openable : String → Bool) (len : Nat) (p : FFTKernelGenKeyParams)
    (h : initParams H C.defaultParams [len] false .BCT_C2C = .ok p) :
    generate_kernel H C openable len .CS_KERNEL_STOCKHAM
      = .ok (kernel_file_events openable ("rocfft_kernel_" ++ to_string len ++ ".h")
          [.text (C.GenerateKernel p)]) := by
  simp only [generate_kernel, if_true, h]
  rfl

theorem generate_kernel_block_CC (H : GeometryHelpers) (C : KernelCodegen)
    (openable : String → Bool) (len : Nat) (p : FFTKernelGenKeyParams)
    (h : initParams H C.defaultParams [len] false .BCT_C2C = .ok p) :
    ∃ p', generate_kernel H C openable len .CS_KERNEL_STOCKHAM_BLOCK_CC
      = .ok (kernel_file_events openable
          ("rocfft_kernel_" ++ to_string len ++ "_sbcc" ++ ".h")
          [.text (C.GenerateKernel p')]) := by
  obtain ⟨p', hp'⟩ := initParams_returns_of H _ len [] false .BCT_C2C p h
    { C.defaultParams with fft_3StepTwiddle := true, name_suffix := "_sbcc" } [1] true .BCT_C2C
  have hsuf := initParams_name_suffix H _ _ _ _ p' hp'
  refine ⟨p', ?_⟩
  simp only [generate_kernel, reduceCtorEq, if_false, if_true, hp', hsuf, WriteKernelToFile_eq,
    ← String.append_assoc]

theorem generate_kernel_block_RC (H : GeometryHelpers) (C : KernelCodegen)
    (openable : String → Bool) (len : Nat) (p : FFTKernelGenKeyParams)
    (h : initParams H C.defaultParams [len] false .BCT_C2C = .ok p) :
    ∃ p', generate_kernel H C openable len .CS_KERNEL_STOCKHAM_BLOCK_RC
      = .ok (kernel_file_events openable
          ("rocfft_kernel_" ++ to_string len ++ "_sbrc" ++ ".h")
          [.text (C.GenerateKernel p')]) := by
  obtain ⟨p', hp'⟩ := initParams_returns_of H _ len [] false .BCT_C2C p h
    { C.defaultParams with fft_3StepTwiddle := false, name_suffix := "_sbrc" } [1] true .BCT_R2C
  have hsuf := initParams_name_suffix H _ _ _ _ p' hp'
  refine ⟨p', ?_⟩
  simp only [generate_kernel, reduceCtorEq, if_false, if_true, hp', hsuf, WriteKernelToFile_eq,
    ← String.append_assoc]

theorem includedFiles_large_entry_CC (d : Nat → Bool) (precision : String) (len : Nat) :
    includedFiles (write_cpu_function_large_entry d precision
        (len, .CS_KERNEL_STOCKHAM_BLOCK_CC))
      = ["rocfft_kernel_" ++ to_string len ++ "_sbcc" ++ ".h"] := by
  simp [write_cpu_function_large_entry, includedFiles]

theorem includedFiles_large_entry_RC (d : Nat → Bool) (precision : String) (len : Nat) :
    includedFiles (write_cpu_function_large_entry d precision
        (len, .CS_KERNEL_STOCKHAM_BLOCK_RC))
      = ["rocfft_kernel_" ++ to_string len ++ "_sbrc" ++ ".h"] := by
  cases hd : d len <;> simp [write_cpu_function_large_entry, includedFiles, hd]

theorem includedFiles_flatMap {α : Type} (l : List α) (f : α → Text) :
    includedFiles (l.flatMap f) = l.flatMap fun x => includedFiles (f x) := by
  induction l with
  | nil => rfl
  | cons x rest ih => simp [includedFiles_append, ih]

theorem includedFiles_lines_2D (precision : String) (k : Key2D) :
    includedFiles [include_line_2D k, generator_line_2D precision k] = [kernel_file_2D k] := by
  simp [include_line_2D, generator_line_2D, includedFiles, kernel_file_2D]

theorem includedFiles_header_2D (T : PowerTests) (openable : String → Bool)
    (precision : String) (list_2D : List Key2D) (tr : List Event)
    (h : write_cpu_function_2D T openable list_2D precision = .ok tr) (b : String) :
    includedFiles (writtenTo (headerFileName_2D precision b) tr)
      = (list_2D.filter (in_bucket T b)).map kernel_file_2D := by
  rw [writtenTo_header_2D_loop T openable precision list_2D [] tr h b, includedFiles_append,
    includedFiles_flatMap]
  have h0 : includedFiles (if b ∉ ([] : List String) ∧ list_2D.any (in_bucket T b) = true
      then [Piece.text "#include \"kernel_launch.h\"\n"] else []) = [] := by
    split_ifs <;> rfl
  rw [h0, List.nil_append]
  simp only [includedFiles_lines_2D]
  induction list_2D.filter (in_bucket T b) with
  | nil => rfl
  | cons x rest ih => simp [ih]

theorem generate_2D_kernels_step (H : GeometryHelpers) (C : KernelCodegen)
    (openable : String → Bool) (k : Key2D) (rest : List Key2D) (tr : List Event)
    (h : generate_2D_kernels H C openable (k :: rest) = .ok tr) :
    ∃ code later, generate_2D_kernels H C openable rest = .ok later
      ∧ tr = kernel_file_events openable (kernel_file_2D k) code ++ later := by
  by_cases hs0 : k.2.2 = .CS_KERNEL_2D_SINGLE
  · simp only [generate_2D_kernels] at h
    rw [if_pos hs0] at h
    cases h1 : initParams H C.defaultParams [k.1] false .BCT_C2C with
    | error e => simp [h1] at h
    | ok params1 =>
      cases h2 : initParams H { C.defaultParams with forceNonUnitStride := true } [k.2.1]
          false .BCT_C2C with
      | error e => simp [h1, h2] at h
      | ok params2 =>
        cases h3 : generate_2D_kernels H C openable rest with
        | error e => simp [h1, h2, h3] at h
        | ok later =>
          simp only [h1, h2, h3, Except.ok.injEq, WriteKernelToFile_eq, kernel_file_2D_eq] at h
          exact ⟨_, later, rfl, h.symm⟩
  · simp only [generate_2D_kernels] at h
    rw [if_neg hs0] at h
    cases h

theorem openedFiles_kernel_file_events (openable : String → Bool) (fileName : String)
    (str : Text) :
    openedFiles (kernel_file_events openable fileName str)
      = [fileName].filter fun f => openable f := by
  by_cases h : openable fileName = true <;> simp [kernel_file_events, openedFiles, h]

theorem openedFiles_generate_2D_kernels (H : GeometryHelpers) (C : KernelCodegen)
    (openable : String → Bool) :
    ∀ (l : List Key2D) (tr : List Event), generate_2D_kernels H C openable l = .ok tr →
      openedFiles tr = (l.map kernel_file_2D).filter fun f => openable f := by
  intro l
  induction l with
  | nil =>
    intro tr h
    simp only [generate_2D_kernels, Except.ok.injEq] at h
    subst h
    rfl
  | cons k rest ih =>
    intro tr h
    obtain ⟨code, later, hrest, htr⟩ := generate_2D_kernels_step H C openable k rest tr h
    rw [htr, openedFiles_append, openedFiles_kernel_file_events, ih later hrest, List.map_cons,
      ← List.filter_append]
    rfl

theorem mem_generate_2D_kernels (H : GeometryHelpers) (C : KernelCodegen)
    (openable : String → Bool) :
    ∀ (l : List Key2D) (tr : List Event), generate_2D_kernels H C openable l = .ok tr →
      (∀ k, k ∈ l → openable (kernel_file_2D k) = false →
        Event.cout ("File: " ++ kernel_file_2D k ++ " could not be opened, exiting ....\n")
          ∈ tr)
      ∧ (∀ f t, Event.wrote f t ∈ tr → ∃ k, k ∈ l ∧ f = kernel_file_2D k) := by
  intro l
  induction l with
  | nil =>
    intro tr h
    simp only [generate_2D_kernels, Except.ok.injEq] at h
    subst h
    simp
  | cons k rest ih =>
    intro tr h
    obtain ⟨code, later, hrest, htr⟩ := generate_2D_kernels_step H C openable k rest tr h
    obtain ⟨ih1, ih2⟩ := ih later hrest
    subst htr
    constructor
    · intro k' hk' hclosed
      rcases List.mem_cons.1 hk' with rfl | hk''
      · apply List.mem_append_left
        simp [kernel_file_events, hclosed]
      · exact List.mem_append_right _ (ih1 k' hk'' hclosed)
    · intro f t hw
      rcases List.mem_append.1 hw with hw | hw
      · refine ⟨k, List.mem_cons_self _ _, ?_⟩
        by_cases hop : openable (kernel_file_2D k) = true
        · simp only [kernel_file_events, hop, if_true, List.mem_cons, Event.wrote.injEq,
            reduceCtorEq, false_or, List.mem_singleton, List.not_mem_nil, or_false] at hw
          rcases hw with hw | hw
          · exact hw.1
          · exact hw.1
        · simp [kernel_file_events, hop] at hw
      · obtain ⟨k', hk', hf⟩ := ih2 f t hw
        exact ⟨k', List.mem_cons_of_mem _ hk', hf⟩

/-- C31: the kernel header a launcher unit includes for a specialization is the file the kernel
generator writes for it. A small unit of `write_cpu_function_small` includes
`rocfft_kernel_<len>.h` for each of its items, and `generate_kernel(len, CS_KERNEL_STOCKHAM)`
performs the file operations of `WriteKernelToFile` on exactly that name; the large unit of
`write_cpu_function_large` includes `rocfft_kernel_<len>_sbcc.h` for a block-CC entry and
`rocfft_kernel_<len>_sbrc.h` for a block-RC entry, and `generate_kernel` with those schemes
writes exactly those names (it returns whenever `initParams` returns for the length); and for
the fused 2-D kernels, in returning runs over the same list, the kernel headers included by the
unit of a bucket are the files `rocfft_kernel_2D_<len1>_<len2>.h` of the entries of that
bucket, while `generate_2D_kernels` opens exactly the files of that name of the entries of the
list whose sink opens, reports the others, and writes to no other file: every kernel header
that a 2-D unit includes and whose sink opens is a file the generator opened. -/
theorem C31_kernel_header_names (d : Nat → Bool) (H : GeometryHelpers) (C : KernelCodegen)
    (T : PowerTests) (openable : String → Bool) (precision : String) (len : Nat)
    (list_2D : List Key2D) (p : FFTKernelGenKeyParams) (tr2 trK : List Event)
    (hp : initParams H C.defaultParams [len] false .BCT_C2C = .ok p)
    (h2 : write_cpu_function_2D T openable list_2D precision = .ok tr2)
    (hK : generate_2D_kernels H C openable list_2D = .ok trK) :
    (∀ (support_list : List Nat) (a b : Nat),
        includedFiles (write_cpu_function_small_str support_list precision a b)
          = (for_range a b).map
              fun i => "rocfft_kernel_" ++ to_string (support_list.getD i 0) ++ ".h")
    ∧ generate_kernel H C openable len .CS_KERNEL_STOCKHAM
        = .ok (kernel_file_events openable ("rocfft_kernel_" ++ to_string len ++ ".h")
            [.text (C.GenerateKernel p)])
    ∧ includedFiles (write_cpu_function_large_entry d precision
          (len, .CS_KERNEL_STOCKHAM_BLOCK_CC))
        = ["rocfft_kernel_" ++ to_string len ++ "_sbcc" ++ ".h"]
    ∧ (∃ p', generate_kernel H C openable len .CS_KERNEL_STOCKHAM_BLOCK_CC
        = .ok (kernel_file_events openable
            ("rocfft_kernel_" ++ to_string len ++ "_sbcc" ++ ".h")
            [.text (C.GenerateKernel p')]))
    ∧ includedFiles (write_cpu_function_large_entry d precision
          (len, .CS_KERNEL_STOCKHAM_BLOCK_RC))
        = ["rocfft_kernel_" ++ to_string len ++ "_sbrc" ++ ".h"]
    ∧ (∃ p', generate_kernel H C openable len .CS_KERNEL_STOCKHAM_BLOCK_RC
        = .ok (kernel_file_events openable
            ("rocfft_kernel_" ++ to_string len ++ "_sbrc" ++ ".h")
            [.text (C.GenerateKernel p')]))
    ∧ (∀ k : Key2D, kernel_file_2D k
        = "rocfft_kernel_2D_" ++ to_string k.1 ++ "_" ++ to_string k.2.1 ++ ".h")
    ∧ (∀ b, includedFiles
          (writtenTo ("kernel_launch_" ++ precision ++ "_2D_" ++ b ++ ".cpp.h") tr2)
        = (list_2D.filter (in_bucket T b)).map kernel_file_2D)
    ∧ openedFiles trK = (list_2D.map kernel_file_2D).filter (fun f => openable f)
    ∧ (∀ k, k ∈ list_2D → openable (kernel_file_2D k) = false →
        Event.cout ("File: " ++ kernel_file_2D k ++ " could not be opened, exiting ....\n")
          ∈ trK)
    ∧ (∀ f t, Event.wrote f t ∈ trK → ∃ k, k ∈ list_2D ∧ f = kernel_file_2D k)
    ∧ (∀ b f, f ∈ includedFiles
          (writtenTo ("kernel_launch_" ++ precision ++ "_2D_" ++ b ++ ".cpp.h") tr2) →
        openable f = true → f ∈ openedFiles trK) := by
  have hI := includedFiles_header_2D T openable precision list_2D tr2 h2
  have hO := openedFiles_generate_2D_kernels H C openable list_2D trK hK
  obtain ⟨hM1, hM2⟩ := mem_generate_2D_kernels H C openable list_2D trK hK
  refine ⟨fun support_list a b => includedFiles_small_str support_list precision a b,
    generate_kernel_stockham H C openable len p hp,
    includedFiles_large_entry_CC d precision len,
    generate_kernel_block_CC H C openable len p hp,
    includedFiles_large_entry_RC d precision len,
    generate_kernel_block_RC H C openable len p hp,
    kernel_file_2D_spelled, hI, hO, hM1, hM2, ?_⟩
  intro b f hf hopen
  have hf' : f ∈ (list_2D.filter (in_bucket T b)).map kernel_file_2D := by
    rw [← hI b]
    exact hf
  obtain ⟨k, hk, rfl⟩ := List.mem_map.1 hf'
  rw [hO, List.mem_filter]
  exact ⟨List.mem_map.2 ⟨k, (List.mem_filter.1 hk).1, rfl⟩, by simpa using hopen⟩

/-- Witness for C31: the length 4096 and the 2-D list `[(64, 128)]` with the stand-in geometry
helpers and codegen engine, every sink opening. -/
theorem C31_kernel_header_names_witness :
    ∃ trK, generate_2D_kernels sampleGeometry sampleCodegen (fun _ => true)
        [(64, 128, .CS_KERNEL_2D_SINGLE)] = .ok trK
      ∧ generate_kernel sampleGeometry sampleCodegen (fun _ => true) 4096 .CS_KERNEL_STOCKHAM
        = .ok (kernel_file_events (fun _ => true) ("rocfft_kernel_" ++ to_string 4096 ++ ".h")
            [.text (sampleCodegen.GenerateKernel sampleParams4096)])
      ∧ includedFiles
          (writtenTo ("kernel_launch_" ++ "single" ++ "_2D_" ++ "pow2" ++ ".cpp.h")
            sampleTrace2D)
        = ([(64, 128, .CS_KERNEL_2D_SINGLE)].filter (in_bucket specPowerTests "pow2")).map
            kernel_file_2D
      ∧ openedFiles trK
        = ([(64, 128, .CS_KERNEL_2D_SINGLE)].map kernel_file_2D).filter
            (fun f => (fun _ => true) f) :=
  ⟨_, rfl,
    (C31_kernel_header_names is_diagonal_sbrc_3D_length sampleGeometry sampleCodegen
      specPowerTests (fun _ => true) "single" 4096 [(64, 128, .CS_KERNEL_2D_SINGLE)]
      sampleParams4096 sampleTrace2D _ (by rfl) (by rfl) rfl).2.1,
    (C31_kernel_header_names is_diagonal_sbrc_3D_length sampleGeometry sampleCodegen
      specPowerTests (fun _ => true) "single" 4096 [(64, 128, .CS_KERNEL_2D_SINGLE)]
      sampleParams4096 sampleTrace2D _ (by rfl) (by rfl) rfl).2.2.2.2.2.2.2.1 "pow2",
    (C31_kernel_header_names is_diagonal_sbrc_3D_length sampleGeometry sampleCodegen
      specPowerTests (fun _ => true) "single" 4096 [(64, 128, .CS_KERNEL_2D_SINGLE)]
      sampleParams4096 sampleTrace2D _ (by rfl) (by rfl) rfl).2.2.2.2.2.2.2.2.1⟩

end RocFFT
